import Mathlib

/-!
# TicTacToeServer: game, invitation, client and session loop

A shallow embedding of the tic-tac-toe server and the properties of its operations.

* game.c and invitation.c: every function that takes a pointer to a GAME or an
  INVITATION becomes a function from the value of the object before the call to the
  result and the value after it.  The semaphore of the object is part of the value: a
  call whose sem_wait finds the count at zero never returns, which is the result none.
* client.c, player.c, client_registry.c, the INVITE branch of server.c: the objects
  live in a WORLD, a pointer is the place of its object there, and a function maps the
  world before the call to its result and the world after it, or to the FAULT that
  keeps it from returning.  The packets written to the connections are kept in the
  world, in the order in which they were written.
* player_registry.c: the registry is a value that is passed along with the world, whose
  heap holds the players it points to.
* The ratings: the doubles of player_post_result are exact fractions; the formula of
  the spec, over the reals, is the relation spec_rating.
* protocol.c: proto_send_packet sends a packet whole where the clients are concerned,
  and is followed write by write in proto_send_packet_writes, where the stream may take
  fewer bytes than a write offers.
-/

namespace TicTacToe

/-! ## Roles, characters, semaphores -/

/-- The C enum GAME_ROLE; an enum object is an int. -/
abbrev GAME_ROLE := Int

/-- Modelled from the spec: game.h, which declares the enum GAME_ROLE, is not among
the sources; the wire format gives the role byte as 0 = NONE, 1 = FIRST, 2 = SECOND.
The code agrees: it writes 0 into an empty cell and compares the expected turn and
a cell of the first player with the literal 1. -/
def NULL_ROLE : GAME_ROLE := 0

/-- Modelled from the spec: the role byte 1 is FIRST (game.h is not among the sources). -/
def FIRST_PLAYER_ROLE : GAME_ROLE := 1

/-- Modelled from the spec: the role byte 2 is SECOND (game.h is not among the sources). -/
def SECOND_PLAYER_ROLE : GAME_ROLE := 2

/-- Conversion of an int to a C char: the value is reduced to the signed 8-bit
range.  Values in 0..127 are kept, whatever the signedness of char. -/
def int_to_char (x : Int) : Int := (x + 128) % 256 - 128

/-- The int value of a C char, as the integer promotion in an expression such as
str[0] - '0' gives it.  A Lean character stands for the C char of the same code. -/
def char_to_int (c : Char) : Int := int_to_char (Int.ofNat c.toNat)

/-- The terminating NUL of a C string. -/
def NUL : Char := Char.ofNat 0

/-- The chars of a C string: those before the first NUL. -/
def c_string (str : List Char) : List Char := str.takeWhile (fun c => c != NUL)

/-- The C strlen: the number of chars before the first NUL. -/
def strlen (str : List Char) : Nat := (c_string str).length

/-- The char str[k] of a C string (NUL beyond its end). -/
def str_at (str : List Char) (k : Nat) : Char := str.getD k NUL

/-- The call sem_wait on a semaphore whose count is given: the count after the
call, or none when the count is zero and the caller blocks. -/
def sem_wait (count : Nat) : Option Nat :=
  if count = 0 then none else some (count - 1)

/-- The call sem_post on a semaphore whose count is given. -/
def sem_post (count : Nat) : Nat := count + 1

/-! ## The data model of game.c -/

/-- The struct game. -/
structure GAME where
  ref : Int
  gameboard : Fin 3 → Fin 3 → Int
  seph : Nat
  expectedTurn : GAME_ROLE
  player1Sym : Char
  player2Sym : Char
  gameover : Int
  winner : GAME_ROLE

/-- The struct game_move. -/
structure GAME_MOVE where
  cord : Int
  turn : GAME_ROLE
  sym : Char

/-- The indices 0, 1, 2 that every loop of game.c runs through, in order. -/
def indices : List (Fin 3) := [0, 1, 2]

/-- The assignment gameboard[i][j] = v. -/
def set_cell (board : Fin 3 → Fin 3 → Int) (i j : Fin 3) (v : Int) : Fin 3 → Fin 3 → Int :=
  fun a b => if a = i ∧ b = j then v else board a b

/-- The game after sem_post on its semaphore. -/
def post (game : GAME) : GAME := { game with seph := sem_post game.seph }

/-- The function game_create. -/
def game_create : GAME :=
  { ref := 1
    seph := 1
    gameboard := fun _ _ => 0
    expectedTurn := FIRST_PLAYER_ROLE
    gameover := 0
    winner := NULL_ROLE
    player1Sym := ' '
    player2Sym := ' ' }

/-! ## game_apply_move -/

/-- How the loop of game_apply_move that looks for the cell ends: at an occupied
cell (the return -1 inside the loop), with the move placed (found = 1), or with no
cell of that number (found = 0). -/
inductive PLACED where
  | occupied : PLACED
  | found : GAME → PLACED
  | not_found : PLACED

/-- The nested loops of game_apply_move over i and j, with the counter running
from 1 in row-major order: the cells still to visit are given as a list. -/
def place_loop (game : GAME) (cord : Int) (turn : Int) :
    List (Fin 3 × Fin 3) → Int → PLACED
  | [], _ => PLACED.not_found
  | (i, j) :: rest, counter =>
    if cord = counter then
      if game.gameboard i j ≠ 0 then PLACED.occupied
      else
        PLACED.found
          { game with
            gameboard := set_cell game.gameboard i j turn
            expectedTurn :=
              if game.expectedTurn = 1 then SECOND_PLAYER_ROLE else FIRST_PLAYER_ROLE }
    else place_loop game cord turn rest (counter + 1)

/-- The cells in the order in which the nested loops visit them. -/
def cells : List (Fin 3 × Fin 3) :=
  indices.flatMap (fun i => indices.map (fun j => (i, j)))

/-- The loop that checks the rows: the game with the outcome recorded at the first
row of three equal occupied cells, or none when gameEnded stays 0. -/
def check_rows (game : GAME) : List (Fin 3) → Option GAME
  | [] => none
  | i :: rest =>
    if game.gameboard i 0 = game.gameboard i 1 ∧ game.gameboard i 0 = game.gameboard i 2 then
      if game.gameboard i 0 ≠ 0 then
        some { game with gameover := 1, winner := game.gameboard i 0 }
      else check_rows game rest
    else check_rows game rest

/-- The loop that checks the columns; the winner is read from gameboard[i][0], as
the source does. -/
def check_cols (game : GAME) : List (Fin 3) → Option GAME
  | [] => none
  | i :: rest =>
    if game.gameboard 0 i = game.gameboard 1 i ∧ game.gameboard 0 i = game.gameboard 2 i then
      if game.gameboard 0 i ≠ 0 then
        some { game with gameover := 1, winner := game.gameboard i 0 }
      else check_cols game rest
    else check_cols game rest

/-- The check of the diagonal from gameboard[0][0]. -/
def check_left (game : GAME) : Option GAME :=
  if game.gameboard 0 0 = game.gameboard 1 1 ∧ game.gameboard 0 0 = game.gameboard 2 2 then
    if game.gameboard 0 0 ≠ 0 then
      some { game with gameover := 1, winner := game.gameboard 0 0 }
    else none
  else none

/-- The check of the diagonal from gameboard[2][0]; the winner is read from
gameboard[0][0], as the source does. -/
def check_right (game : GAME) : Option GAME :=
  if game.gameboard 2 0 = game.gameboard 1 1 ∧ game.gameboard 2 0 = game.gameboard 0 2 then
    if game.gameboard 2 0 ≠ 0 then
      some { game with gameover := 1, winner := game.gameboard 0 0 }
    else none
  else none

/-- The checker for a winner at the end of game_apply_move: rows, then columns,
then the two diagonals, each only while gameEnded is 0. -/
def check_winner (game : GAME) : GAME :=
  match check_rows game indices with
  | some ended => ended
  | none =>
    match check_cols game indices with
    | some ended => ended
    | none =>
      match check_left game with
      | some ended => ended
      | none =>
        match check_right game with
        | some ended => ended
        | none => game

/-- The function game_apply_move on a game that is not NULL; the move is none for
a NULL pointer.  The result is the returned int and the game after the call.  The
two return -1 of the cell loop leave without sem_post, as in the source. -/
def game_apply_move (game : GAME) (move : Option GAME_MOVE) : Option (Int × GAME) :=
  match move with
  | none => some (-1, game)
  | some move =>
    match sem_wait game.seph with
    | none => none
    | some count =>
      let game := { game with seph := count }
      let cord := move.cord
      let turn := int_to_char move.turn
      if turn ≠ game.expectedTurn then some (-1, post game)
      else if turn = FIRST_PLAYER_ROLE ∧ game.player1Sym ≠ move.sym then some (-1, post game)
      else if turn ≠ FIRST_PLAYER_ROLE ∧ game.player2Sym ≠ move.sym then some (-1, post game)
      else
        match place_loop game cord turn cells 1 with
        | PLACED.occupied => some (-1, game)
        | PLACED.not_found => some (-1, game)
        | PLACED.found game => some (0, post (check_winner game))

/-! ## game_resign, game_is_over, game_get_winner -/

/-- The function game_resign on a game that is not NULL. -/
def game_resign (game : GAME) (role : GAME_ROLE) : Option (Int × GAME) :=
  match sem_wait game.seph with
  | none => none
  | some count =>
    let game := { game with seph := count }
    if role = NULL_ROLE then some (-1, post game)
    else
      let game :=
        if role = FIRST_PLAYER_ROLE then { game with winner := SECOND_PLAYER_ROLE }
        else { game with winner := SECOND_PLAYER_ROLE }
      let game := { game with gameover := 1 }
      some (0, post game)

/-- The function game_is_over on a game that is not NULL. -/
def game_is_over (game : GAME) : Int :=
  if game.gameover ≠ 0 then 1 else 0

/-- The function game_get_winner on a game that is not NULL. -/
def game_get_winner (game : GAME) : GAME_ROLE := game.winner

/-! ## game_unparse_state -/

/-- The char that the inner loop of game_unparse_state writes for the cell
gameboard[i][j]. -/
def cell_char (game : GAME) (i j : Fin 3) : Char :=
  if game.gameboard i j = 0 then ' '
  else if game.gameboard i j = 1 then game.player1Sym
  else game.player2Sym

/-- The chars that one pass of the inner loop of game_unparse_state writes: the
char of the cell and, unless j is 2, a bar. -/
def unparse_cell (game : GAME) (i j : Fin 3) : List Char :=
  cell_char game i j :: (if j ≠ 2 then ['|'] else [])

/-- The function game_unparse_state: the chars written to the buffer, which calloc
has filled with NUL, and the game after the call. -/
def game_unparse_state (game : GAME) : Option (List Char × GAME) :=
  match sem_wait game.seph with
  | none => none
  | some count =>
    let game := { game with seph := count }
    let gamestate :=
      indices.flatMap (fun i => indices.flatMap (fun j => unparse_cell game i j) ++ ['\n'])
    some (gamestate, post game)

/-! ## game_parse_move -/

/-- The function game_parse_move on a game that is not NULL: the returned move
(none for NULL) and the game after the call. -/
def game_parse_move (game : GAME) (role : GAME_ROLE) (str : List Char) :
    Option (Option GAME_MOVE × GAME) :=
  if role = NULL_ROLE then some (none, game)
  else
    match sem_wait game.seph with
    | none => none
    | some count =>
      let game := { game with seph := count }
      let length := strlen str
      if length = 1 then
        let cord := char_to_int (str_at str 0) - char_to_int '0'
        if role = FIRST_PLAYER_ROLE then
          let game :=
            if game.player1Sym = ' ' then
              if game.player2Sym = 'X' then { game with player1Sym := 'O' }
              else { game with player1Sym := 'X' }
            else game
          some (some { cord := cord, sym := game.player1Sym, turn := role }, post game)
        else
          let game :=
            if game.player2Sym = ' ' then
              if game.player1Sym = 'X' then { game with player2Sym := 'O' }
              else { game with player2Sym := 'X' }
            else game
          some (some { cord := cord, sym := game.player2Sym, turn := role }, post game)
      else if length = 4 then
        if str_at str (length - 1) ≠ 'X' ∨ str_at str (length - 1) ≠ 'O' then
          some (none, post game)
        else
          some (some { cord := char_to_int (str_at str 0) - char_to_int '0'
                       sym := str_at str (length - 1)
                       turn := role }, post game)
      else some (none, post game)

/-! ## Playing a game -/

/-- The two game calls of client_make_move for one MOVE request: game_parse_move,
then game_apply_move on the move it returned. -/
def parse_then_apply (game : GAME) (role : GAME_ROLE) (str : List Char) :
    Option (Int × GAME) :=
  match game_parse_move game role str with
  | none => none
  | some (m, game) => game_apply_move game m

/-- A run of MOVE requests that all succeed: the game after them, or none as soon as
one of them blocks or returns -1. -/
def play (game : GAME) : List (GAME_ROLE × List Char) → Option GAME
  | [] => some game
  | (role, str) :: rest =>
    match parse_then_apply game role str with
    | some (0, game) => play game rest
    | _ => none

/-! ## Vocabulary of the properties -/

/-- The row (c-1)/3 of the cell that the spec numbers c, counting 1..9 row-major. -/
def cell_row (c : Int) : Fin 3 := Fin.ofNat ((c - 1) / 3).toNat

/-- The column (c-1)%3 of the cell that the spec numbers c. -/
def cell_col (c : Int) : Fin 3 := Fin.ofNat ((c - 1) % 3).toNat

/-- The char of the decimal digit d. -/
def digit (d : Nat) : Char := Char.ofNat ('0'.toNat + d)

/-- The nine cells of the board, row-major. -/
def board_list (g : GAME) : List Int := cells.map (fun p => g.gameboard p.1 p.2)

/-- A game in which FIRST has been given the symbol X by a first game_parse_move. -/
def opened : GAME := { game_create with player1Sym := 'X' }

/-- The move of FIRST to the centre cell. -/
def centre : GAME_MOVE := { cord := 5, turn := FIRST_PLAYER_ROLE, sym := 'X' }

/-- Five MOVE requests after which FIRST holds the top row (cells 1, 2, 3). -/
def row_win : List (GAME_ROLE × List Char) :=
  [(FIRST_PLAYER_ROLE, ['1']), (SECOND_PLAYER_ROLE, ['4']), (FIRST_PLAYER_ROLE, ['2']),
   (SECOND_PLAYER_ROLE, ['5']), (FIRST_PLAYER_ROLE, ['3'])]

/-- Five MOVE requests after which FIRST holds the middle column (cells 2, 5, 8). -/
def column_win : List (GAME_ROLE × List Char) :=
  [(FIRST_PLAYER_ROLE, ['2']), (SECOND_PLAYER_ROLE, ['1']), (FIRST_PLAYER_ROLE, ['5']),
   (SECOND_PLAYER_ROLE, ['3']), (FIRST_PLAYER_ROLE, ['8'])]

/-- Nine MOVE requests that fill the board with no three in a row. -/
def drawn : List (GAME_ROLE × List Char) :=
  [(FIRST_PLAYER_ROLE, ['1']), (SECOND_PLAYER_ROLE, ['2']), (FIRST_PLAYER_ROLE, ['3']),
   (SECOND_PLAYER_ROLE, ['5']), (FIRST_PLAYER_ROLE, ['4']), (SECOND_PLAYER_ROLE, ['6']),
   (FIRST_PLAYER_ROLE, ['8']), (SECOND_PLAYER_ROLE, ['7']), (FIRST_PLAYER_ROLE, ['9'])]

/-! ## Reachable games -/

/-- The games that calls of game_parse_move and game_apply_move reach from
game_create, each with the moves that game_parse_move has returned for the game so
far; game_apply_move is called on one of those moves. -/
inductive game_reachable : GAME → List GAME_MOVE → Prop where
  | create : game_reachable game_create []
  | parse (g g' : GAME) (ms : List GAME_MOVE) (r : GAME_ROLE) (str : List Char)
      (m : Option GAME_MOVE) :
      game_reachable g ms → game_parse_move g r str = some (m, g') →
      game_reachable g' (m.toList ++ ms)
  | apply (g g' : GAME) (ms : List GAME_MOVE) (m : GAME_MOVE) (rc : Int) :
      game_reachable g ms → m ∈ ms → game_apply_move g (some m) = some (rc, g') →
      game_reachable g' ms

/-- The reading of one cell char of game_unparse_state back into a role, as the spec
has it: a space is an empty cell, the symbol of FIRST a cell of FIRST, the symbol
of SECOND a cell of SECOND. -/
def read_cell (g : GAME) (c : Char) : Option GAME_ROLE :=
  if c = ' ' then some NULL_ROLE
  else if c = g.player1Sym then some FIRST_PLAYER_ROLE
  else if c = g.player2Sym then some SECOND_PLAYER_ROLE
  else none

/-- The symbols of the two roles are both unassigned, or one is X and the other
unassigned, or they are X and O. -/
def symbols_ok (g : GAME) : Prop :=
  (g.player1Sym = ' ' ∧ g.player2Sym = ' ') ∨ (g.player1Sym = 'X' ∧ g.player2Sym = ' ') ∨
    (g.player1Sym = ' ' ∧ g.player2Sym = 'X') ∨ (g.player1Sym = 'X' ∧ g.player2Sym = 'O') ∨
    (g.player1Sym = 'O' ∧ g.player2Sym = 'X')

/-- Every cell is empty or holds a role whose symbol is assigned. -/
def board_ok (g : GAME) : Prop :=
  ∀ i j : Fin 3, g.gameboard i j = 0 ∨ (g.gameboard i j = 1 ∧ g.player1Sym ≠ ' ') ∨
    (g.gameboard i j = 2 ∧ g.player2Sym ≠ ' ')

/-- The invariant of the reachable games and of the moves parsed for them. -/
def game_ok (g : GAME) (ms : List GAME_MOVE) : Prop :=
  symbols_ok g ∧ board_ok g ∧ (g.expectedTurn = 1 ∨ g.expectedTurn = 2) ∧
    ∀ m ∈ ms, m.sym = 'X' ∨ m.sym = 'O'

/-- The game after FIRST, holding X, has moved to the centre of the empty board. -/
def after_centre : GAME :=
  { opened with
    gameboard := set_cell opened.gameboard 1 1 FIRST_PLAYER_ROLE
    expectedTurn := SECOND_PLAYER_ROLE }

/-! ## Invitations (invitation.c) -/

/-- Modelled from the spec: invitation.h, which declares the enum INVITATION_STATE,
is not among the sources; the three states are those of the spec, under the names
that invitation.c uses. -/
inductive INVITATION_STATE where
  | INV_OPEN_STATE : INVITATION_STATE
  | INV_ACCEPTED_STATE : INVITATION_STATE
  | INV_CLOSED_STATE : INVITATION_STATE
  deriving DecidableEq

open INVITATION_STATE

/-- A pointer to a CLIENT: the place of the object in the heap of the world. -/
abbrev CLIENT_PTR := Nat

/-- A pointer to an INVITATION. -/
abbrev INVITATION_PTR := Nat

/-- A pointer to a PLAYER. -/
abbrev PLAYER_PTR := Nat

/-- The struct invitation.  The game that gameRef points to belongs to the
invitation alone and is kept here by value; none is the NULL pointer. -/
structure INVITATION where
  ref : Int
  source : CLIENT_PTR
  target : CLIENT_PTR
  state : INVITATION_STATE
  sourceR : GAME_ROLE
  targetR : GAME_ROLE
  gameRef : Option GAME
  seph : Nat

/-- The object that inv_create allocates and fills in. -/
def inv_create_object (source target : CLIENT_PTR) (source_role target_role : GAME_ROLE) :
    INVITATION :=
  { ref := 1
    source := source
    target := target
    sourceR := source_role
    targetR := target_role
    gameRef := none
    state := INV_OPEN_STATE
    seph := 1 }

/-- The invitation after sem_post on its semaphore. -/
def inv_post (inv : INVITATION) : INVITATION := { inv with seph := sem_post inv.seph }

/-- The function inv_accept on an invitation that is not NULL: the returned int and
the invitation after the call. -/
def inv_accept (inv : INVITATION) : Option (Int × INVITATION) :=
  match sem_wait inv.seph with
  | none => none
  | some count =>
    let inv := { inv with seph := count }
    if inv.state = INV_CLOSED_STATE ∨ inv.state = INV_ACCEPTED_STATE then some (-1, inv_post inv)
    else
      let inv := { inv with state := INV_ACCEPTED_STATE, gameRef := some game_create }
      some (0, inv_post inv)

/-- The call game_resign(game, role) on a pointer that may be NULL: the function
returns -1 at once for NULL. -/
def game_resign_ptr (game : Option GAME) (role : GAME_ROLE) : Option (Int × Option GAME) :=
  match game with
  | none => some (-1, none)
  | some g =>
    match game_resign g role with
    | none => none
    | some (rc, g) => some (rc, some g)

/-- The function inv_close on an invitation that is not NULL.  The value that
game_resign returns is not looked at, as in the source. -/
def inv_close (inv : INVITATION) (role : GAME_ROLE) : Option (Int × INVITATION) :=
  match sem_wait inv.seph with
  | none => none
  | some count =>
    let inv := { inv with seph := count }
    if inv.state = INV_CLOSED_STATE then some (-1, inv_post inv)
    else if role ≠ NULL_ROLE then
      match game_resign_ptr inv.gameRef role with
      | none => none
      | some (_, game) =>
        let inv := { inv with gameRef := game }
        let inv := { inv with state := INV_CLOSED_STATE }
        some (0, inv_post inv)
    else if inv.gameRef.isSome then some (-1, inv_post inv)
    else
      let inv := { inv with state := INV_CLOSED_STATE }
      some (0, inv_post inv)

/-- A call of inv_accept or of inv_close with a role. -/
inductive INV_CALL where
  | accept : INV_CALL
  | close : GAME_ROLE → INV_CALL

/-- The effect of one call on an invitation. -/
def inv_call (inv : INVITATION) : INV_CALL → Option (Int × INVITATION)
  | INV_CALL.accept => inv_accept inv
  | INV_CALL.close role => inv_close inv role

/-- The invitations that calls of inv_accept and inv_close reach from the object
that inv_create makes. -/
inductive inv_reachable : INVITATION → Prop where
  | create (source target : CLIENT_PTR) (source_role target_role : GAME_ROLE) :
      inv_reachable (inv_create_object source target source_role target_role)
  | call (inv inv' : INVITATION) (c : INV_CALL) (rc : Int) :
      inv_reachable inv → inv_call inv c = some (rc, inv') → inv_reachable inv'

/-- The moves of the state that the spec allows: none, OPEN to ACCEPTED, OPEN to
CLOSED, ACCEPTED to CLOSED. -/
def state_move (s s' : INVITATION_STATE) : Prop :=
  s' = s ∨ (s = INV_OPEN_STATE ∧ s' = INV_ACCEPTED_STATE) ∨
    (s = INV_OPEN_STATE ∧ s' = INV_CLOSED_STATE) ∨
    (s = INV_ACCEPTED_STATE ∧ s' = INV_CLOSED_STATE)

/-- The invitation after a run of calls, each of which returns; none if one blocks. -/
def inv_calls (inv : INVITATION) : List INV_CALL → Option INVITATION
  | [] => some inv
  | c :: rest =>
    match inv_call inv c with
    | none => none
    | some (_, inv) => inv_calls inv rest

/-! ## The heap of the server: players, clients, invitations, the wire -/

/-- Why a call has no result: it blocks for ever on a semaphore or mutex whose count
is zero, it reads an array outside its bounds, or it goes through a pointer to no
object (NULL among them). -/
inductive FAULT where
  | blocked : FAULT
  | outside : FAULT
  | dangling : FAULT
  deriving DecidableEq

/-- The result of a call: a value, or the reason why there is none. -/
abbrev RUN (α : Type) := Except FAULT α

/-- The struct player; nameLength, which no function reads, is left out. -/
structure PLAYER where
  username : List Char
  rating : Int
  reference : Int
  seph : Nat

/-- The struct client; listOfInv has MAX_CLIENTS entries, none for NULL. -/
structure CLIENT where
  fd : Int
  ref : Int
  playerRef : Option PLAYER_PTR
  listOfInv : List (Option INVITATION_PTR)
  seph : Nat

/-- The struct client_registry; a count of 1 is a free mutex. -/
structure CLIENT_REGISTRY where
  clientsAmount : Int
  clients : List (Option CLIENT_PTR)
  mutex : Nat
  semaphore : Nat

/-- Modelled from the spec: protocol.h, which declares the packet types, is not among
the sources; these are the types that the spec lists, under the names the code
uses. -/
inductive JEUX_PACKET_TYPE where
  | JEUX_LOGIN_PKT : JEUX_PACKET_TYPE
  | JEUX_USERS_PKT : JEUX_PACKET_TYPE
  | JEUX_INVITE_PKT : JEUX_PACKET_TYPE
  | JEUX_REVOKE_PKT : JEUX_PACKET_TYPE
  | JEUX_ACCEPT_PKT : JEUX_PACKET_TYPE
  | JEUX_DECLINE_PKT : JEUX_PACKET_TYPE
  | JEUX_MOVE_PKT : JEUX_PACKET_TYPE
  | JEUX_RESIGN_PKT : JEUX_PACKET_TYPE
  | JEUX_ACK_PKT : JEUX_PACKET_TYPE
  | JEUX_NACK_PKT : JEUX_PACKET_TYPE
  | JEUX_INVITED_PKT : JEUX_PACKET_TYPE
  | JEUX_REVOKED_PKT : JEUX_PACKET_TYPE
  | JEUX_ACCEPTED_PKT : JEUX_PACKET_TYPE
  | JEUX_DECLINED_PKT : JEUX_PACKET_TYPE
  | JEUX_MOVED_PKT : JEUX_PACKET_TYPE
  | JEUX_RESIGNED_PKT : JEUX_PACKET_TYPE
  | JEUX_ENDED_PKT : JEUX_PACKET_TYPE
  deriving DecidableEq

open JEUX_PACKET_TYPE

/-- Modelled from the spec: the header of a packet (protocol.h is not among the
sources): type, id and role of one byte each and the size of two bytes, here in
host order.  The two timestamps, which are read from the clock, are left out. -/
structure JEUX_PACKET_HEADER where
  type : JEUX_PACKET_TYPE
  id : Nat
  role : Nat
  size : Nat
  deriving DecidableEq

/-- The conversion of an int to the one-byte field of a header. -/
def to_uint8 (x : Int) : Nat := (x % 256).toNat

/-- The conversion of a length to the two-byte size field of a header: the uint16_t
argument of htons keeps the low 16 bits. -/
def to_uint16 (n : Nat) : Nat := n % 65536

/-- A packet as it went out on a connection: the file descriptor, the header and
the payload bytes, none when the header was followed by nothing. -/
structure SENT where
  fd : Int
  hdr : JEUX_PACKET_HEADER
  data : Option (List Char)
  deriving DecidableEq

/-- The state of the server: the objects that malloc has handed out, each kind in
the order of allocation, the client registry, the packets written so far and the
file descriptors on which write fails. -/
structure WORLD where
  clients : List CLIENT
  invitations : List INVITATION
  players : List PLAYER
  client_registry : CLIENT_REGISTRY
  wire : List SENT
  down : List Int

/-- The call sem_wait in a call that cannot go on without it. -/
def wait (count : Nat) : RUN Nat :=
  match sem_wait count with
  | none => Except.error FAULT.blocked
  | some count => Except.ok count

/-- The client that a pointer points to. -/
def the_client (w : WORLD) (client : CLIENT_PTR) : RUN CLIENT :=
  match w.clients[client]? with
  | none => Except.error FAULT.dangling
  | some c => Except.ok c

/-- The invitation that a pointer points to. -/
def the_invitation (w : WORLD) (inv : INVITATION_PTR) : RUN INVITATION :=
  match w.invitations[inv]? with
  | none => Except.error FAULT.dangling
  | some i => Except.ok i

/-- The player that a pointer points to. -/
def the_player (w : WORLD) (player : PLAYER_PTR) : RUN PLAYER :=
  match w.players[player]? with
  | none => Except.error FAULT.dangling
  | some p => Except.ok p

/-- A store into the client that a pointer points to. -/
def put_client (w : WORLD) (client : CLIENT_PTR) (c : CLIENT) : WORLD :=
  { w with clients := w.clients.set client c }

/-- A store into the invitation that a pointer points to. -/
def put_invitation (w : WORLD) (inv : INVITATION_PTR) (i : INVITATION) : WORLD :=
  { w with invitations := w.invitations.set inv i }

/-- A store into the player that a pointer points to. -/
def put_player (w : WORLD) (player : PLAYER_PTR) (p : PLAYER) : WORLD :=
  { w with players := w.players.set player p }

/-- The read client->listOfInv[id]. -/
def slot (c : CLIENT) (id : Int) : RUN (Option INVITATION_PTR) :=
  if id < 0 then Except.error FAULT.outside
  else
    match c.listOfInv[id.toNat]? with
    | none => Except.error FAULT.outside
    | some s => Except.ok s

/-- The loop for (i = 0; i < MAX_CLIENTS; i++) that stops at the first entry of a slot
table equal to a given pointer: the index i, or none when the loop runs out. -/
def find_slot (want : Option INVITATION_PTR) : List (Option INVITATION_PTR) → Nat → Option Nat
  | [], _ => none
  | s :: rest, i => if s = want then some i else find_slot want rest (i + 1)

/-! ## player.c -/

/-- The conversion (int) of a double, which drops the fraction. -/
def to_int (x : ℚ) : Int := Int.tdiv x.num x.den

/-- The function player_post_result.  The doubles are modelled by exact fractions;
the quotient of the two ints in the exponent is the truncating division of C. -/
def player_post_result (w : WORLD) (player1 player2 : Option PLAYER_PTR) (result : Int) :
    RUN WORLD :=
  match player1, player2 with
  | some player1, some player2 =>
    if result ≤ 2 then do
      let s : ℚ × ℚ :=
        if result = 0 then (1 / 2, 1 / 2) else if result = 1 then (1, 0) else (0, 1)
      let r1 := (← the_player w player1).rating
      let r2 := (← the_player w player2).rating
      let e1 : ℚ := 1 / (1 + (10 : ℚ) ^ (Int.tdiv (r2 - r1) 400))
      let e2 : ℚ := 1 / (1 + (10 : ℚ) ^ (Int.tdiv (r1 - r2) 400))
      let p1 ← the_player w player1
      let count ← wait p1.seph
      let w := put_player w player1
        { p1 with rating := r1 + to_int (32 * (s.1 - e1)), seph := sem_post count }
      let p2 ← the_player w player2
      let count ← wait p2.seph
      let w := put_player w player2
        { p2 with rating := r2 + to_int (32 * (s.2 - e2)), seph := sem_post count }
      pure w
    else pure w
  | _, _ => pure w

/-! ## invitation.c on the heap -/

/-- The function client_ref on a client that is not NULL. -/
def client_ref (w : WORLD) (client : CLIENT_PTR) : RUN WORLD := do
  let c ← the_client w client
  let count ← wait c.seph
  pure (put_client w client { c with ref := c.ref + 1, seph := sem_post count })

/-- The function inv_create: the pointer returned, none for NULL, and the world
after the call. -/
def inv_create (w : WORLD) (source target : CLIENT_PTR) (source_role target_role : GAME_ROLE) :
    RUN (Option INVITATION_PTR × WORLD) :=
  if source = target then pure (none, w)
  else do
    let w ← client_ref w source
    let w ← client_ref w target
    let inv := w.invitations.length
    pure (some inv,
      { w with
        invitations :=
          w.invitations ++ [inv_create_object source target source_role target_role] })

/-- The function inv_ref; the pointer is none for NULL. -/
def inv_ref (w : WORLD) (inv : Option INVITATION_PTR) : RUN WORLD :=
  match inv with
  | none => pure w
  | some inv => do
    let i ← the_invitation w inv
    let count ← wait i.seph
    pure (put_invitation w inv { i with ref := i.ref + 1, seph := sem_post count })

/-- The function inv_get_source. -/
def inv_get_source (w : WORLD) (inv : INVITATION_PTR) : RUN CLIENT_PTR := do
  let i ← the_invitation w inv
  pure i.source

/-- The function inv_get_target, which takes and releases the semaphore. -/
def inv_get_target (w : WORLD) (inv : INVITATION_PTR) : RUN CLIENT_PTR := do
  let i ← the_invitation w inv
  let _ ← wait i.seph
  pure i.target

/-- The function inv_get_source_role, which takes and releases the semaphore. -/
def inv_get_source_role (w : WORLD) (inv : INVITATION_PTR) : RUN GAME_ROLE := do
  let i ← the_invitation w inv
  let _ ← wait i.seph
  pure i.sourceR

/-- The function inv_get_target_role, which takes and releases the semaphore. -/
def inv_get_target_role (w : WORLD) (inv : INVITATION_PTR) : RUN GAME_ROLE := do
  let i ← the_invitation w inv
  let _ ← wait i.seph
  pure i.targetR

/-- The function inv_get_game, which takes and releases the semaphore. -/
def inv_get_game (w : WORLD) (inv : INVITATION_PTR) : RUN (Option GAME) := do
  let i ← the_invitation w inv
  let _ ← wait i.seph
  pure i.gameRef

/-- A call of inv_accept or inv_close through a pointer: the returned int and the
world with the invitation after the call. -/
def on_invitation (w : WORLD) (inv : INVITATION_PTR)
    (call : INVITATION → Option (Int × INVITATION)) : RUN (Int × WORLD) := do
  let i ← the_invitation w inv
  match call i with
  | none => Except.error FAULT.blocked
  | some (rc, i) => pure (rc, put_invitation w inv i)

/-- A call of a function of game.c through the pointer gameRef of an invitation:
the result and the world with the game after the call. -/
def on_game {α : Type} (w : WORLD) (inv : INVITATION_PTR)
    (call : GAME → Option (α × GAME)) : RUN (α × WORLD) := do
  let i ← the_invitation w inv
  match i.gameRef with
  | none => Except.error FAULT.dangling
  | some g =>
    match call g with
    | none => Except.error FAULT.blocked
    | some (a, g) => pure (a, put_invitation w inv { i with gameRef := some g })

/-- The game that the pointer gameRef of an invitation points to. -/
def the_game (w : WORLD) (inv : INVITATION_PTR) : RUN GAME := do
  let i ← the_invitation w inv
  match i.gameRef with
  | none => Except.error FAULT.dangling
  | some g => pure g

/-! ## protocol.c and the send functions of client.c -/

/-- The function proto_send_packet, packet by packet: on a connection that is up
every write takes all the bytes it is given, so the header goes out and, when its
size is not zero, that many bytes of the payload; on a connection that is down the
first write returns -1. -/
def proto_send_packet (w : WORLD) (fd : Int) (hdr : JEUX_PACKET_HEADER)
    (data : Option (List Char)) : Int × WORLD :=
  if fd ∈ w.down then (-1, w)
  else if 0 < hdr.size then
    match data with
    | none => (-1, { w with wire := w.wire ++ [{ fd := fd, hdr := hdr, data := none }] })
    | some bytes =>
      (0, { w with
            wire := w.wire ++ [{ fd := fd, hdr := hdr, data := some (bytes.take hdr.size) }] })
  else (0, { w with wire := w.wire ++ [{ fd := fd, hdr := hdr, data := none }] })

/-- The function client_send_packet on a client that is not NULL. -/
def client_send_packet (w : WORLD) (player : CLIENT_PTR) (pkt : JEUX_PACKET_HEADER)
    (data : Option (List Char)) : RUN (Int × WORLD) := do
  let c ← the_client w player
  let count ← wait c.seph
  let w := put_client w player { c with seph := count }
  let (rc, w) := proto_send_packet w c.fd pkt data
  let w := put_client w player { c with seph := sem_post count }
  if rc ≠ 0 then pure (-1, w) else pure (0, w)

/-- The function client_send_ack on a client that is not NULL. -/
def client_send_ack (w : WORLD) (client : CLIENT_PTR) (data : Option (List Char))
    (datalen : Nat) : RUN (Int × WORLD) := do
  let c ← the_client w client
  let count ← wait c.seph
  let w := put_client w client { c with seph := count }
  let hdr : JEUX_PACKET_HEADER :=
    { type := JEUX_ACK_PKT, id := 0, role := 0, size := to_uint16 datalen }
  let (rc, w) := proto_send_packet w c.fd hdr data
  let w := put_client w client { c with seph := sem_post count }
  if rc ≠ 0 then pure (-1, w) else pure (0, w)

/-- The function client_send_nack on a client that is not NULL. -/
def client_send_nack (w : WORLD) (client : CLIENT_PTR) : RUN (Int × WORLD) := do
  let c ← the_client w client
  let count ← wait c.seph
  let w := put_client w client { c with seph := count }
  let hdr : JEUX_PACKET_HEADER := { type := JEUX_NACK_PKT, id := 0, role := 0, size := 0 }
  let (rc, w) := proto_send_packet w c.fd hdr none
  let w := put_client w client { c with seph := sem_post count }
  if rc ≠ 0 then pure (-1, w) else pure (0, w)

/-! ## client.c: the slot table -/

/-- The function client_create: the object it fills in.  The constant MAX_CLIENTS,
defined in a header that is not among the sources, is a parameter. -/
def client_create (MAX_CLIENTS : Nat) (fd : Int) : CLIENT :=
  { ref := 1
    fd := fd
    playerRef := none
    listOfInv := List.replicate MAX_CLIENTS none
    seph := 1 }

/-- The function client_get_player on a client that is not NULL. -/
def client_get_player (w : WORLD) (client : CLIENT_PTR) : RUN (Option PLAYER_PTR) := do
  let c ← the_client w client
  pure c.playerRef

/-- The function client_add_invitation on a client that is not NULL; the invitation
may be NULL. -/
def client_add_invitation (w : WORLD) (client : CLIENT_PTR) (inv : Option INVITATION_PTR) :
    RUN (Int × WORLD) :=
  match inv with
  | none => pure (-1, w)
  | some inv => do
    let c ← the_client w client
    let count ← wait c.seph
    match find_slot none c.listOfInv 0 with
    | some i =>
      let w := put_client w client
        { c with seph := count, listOfInv := c.listOfInv.set i (some inv) }
      let w ← inv_ref w (some inv)
      let c ← the_client w client
      pure (Int.ofNat i, put_client w client { c with seph := sem_post count })
    | none => pure (-1, put_client w client { c with seph := sem_post count })

/-- The function client_remove_invitation on a client that is not NULL; the
invitation may be NULL, and then the loop stops at the first empty entry.  The
count of the invitation is raised by inv_ref, as in the source. -/
def client_remove_invitation (w : WORLD) (client : CLIENT_PTR) (inv : Option INVITATION_PTR) :
    RUN (Int × WORLD) := do
  let c ← the_client w client
  let count ← wait c.seph
  match find_slot inv c.listOfInv 0 with
  | some i =>
    let w := put_client w client { c with seph := count, listOfInv := c.listOfInv.set i none }
    let w ← inv_ref w inv
    let c ← the_client w client
    pure (Int.ofNat i, put_client w client { c with seph := sem_post count })
  | none => pure (-1, put_client w client { c with seph := sem_post count })

/-- The read client->listOfInv[id] through the pointer to the client. -/
def slot_of (w : WORLD) (client : CLIENT_PTR) (id : Int) : RUN (Option INVITATION_PTR) := do
  let c ← the_client w client
  slot c id

/-! ## client.c: invitations and games -/

/-- The function client_make_invitation on clients that are not NULL. -/
def client_make_invitation (w : WORLD) (source target : CLIENT_PTR)
    (source_role target_role : GAME_ROLE) : RUN (Int × WORLD) := do
  let (inv, w) ← inv_create w source target source_role target_role
  let (sourceId, w) ← client_add_invitation w source inv
  let (targetId, w) ← client_add_invitation w target inv
  if sourceId = -1 then pure (-1, w)
  else if targetId = -1 then pure (-1, w)
  else
    let hdr : JEUX_PACKET_HEADER :=
      { type := JEUX_INVITED_PKT, id := to_uint8 targetId, role := to_uint8 target_role,
        size := 0 }
    let (rc, w) ← client_send_packet w target hdr none
    if rc ≠ 0 then pure (-1, w) else pure (sourceId, w)

/-- The function client_revoke_invitation on a client that is not NULL.  Each
client->listOfInv[id] of the source is a read of the slot at that point. -/
def client_revoke_invitation (w : WORLD) (client : CLIENT_PTR) (id : Int) :
    RUN (Int × WORLD) := do
  match ← slot_of w client id with
  | none => pure (-1, w)
  | some inv =>
    let (rc, w) ← on_invitation w inv (fun i => inv_close i NULL_ROLE)
    if rc ≠ 0 then pure (-1, w)
    else if (← inv_get_source w inv) ≠ client then pure (-1, w)
    else
      let ct ← inv_get_target w inv
      let (rc, w) ← client_remove_invitation w client (← slot_of w client id)
      if rc = -1 then pure (-1, w)
      else
        let (ctid, w) ← client_remove_invitation w ct (← slot_of w client id)
        if ctid = -1 then pure (-1, w)
        else
          let hdr : JEUX_PACKET_HEADER :=
            { type := JEUX_REVOKED_PKT, id := to_uint8 ctid, role := 0, size := 0 }
          let (rc, w) ← client_send_packet w ct hdr none
          if rc ≠ 0 then pure (-1, w) else pure (0, w)

/-- The function client_decline_invitation on a client that is not NULL. -/
def client_decline_invitation (w : WORLD) (client : CLIENT_PTR) (id : Int) :
    RUN (Int × WORLD) := do
  match ← slot_of w client id with
  | none => pure (-1, w)
  | some inv =>
    let ct ← inv_get_source w inv
    if (← inv_get_target w inv) ≠ client then pure (-1, w)
    else
      let (rc, w) ← client_remove_invitation w client (← slot_of w client id)
      if rc = -1 then pure (-1, w)
      else
        let (ctid, w) ← client_remove_invitation w ct (← slot_of w client id)
        if ctid = -1 then pure (-1, w)
        else
          let hdr : JEUX_PACKET_HEADER :=
            { type := JEUX_DECLINED_PKT, id := to_uint8 ctid, role := 0, size := 0 }
          let (rc, w) ← client_send_packet w ct hdr none
          if rc ≠ 0 then pure (-1, w) else pure (0, w)

/-- The function client_accept_invitation on a client that is not NULL: the
returned int, the string stored through strp (none when nothing, or NULL, is
stored) and the world after the call. -/
def client_accept_invitation (w : WORLD) (client : CLIENT_PTR) (id : Int) :
    RUN (Int × Option (List Char) × WORLD) := do
  if id < 0 then pure (-1, none, w)
  else
    match ← slot_of w client id with
    | none => pure (-1, none, w)
    | some inv =>
      let (rc, w) ← on_invitation w inv inv_accept
      if rc ≠ 0 then pure (-1, none, w)
      else
        let otherC ← inv_get_source w inv
        if otherC = client then pure (-1, none, w)
        else
          let other ← the_client w otherC
          match find_slot (← slot_of w client id) other.listOfInv 0 with
          | none => pure (-1, none, w)
          | some gid =>
            match ← inv_get_game w inv with
            | none => Except.error FAULT.dangling
            | some _ =>
              let (gs, w) ← on_game w inv game_unparse_state
              if (← inv_get_source_role w inv) = FIRST_PLAYER_ROLE then
                let hdr : JEUX_PACKET_HEADER :=
                  { type := JEUX_ACCEPTED_PKT, id := to_uint8 (Int.ofNat gid), role := 0,
                    size := to_uint16 (strlen gs) }
                let (rc, w) ← client_send_packet w otherC hdr (some gs)
                if rc ≠ 0 then pure (-1, none, w) else pure (0, none, w)
              else
                let hdr : JEUX_PACKET_HEADER :=
                  { type := JEUX_ACCEPTED_PKT, id := to_uint8 (Int.ofNat gid), role := 0,
                    size := 0 }
                let (rc, w) ← client_send_packet w otherC hdr none
                if rc ≠ 0 then pure (-1, none, w) else pure (0, some gs, w)

/-- The function client_resign_game on a client that is not NULL. -/
def client_resign_game (w : WORLD) (client : CLIENT_PTR) (id : Int) : RUN (Int × WORLD) := do
  if id < 0 then pure (-1, w)
  else
    match ← slot_of w client id with
    | none => pure (-1, w)
    | some inv =>
      let (role, otherC) ←
        if (← inv_get_target w inv) = client then do
          let otherC ← inv_get_source w inv
          let role ← inv_get_target_role w inv
          pure (role, otherC)
        else do
          let role ← inv_get_source_role w inv
          let otherC ← inv_get_target w inv
          pure (role, otherC)
      let w ←
        if role = FIRST_PLAYER_ROLE then
          player_post_result w (← client_get_player w client) (← client_get_player w otherC) 2
        else
          player_post_result w (← client_get_player w otherC) (← client_get_player w client) 1
      let (_, w) ← on_invitation w inv (fun i => inv_close i role)
      let (rc, w) ← client_remove_invitation w client (← slot_of w client id)
      if rc = -1 then pure (-1, w)
      else
        let (otherId, w) ← client_remove_invitation w otherC (← slot_of w client id)
        if otherId = -1 then pure (-1, w)
        else
          let hdr : JEUX_PACKET_HEADER :=
            { type := JEUX_RESIGNED_PKT, id := to_uint8 otherId, role := 0, size := 0 }
          let (rc, w) ← client_send_packet w otherC hdr none
          if rc ≠ 0 then pure (-1, w) else pure (0, w)

/-- The part of client_make_move that runs once game_is_over holds after the move. -/
def client_make_move_ended (w : WORLD) (client : CLIENT_PTR) (id : Int)
    (inv : INVITATION_PTR) : RUN (Int × WORLD) := do
  let winner := game_get_winner (← the_game w inv)
  let source ← inv_get_source w inv
  let target ← inv_get_target w inv
  let sR ← inv_get_source_role w inv
  let w ←
    if sR = FIRST_PLAYER_ROLE then
      player_post_result w (← client_get_player w source) (← client_get_player w target) winner
    else
      player_post_result w (← client_get_player w target) (← client_get_player w source) winner
  let (temp, w) ← client_remove_invitation w source (← slot_of w client id)
  if temp = -1 then pure (-1, w)
  else
    let hdr : JEUX_PACKET_HEADER :=
      { type := JEUX_ENDED_PKT, id := to_uint8 temp, role := 0, size := 0 }
    let (rc, w) ← client_send_packet w source hdr none
    if rc ≠ 0 then pure (-1, w)
    else
      let (temp, w) ← client_remove_invitation w target (← slot_of w client id)
      let hdr := { hdr with id := to_uint8 temp }
      let (rc, w) ← client_send_packet w target hdr none
      if rc ≠ 0 then pure (-1, w) else pure (0, w)

/-- The function client_make_move on a client that is not NULL. -/
def client_make_move (w : WORLD) (client : CLIENT_PTR) (id : Int) (move : List Char) :
    RUN (Int × WORLD) := do
  match ← slot_of w client id with
  | none => pure (-1, w)
  | some inv =>
    match ← inv_get_game w inv with
    | none => pure (-1, w)
    | some _ =>
      let (role, otherC) ←
        if (← inv_get_target w inv) = client then do
          let otherC ← inv_get_source w inv
          let role ← inv_get_target_role w inv
          pure (role, otherC)
        else do
          let role ← inv_get_source_role w inv
          let otherC ← inv_get_target w inv
          pure (role, otherC)
      let (m, w) ← on_game w inv (fun g => game_parse_move g role move)
      let (rc, w) ← on_game w inv (fun g => game_apply_move g m)
      if rc ≠ 0 then pure (-1, w)
      else if game_is_over (← the_game w inv) ≠ 0 then client_make_move_ended w client id inv
      else
        let other ← the_client w otherC
        match find_slot (← slot_of w client id) other.listOfInv 0 with
        | none => pure (-1, w)
        | some gid =>
          let (state, w) ← on_game w inv game_unparse_state
          let hdr : JEUX_PACKET_HEADER :=
            { type := JEUX_MOVED_PKT, id := to_uint8 (Int.ofNat gid), role := 0, size := 18 }
          let (rc, w) ← client_send_packet w otherC hdr (some state)
          if rc ≠ 0 then pure (-1, w)
          else
            let (_, w) ← client_send_ack w client none 0
            pure (0, w)

/-! ## client_registry.c and the INVITE branch of server.c -/

/-- The loop of creg_lookup over the entries of the registry: the first client
that is logged in under the name. -/
def creg_lookup_loop (w : WORLD) (user : List Char) :
    List (Option CLIENT_PTR) → RUN (Option CLIENT_PTR)
  | [] => pure none
  | none :: rest => creg_lookup_loop w user rest
  | some client :: rest => do
    match ← client_get_player w client with
    | none => creg_lookup_loop w user rest
    | some p =>
      if c_string (← the_player w p).username = c_string user then pure (some client)
      else creg_lookup_loop w user rest

/-- The function creg_lookup on the registry of the world. -/
def creg_lookup (w : WORLD) (user : List Char) : RUN (Option CLIENT_PTR × WORLD) := do
  let _ ← wait w.client_registry.mutex
  match ← creg_lookup_loop w user w.client_registry.clients with
  | none => pure (none, w)
  | some client =>
    let w ← client_ref w client
    pure (some client, w)

/-- The branch of jeux_client_service for a packet of type JEUX_INVITE_PKT received
by the logged-in client c: hdr is the header received, payload the bytes that
proto_recv_packet stored, none for NULL. -/
def jeux_client_service_invite (w : WORLD) (c : CLIENT_PTR) (hdr : JEUX_PACKET_HEADER)
    (payload : Option (List Char)) : RUN WORLD := do
  let sRole : GAME_ROLE := if hdr.role = 1 then 2 else 1
  let datasize := hdr.size
  match payload with
  | none => Except.error FAULT.dangling
  | some bytes =>
    let username := bytes.take datasize
    let (targetC, w) ← creg_lookup w username
    match targetC with
    | none =>
      let (_, w) ← client_send_nack w c
      pure w
    | some targetC =>
      let (id, w) ← client_make_invitation w c targetC sRole (Int.ofNat hdr.role)
      if id = -1 then
        let (_, w) ← client_send_nack w c
        pure w
      else
        let hdr := { hdr with type := JEUX_ACK_PKT, id := to_uint8 id, size := 0 }
        let (_, w) ← client_send_packet w c hdr none
        pure w

/-! ## A server with two clients -/

/-- Two clients, on the file descriptors 10 and 11, logged in as alice and bob; both
players have the rating 1500, the slot tables have four entries and are empty,
every semaphore is free and both connections are up. -/
def two_clients : WORLD :=
  { clients :=
      [{ client_create 4 10 with playerRef := some 0 },
       { client_create 4 11 with playerRef := some 1 }]
    invitations := []
    players :=
      [{ username := ['a', 'l', 'i', 'c', 'e'], rating := 1500, reference := 3, seph := 1 },
       { username := ['b', 'o', 'b'], rating := 1500, reference := 3, seph := 1 }]
    client_registry :=
      { clientsAmount := 2, clients := [some 0, some 1, none, none], mutex := 1, semaphore := 0 }
    wire := []
    down := [] }

/-- What a statement looks at in a world: the state of each invitation, the slot
table of each client, the rating of each player and the packets written. -/
structure VIEW where
  states : List INVITATION_STATE
  tables : List (List (Option INVITATION_PTR))
  ratings : List Int
  wire : List SENT
  deriving DecidableEq

/-- The view of a world. -/
def view (w : WORLD) : VIEW :=
  { states := w.invitations.map (fun i => i.state)
    tables := w.clients.map (fun c => c.listOfInv)
    ratings := w.players.map (fun p => p.rating)
    wire := w.wire }

/-- A packet without payload as it went out on a connection. -/
def bare (fd : Int) (type : JEUX_PACKET_TYPE) (id role : Nat) : SENT :=
  { fd := fd, hdr := { type := type, id := id, role := role, size := 0 }, data := none }

/-- The header of the INVITE packet by which alice invites bob to play SECOND. -/
def invite_bob : JEUX_PACKET_HEADER :=
  { type := JEUX_INVITE_PKT, id := 0, role := 2, size := 3 }

/-- The server after alice has invited bob: jeux_client_service has handled her
INVITE packet, whose role byte is 2 and whose payload is bob. -/
def invited : RUN WORLD :=
  jeux_client_service_invite two_clients 0 invite_bob (some ['b', 'o', 'b'])

/-- The server after bob has then accepted the invitation, which he holds at his
slot 0. -/
def accepted : RUN WORLD :=
  invited.bind (fun w => (client_accept_invitation w 1 0).map (fun r => r.2.2))

/-- The server after one more MOVE request: client_make_move for the invitation at
slot 0 of the client. -/
def moved (r : RUN WORLD) (client : CLIENT_PTR) (move : List Char) : RUN WORLD :=
  r.bind (fun w => (client_make_move w client 0 move).map (fun p => p.2))

/-- The server after alice, who plays FIRST, and bob have moved to the cells 1, 4, 2
and 5: alice is one move from the top row. -/
def before_win : RUN WORLD :=
  moved (moved (moved (moved accepted 0 ['1']) 1 ['4']) 0 ['2']) 1 ['5']

/-- The view of the world that a run of calls leaves; none when a call has no
result. -/
def seen (r : RUN WORLD) : Option VIEW :=
  match r with
  | Except.ok w => some (view w)
  | Except.error _ => none

/-- The result of a call as a statement looks at it: the returned int and the view
of the world; none when the call has no result. -/
def outcome (r : RUN (Int × WORLD)) : Option (Int × VIEW) :=
  match r with
  | Except.ok p => some (p.1, view p.2)
  | Except.error _ => none

/-- The header of an INVITE packet whose role byte is 1, FIRST. -/
def invite_bob_first : JEUX_PACKET_HEADER :=
  { type := JEUX_INVITE_PKT, id := 0, role := 1, size := 3 }

/-! ## Logout (client.c) and the release of a player (player.c) -/

/-- The function player_unref; the pointer is none for NULL.  The call of free, made
when the count reaches zero, is not modelled: the object stays in the heap with the
count zero, and the heap hands out no address twice. -/
def player_unref (w : WORLD) (player : Option PLAYER_PTR) : RUN WORLD :=
  match player with
  | none => pure w
  | some player => do
    let p ← the_player w player
    let count ← wait p.seph
    pure (put_player w player { p with reference := p.reference - 1, seph := sem_post count })

/-- The loop for (i = 0; i < MAX_CLIENTS; i++) of client_logout from the index i on,
with as many rounds left as the first argument says.  Each round reads
client->listOfInv[i] in the world as it then is; what client_resign_game and
client_revoke_invitation return is not looked at, as in the source. -/
def client_logout_loop (client : CLIENT_PTR) : Nat → Nat → WORLD → RUN WORLD
  | 0, _, w => pure w
  | rounds + 1, i, w => do
    let w ←
      match ← slot_of w client (Int.ofNat i) with
      | none => pure w
      | some inv =>
        match ← inv_get_game w inv with
        | some _ => do
          let (_, w) ← client_resign_game w client (Int.ofNat i)
          pure w
        | none => do
          let (_, w) ← client_revoke_invitation w client (Int.ofNat i)
          pure w
    client_logout_loop client rounds (i + 1) w

/-- The function client_logout on a client that is not NULL.  The semaphore of the
client is taken at the start and given back by the sem_post before each return, so
it is held while the loop runs; MAX_CLIENTS is the length of the slot table. -/
def client_logout (w : WORLD) (client : CLIENT_PTR) : RUN (Int × WORLD) := do
  let c ← the_client w client
  let count ← wait c.seph
  let w := put_client w client { c with seph := count }
  match c.playerRef with
  | none => pure (-1, put_client w client { c with seph := sem_post count })
  | some _ =>
    let w ← client_logout_loop client c.listOfInv.length 0 w
    let w ← player_unref w (← the_client w client).playerRef
    let c ← the_client w client
    pure (0, put_client w client { c with playerRef := none, seph := sem_post c.seph })

/-- The value that a call returns with; none when the call has no result. -/
def returned {α : Type} (r : RUN α) : Option α :=
  match r with
  | Except.ok a => some a
  | Except.error _ => none

/-- Why a call has no result; none when it has one. -/
def fault {α : Type} (r : RUN α) : Option FAULT :=
  match r with
  | Except.ok _ => none
  | Except.error e => some e

/-- The player that each client is logged in as, none for a client that is logged
out. -/
def logins (w : WORLD) : List (Option PLAYER_PTR) := w.clients.map (fun c => c.playerRef)

/-- The reference count of each invitation of a world. -/
def counts (w : WORLD) : List Int := w.invitations.map (fun i => i.ref)

/-- The server with two clients after inv_create has made an invitation from alice
to bob that is in no slot table yet. -/
def created : RUN (Option INVITATION_PTR × WORLD) :=
  inv_create two_clients 0 1 FIRST_PLAYER_ROLE SECOND_PLAYER_ROLE

/-- The server with two clients after alice has invited bob four times, so that both
slot tables are full, and bob has accepted the invitation at his slot 0. -/
def four_invitations : RUN WORLD := do
  let (_, w) ← client_make_invitation two_clients 0 1 FIRST_PLAYER_ROLE SECOND_PLAYER_ROLE
  let (_, w) ← client_make_invitation w 0 1 FIRST_PLAYER_ROLE SECOND_PLAYER_ROLE
  let (_, w) ← client_make_invitation w 0 1 FIRST_PLAYER_ROLE SECOND_PLAYER_ROLE
  let (_, w) ← client_make_invitation w 0 1 FIRST_PLAYER_ROLE SECOND_PLAYER_ROLE
  let (_, _, w) ← client_accept_invitation w 1 0
  pure w

/-- The string that game_unparse_state gives for an empty board: three lines of
three blanks with a bar between them, 18 chars in all. -/
def initial_board : List Char :=
  [' ', '|', ' ', '|', ' ', '\n', ' ', '|', ' ', '|', ' ', '\n', ' ', '|', ' ', '|', ' ', '\n']

/-- The server with two clients once alice has invited bob to play SECOND: both hold
the OPEN invitation, whose count is 3, at their slot 0. -/
def one_invitation : WORLD :=
  { two_clients with
    clients :=
      [{ client_create 4 10 with
         playerRef := some 0, ref := 2, listOfInv := [some 0, none, none, none] },
       { client_create 4 11 with
         playerRef := some 1, ref := 2, listOfInv := [some 0, none, none, none] }]
    invitations :=
      [{ inv_create_object 0 1 FIRST_PLAYER_ROLE SECOND_PLAYER_ROLE with ref := 3 }] }

/-- The int (int)(32*(s - e)) that player_post_result adds to the rating r of a
player whose score is s, the other player being rated r': e is
1/(1 + pow(10, (r' - r)/400)) with the quotient of ints in the exponent. -/
def rating_change (r r' : Int) (s : ℚ) : Int :=
  to_int (32 * (s - 1 / (1 + (10 : ℚ) ^ (Int.tdiv (r' - r) 400))))

/-- The scores s1 and s2 that player_post_result assigns for a result. -/
def scores (result : Int) : ℚ × ℚ :=
  if result = 0 then (1 / 2, 1 / 2) else if result = 1 then (1, 0) else (0, 1)

/-- Modelled from the spec: the rating R' that the formula of the spec gives to a
player rated R whose score is S, the other player being rated R2:
R' = R + round(32 * (S - E)) with E = 1 / (1 + 10^((R2 - R) / 400)), the division
in the exponent being that of the reals and round the nearest integer. -/
def spec_rating (R R2 : Int) (S : ℝ) (R' : Int) : Prop :=
  R' = R + round (32 * (S - 1 / (1 + (10 : ℝ) ^ (((R2 - R : Int) : ℝ) / 400))))

/-- The server with two clients when alice has the rating r1 and bob the rating r2. -/
def rated (r1 r2 : Int) : WORLD :=
  { two_clients with
    players :=
      [{ username := ['a', 'l', 'i', 'c', 'e'], rating := r1, reference := 3, seph := 1 },
       { username := ['b', 'o', 'b'], rating := r2, reference := 3, seph := 1 }] }

/-! ## player_registry.c -/

/-- Modelled from the spec: PLAYER_INITIAL_RATING, which player.h defines and which is
not among the sources; the spec gives 1500 for the rating of a new player. -/
def PLAYER_INITIAL_RATING : Int := 1500

/-- The function player_create: the pointer returned and the world with the new
object, which is the last of the heap.  malloc and calloc are taken to succeed, so
the pointer is never NULL; strcpy copies the chars of the name up to its NUL. -/
def player_create (w : WORLD) (name : List Char) : PLAYER_PTR × WORLD :=
  (w.players.length,
    { w with
      players := w.players ++
        [{ username := c_string name, rating := PLAYER_INITIAL_RATING, reference := 1,
           seph := 1 }] })

/-- The function player_ref; the pointer is none for NULL. -/
def player_ref (w : WORLD) (player : Option PLAYER_PTR) : RUN WORLD :=
  match player with
  | none => pure w
  | some player => do
    let p ← the_player w player
    let count ← wait p.seph
    pure (put_player w player { p with reference := p.reference + 1, seph := sem_post count })

/-- The function player_get_name on a player that is not NULL. -/
def player_get_name (w : WORLD) (player : PLAYER_PTR) : RUN (List Char) := do
  let p ← the_player w player
  pure p.username

/-- The struct player_registry: the array of 1000 pointers, none for NULL, and the
semaphore; playersAmount, which no function reads or writes, is left out. -/
structure PLAYER_REGISTRY where
  players : List (Option PLAYER_PTR)
  seph : Nat

/-- The function preg_init: the object it fills in. -/
def preg_init : PLAYER_REGISTRY :=
  { players := List.replicate 1000 none, seph := 1 }

/-- The loop for (i = 0; i < 1000; i++) of preg_register over the entries from i on:
the pointer returned, none for the NULL returned when the loop runs out, the entries
after the call and the world after the call.  strcmp gives 0 when the two C strings
have the same chars; the branch for a player_create that returns NULL is never
taken. -/
def preg_register_loop (w : WORLD) (name : List Char) :
    List (Option PLAYER_PTR) → RUN (Option PLAYER_PTR × List (Option PLAYER_PTR) × WORLD)
  | [] => pure (none, [], w)
  | none :: rest => do
    let (p, w) := player_create w name
    let w ← player_ref w (some p)
    pure (some p, some p :: rest, w)
  | some q :: rest => do
    if c_string (← player_get_name w q) = c_string name then
      let w ← player_ref w (some q)
      pure (some q, some q :: rest, w)
    else
      let (p, rest, w) ← preg_register_loop w name rest
      pure (p, some q :: rest, w)

/-- The function preg_register on a registry that is not NULL: the pointer returned,
the registry and the world after the call. -/
def preg_register (w : WORLD) (preg : PLAYER_REGISTRY) (name : List Char) :
    RUN (Option PLAYER_PTR × PLAYER_REGISTRY × WORLD) := do
  let count ← wait preg.seph
  let (p, players, w) ← preg_register_loop w name preg.players
  pure (p, { players := players, seph := sem_post count }, w)

/-- The registries, each with the world it lives in, that calls of preg_register
reach from the registry that preg_init makes. -/
inductive preg_reachable : PLAYER_REGISTRY → WORLD → Prop where
  | init (w : WORLD) : preg_reachable preg_init w
  | register (preg preg' : PLAYER_REGISTRY) (w w' : WORLD) (name : List Char)
      (p : Option PLAYER_PTR) :
      preg_reachable preg w → preg_register w preg name = Except.ok (p, preg', w') →
      preg_reachable preg' w'

/-- The players that a registry stores: its entries that are not NULL, in order. -/
def stored (preg : PLAYER_REGISTRY) : List PLAYER_PTR := preg.players.filterMap id

/-- The name, as a C string, of the player that a pointer points to; none for a
pointer to no object. -/
def name_at (w : WORLD) (p : PLAYER_PTR) : Option (List Char) :=
  (w.players[p]?).map (fun x => c_string x.username)

/-- What holds of every registry that is reached: the stored pointers come first and
there are at most 1000 of them, the semaphore is free, every stored pointer points
to a player whose semaphore is free, and the names of the stored players differ. -/
def preg_ok (preg : PLAYER_REGISTRY) (w : WORLD) : Prop :=
  ∃ ps : List PLAYER_PTR,
    preg.players = ps.map some ++ List.replicate (1000 - ps.length) none ∧
    ps.length ≤ 1000 ∧ 0 < preg.seph ∧
    (∀ p, p ∈ ps → ∃ x, the_player w p = Except.ok x ∧ 0 < x.seph) ∧
    (ps.map (name_at w)).Nodup

/-- A server without clients and without players. -/
def empty_server : WORLD :=
  { clients := []
    invitations := []
    players := []
    client_registry :=
      { clientsAmount := 0, clients := [none, none, none, none], mutex := 1, semaphore := 0 }
    wire := []
    down := [] }

/-- The name made of n + 1 letters a. -/
def name_of (n : Nat) : List Char := List.replicate (n + 1) 'a'

/-- A server without clients whose heap holds the n players name_of 0, ...,
name_of (n - 1), each as preg_register leaves a new player: the initial rating and
the count 2. -/
def players_named (n : Nat) : WORLD :=
  { empty_server with
    players := (List.range n).map (fun i =>
      { username := name_of i, rating := PLAYER_INITIAL_RATING, reference := 2, seph := 1 }) }

/-- The registry whose first n entries point to the players 0, ..., n - 1 and whose
other entries are NULL. -/
def registry_of (n : Nat) : PLAYER_REGISTRY :=
  { players := (List.range n).map some ++ List.replicate (1000 - n) none, seph := 1 }

/-! ## client_registry.c: registration, and client_login of client.c -/

/-- The function creg_init: the object it fills in; pthread_mutex_init and sem_init
succeed.  The constant MAX_CLIENTS is a parameter. -/
def creg_init (MAX_CLIENTS : Nat) : CLIENT_REGISTRY :=
  { clientsAmount := 0, clients := List.replicate MAX_CLIENTS none, mutex := 1, semaphore := 1 }

/-- The function client_unref; the pointer is none for NULL.  The call of free, made
when the count reaches zero, is not modelled: the object stays in the heap with the
count zero. -/
def client_unref (w : WORLD) (client : Option CLIENT_PTR) : RUN WORLD :=
  match client with
  | none => pure w
  | some client => do
    let c ← the_client w client
    let count ← wait c.seph
    pure (put_client w client { c with ref := c.ref - 1, seph := sem_post count })

/-- The function creg_register on the registry of the world: the pointer returned
and the world after the call.  pthread_mutex_lock is a wait on the mutex, MAX_CLIENTS
is the length of the array of the registry, and client_create, whose malloc succeeds,
puts the new client last in the heap.  When the loop finds no entry that is NULL the
client is stored nowhere; the count is raised all the same, as in the source. -/
def creg_register (w : WORLD) (fd : Int) : RUN (Option CLIENT_PTR × WORLD) := do
  let cr := w.client_registry
  let mutex ← wait cr.mutex
  let c := w.clients.length
  let w := { w with clients := w.clients ++ [client_create cr.clients.length fd] }
  let clients :=
    match find_slot none cr.clients 0 with
    | some i => cr.clients.set i (some c)
    | none => cr.clients
  let clientsAmount := cr.clientsAmount + 1
  let semaphore ← if clientsAmount = 1 then wait cr.semaphore else pure cr.semaphore
  pure (some c,
    { w with
      client_registry :=
        { clientsAmount := clientsAmount, clients := clients, mutex := sem_post mutex,
          semaphore := semaphore } })

/-- The function creg_unregister on the registry of the world; the client is none
for NULL.  The call close(fd) is modelled by putting fd among the descriptors on
which write fails. -/
def creg_unregister (w : WORLD) (client : Option CLIENT_PTR) : RUN (Int × WORLD) := do
  let cr := w.client_registry
  let mutex ← wait cr.mutex
  match client with
  | none => pure (-1, { w with client_registry := { cr with mutex := sem_post mutex } })
  | some client =>
    match find_slot (some client) cr.clients 0 with
    | some i =>
      let fd := (← the_client w client).fd
      let w := { w with down := w.down ++ [fd] }
      let clientsAmount := cr.clientsAmount - 1
      let w ← client_unref w (some client)
      let clients := cr.clients.set i none
      let semaphore := if clientsAmount = 0 then sem_post cr.semaphore else cr.semaphore
      pure (0,
        { w with
          client_registry :=
            { clientsAmount := clientsAmount, clients := clients, mutex := sem_post mutex,
              semaphore := semaphore } })
    | none => pure (-1, { w with client_registry := { cr with mutex := sem_post mutex } })

/-- The function client_login on a client that is not NULL; the player is none for
NULL.  The semaphore of the client is held from the first line to the sem_post
before each return.  The call client_unref(temp) is reached only when temp is
NULL. -/
def client_login (w : WORLD) (client : CLIENT_PTR) (player : Option PLAYER_PTR) :
    RUN (Int × WORLD) := do
  let c ← the_client w client
  let count ← wait c.seph
  let w := put_client w client { c with seph := count }
  match player with
  | none => pure (-1, put_client w client { c with seph := sem_post count })
  | some player =>
    if c.playerRef ≠ none then pure (-1, put_client w client { c with seph := sem_post count })
    else
      let (temp, w) ← creg_lookup w (← player_get_name w player)
      match temp with
      | some _ =>
        let c ← the_client w client
        pure (-1, put_client w client { c with seph := sem_post c.seph })
      | none =>
        let w ← client_unref w temp
        let c ← the_client w client
        let w := put_client w client { c with playerRef := some player }
        let w ← player_ref w (some player)
        let c ← the_client w client
        pure (0, put_client w client { c with seph := sem_post c.seph })

/-- The server before the first connection: no client, no player, and the registry
that creg_init makes, here with four entries. -/
def started : WORLD := { empty_server with client_registry := creg_init 4 }

/-- A run of creg_register for the file descriptors of a list, in order: the
pointers returned and the world after the calls. -/
def registrations : WORLD → List Int → RUN (List (Option CLIENT_PTR) × WORLD)
  | w, [] => pure ([], w)
  | w, fd :: rest => do
    let (c, w) ← creg_register w fd
    let (cs, w) ← registrations w rest
    pure (c :: cs, w)

/-- The entries of the registry and its count, the reference count of each client
and the player each client is logged in as. -/
structure REGISTERED where
  clients : List (Option CLIENT_PTR)
  clientsAmount : Int
  refs : List Int
  logins : List (Option PLAYER_PTR)
  deriving DecidableEq

/-- What a statement looks at in the registry and the clients of a world. -/
def registered (w : WORLD) : REGISTERED :=
  { clients := w.client_registry.clients
    clientsAmount := w.client_registry.clientsAmount
    refs := w.clients.map (fun c => c.ref)
    logins := logins w }

/-- The server after six connections, on the file descriptors 10 to 15, and the
registration of the player x, to whom preg_register gives the pointer 0. -/
def six_connections : RUN WORLD := do
  let (_, w) ← registrations started [10, 11, 12, 13, 14, 15]
  let (_, _, w) ← preg_register w preg_init ['x']
  pure w

/-- A run of two calls of client_login, by the clients c1 and then c2, both for the
player 0: the two ints returned and the world after the calls. -/
def two_logins (r : RUN WORLD) (c1 c2 : CLIENT_PTR) : RUN ((Int × Int) × WORLD) := do
  let w ← r
  let (rc1, w) ← client_login w c1 (some 0)
  let (rc2, w) ← client_login w c2 (some 0)
  pure ((rc1, rc2), w)

/-! ## The MOVE branch of server.c -/

/-- The branch of jeux_client_service for a packet of type JEUX_MOVE_PKT received by
the logged-in client c: hdr is the header received, payload the bytes that
proto_recv_packet stored, none for NULL.  The string passed on is the payload cut
at datasize; realloc of NULL gives a buffer of one byte, the empty string.  When
client_make_move returns 0 the branch sends nothing. -/
def jeux_client_service_move (w : WORLD) (c : CLIENT_PTR) (hdr : JEUX_PACKET_HEADER)
    (payload : Option (List Char)) : RUN WORLD := do
  let datasize := hdr.size
  let payloadstr :=
    match payload with
    | none => []
    | some bytes => bytes.take datasize
  let (rc, w) ← client_make_move w c (Int.ofNat hdr.id) payloadstr
  if rc ≠ 0 then
    let (_, w) ← client_send_nack w c
    pure w
  else pure w

/-- The header of a MOVE packet for the game at slot 0, with a payload of one
byte. -/
def move_packet : JEUX_PACKET_HEADER :=
  { type := JEUX_MOVE_PKT, id := 0, role := 0, size := 1 }

/-- The packets of a list that went out on a connection. -/
def sent_to (fd : Int) (wire : List SENT) : List SENT := wire.filter (fun s => s.fd = fd)

/-- The world in which a client holds its own semaphore: the count is zero, as it is
from the sem_wait at the start of client_logout to the sem_post at its end. -/
def holding (w : WORLD) (client : CLIENT_PTR) : RUN WORLD := do
  let c ← the_client w client
  pure (put_client w client { c with seph := 0 })

/-- The symbols of the two roles in the game of each invitation that has one. -/
def symbols (w : WORLD) : List (Option (Char × Char)) :=
  w.invitations.map (fun i => i.gameRef.map (fun g => (g.player1Sym, g.player2Sym)))

/-- The count of the semaphore of the game of each invitation that has one. -/
def game_counts (w : WORLD) : List (Option Nat) :=
  w.invitations.map (fun i => i.gameRef.map (fun g => g.seph))

/-! ## protocol.c, write by write -/

/-- Modelled from the spec: sizeof(JEUX_PACKET_HEADER), 16 bytes; protocol.h is not
among the sources. -/
def HEADER_SIZE : Nat := 16

/-- One call of write in proto_send_packet: the place of the first byte requested,
as a number of bytes from the start of the buffer (the header, or the payload), the
number of bytes requested and the number of bytes that the stream took. -/
structure WRITE where
  offset : Nat
  count : Nat
  taken : Nat
  deriving DecidableEq

/-- The number of bytes that a stream takes from a write of count bytes when it is
ready for cap bytes: at least 1 and at most count. -/
def take_bytes (cap count : Nat) : Nat := max 1 (min cap count)

/-- The loop while (bytes_sent < sizeof(JEUX_PACKET_HEADER)) of proto_send_packet
from the value bytes_sent on: the calls of write, and what is left of the stream.
The stream is the list of the numbers of bytes it is ready for at each write, and
takes all it is given once the list is used up; no write returns -1 or 0.  The
pointer hdr + bytes_sent is bytes_sent headers, not bytes, after hdr.  The first
argument bounds the number of rounds; every round adds at least 1 to bytes_sent, so
HEADER_SIZE rounds are enough. -/
def send_header : Nat → Nat → List Nat → List WRITE × List Nat
  | 0, _, stream => ([], stream)
  | rounds + 1, bytes_sent, stream =>
    if bytes_sent < HEADER_SIZE then
      let num_bytes := take_bytes (stream.headD HEADER_SIZE) HEADER_SIZE
      let (writes, stream') := send_header rounds (bytes_sent + num_bytes) stream.tail
      ({ offset := HEADER_SIZE * bytes_sent, count := HEADER_SIZE, taken := num_bytes } ::
        writes, stream')
    else ([], stream)

/-- The loop while (bytes_sent < datasize) of proto_send_packet from the value
bytes_sent on: each write asks for datasize bytes from data + bytes_sent. -/
def send_payload (datasize : Nat) : Nat → Nat → List Nat → List WRITE
  | 0, _, _ => []
  | rounds + 1, bytes_sent, stream =>
    if bytes_sent < datasize then
      let num_bytes := take_bytes (stream.headD datasize) datasize
      { offset := bytes_sent, count := datasize, taken := num_bytes } ::
        send_payload datasize rounds (bytes_sent + num_bytes) stream.tail
    else []

/-- The function proto_send_packet, write by write, for a header that is not NULL
and a payload of datasize bytes: the calls of write for the header and those for
the payload. -/
def proto_send_packet_writes (datasize : Nat) (stream : List Nat) :
    List WRITE × List WRITE :=
  let (header, stream) := send_header HEADER_SIZE 0 stream
  (header, if 0 < datasize then send_payload datasize datasize 0 stream else [])

/-- The bytes that the stream took, each as its place in the buffer. -/
def taken_bytes (writes : List WRITE) : List Nat :=
  writes.flatMap (fun x => List.range' x.offset x.taken)

/-- Every byte that the writes request lies in a buffer of the given size. -/
def inside (size : Nat) (writes : List WRITE) : Prop :=
  ∀ x, x ∈ writes → x.offset + x.count ≤ size

instance (size : Nat) (writes : List WRITE) : Decidable (inside size writes) := by
  unfold inside
  infer_instance

/-! ## Three in a line -/

/-- Three cells of a board hold the same role, and it is not NULL_ROLE. -/
def same_role (board : Fin 3 → Fin 3 → Int) (a b c : Fin 3 × Fin 3) : Prop :=
  board a.1 a.2 = board b.1 b.2 ∧ board a.1 a.2 = board c.1 c.2 ∧ board a.1 a.2 ≠ 0

/-- A board has a row, a column or a diagonal whose three cells hold the same role,
which is not NULL_ROLE. -/
def has_line (board : Fin 3 → Fin 3 → Int) : Prop :=
  (∃ i : Fin 3, same_role board (i, 0) (i, 1) (i, 2)) ∨
    (∃ j : Fin 3, same_role board (0, j) (1, j) (2, j)) ∨
    same_role board (0, 0) (1, 1) (2, 2) ∨ same_role board (2, 0) (1, 1) (0, 2)

/-- A game in which FIRST, with the symbol X, holds the cells 1 and 2 and is on the
move; it is not over. -/
def top_two : GAME :=
  { opened with gameboard := fun i j => if i = 0 ∧ (j = 0 ∨ j = 1) then 1 else 0 }

/-! ## Lemmas on the loops of game_apply_move -/

theorem sem_wait_free (count : Nat) (h : 0 < count) : sem_wait count = some (count - 1) := by
  simp [sem_wait]; omega

theorem int_to_char_fits (x : Int) (h : -128 ≤ x ∧ x ≤ 127) : int_to_char x = x := by
  unfold int_to_char
  omega

theorem check_rows_frame (g : GAME) (l : List (Fin 3)) (e : GAME)
    (h : check_rows g l = some e) :
    e.gameboard = g.gameboard ∧ e.expectedTurn = g.expectedTurn ∧ e.seph = g.seph ∧
      e.player1Sym = g.player1Sym ∧ e.player2Sym = g.player2Sym ∧ e.ref = g.ref := by
  induction l with
  | nil => simp [check_rows] at h
  | cons i rest ih =>
    simp only [check_rows] at h
    split_ifs at h with h1 h2
    · cases h; simp
    · exact ih h
    · exact ih h

theorem check_cols_frame (g : GAME) (l : List (Fin 3)) (e : GAME)
    (h : check_cols g l = some e) :
    e.gameboard = g.gameboard ∧ e.expectedTurn = g.expectedTurn ∧ e.seph = g.seph ∧
      e.player1Sym = g.player1Sym ∧ e.player2Sym = g.player2Sym ∧ e.ref = g.ref := by
  induction l with
  | nil => simp [check_cols] at h
  | cons i rest ih =>
    simp only [check_cols] at h
    split_ifs at h with h1 h2
    · cases h; simp
    · exact ih h
    · exact ih h

/-- The checker for a winner writes only gameover and winner. -/
theorem check_winner_frame (g : GAME) :
    (check_winner g).gameboard = g.gameboard ∧ (check_winner g).expectedTurn = g.expectedTurn ∧
      (check_winner g).seph = g.seph ∧ (check_winner g).player1Sym = g.player1Sym ∧
      (check_winner g).player2Sym = g.player2Sym ∧ (check_winner g).ref = g.ref := by
  unfold check_winner
  split
  · next e h => exact check_rows_frame g _ e h
  · split
    · next e h => exact check_cols_frame g _ e h
    · split
      · next e h =>
        simp only [check_left] at h
        split_ifs at h
        cases h; simp
      · split
        · next e h =>
          simp only [check_right] at h
          split_ifs at h
          cases h; simp
        · simp

/-- The cell loop stops at the cell gameboard[i][j] when the move names the
number 3i + j + 1. -/
theorem place_loop_cell (g : GAME) (turn : Int) (i j : Fin 3) :
    place_loop g (3 * (i.val : Int) + (j.val : Int) + 1) turn cells 1 =
      if g.gameboard i j ≠ 0 then PLACED.occupied
      else PLACED.found
        { g with
          gameboard := set_cell g.gameboard i j turn
          expectedTurn :=
            if g.expectedTurn = 1 then SECOND_PLAYER_ROLE else FIRST_PLAYER_ROLE } := by
  fin_cases i <;> fin_cases j <;> simp [cells, indices, place_loop]

theorem place_loop_outside (g : GAME) (cord turn : Int) (h : cord < 1 ∨ 9 < cord) :
    place_loop g cord turn cells 1 = PLACED.not_found := by
  have h1 : cord ≠ 1 := by omega
  have h2 : cord ≠ 2 := by omega
  have h3 : cord ≠ 3 := by omega
  have h4 : cord ≠ 4 := by omega
  have h5 : cord ≠ 5 := by omega
  have h6 : cord ≠ 6 := by omega
  have h7 : cord ≠ 7 := by omega
  have h8 : cord ≠ 8 := by omega
  have h9 : cord ≠ 9 := by omega
  simp [cells, indices, place_loop, h1, h2, h3, h4, h5, h6, h7, h8, h9]

theorem cell_number (c : Int) (h : 1 ≤ c ∧ c ≤ 9) :
    c = 3 * ((cell_row c).val : Int) + ((cell_col c).val : Int) + 1 := by
  obtain ⟨h1, h2⟩ := h
  interval_cases c <;> decide

theorem place_loop_inside (g : GAME) (cord turn : Int) (h : 1 ≤ cord ∧ cord ≤ 9) :
    place_loop g cord turn cells 1 =
      if g.gameboard (cell_row cord) (cell_col cord) ≠ 0 then PLACED.occupied
      else PLACED.found
        { g with
          gameboard := set_cell g.gameboard (cell_row cord) (cell_col cord) turn
          expectedTurn :=
            if g.expectedTurn = 1 then SECOND_PLAYER_ROLE else FIRST_PLAYER_ROLE } := by
  have key := place_loop_cell g turn (cell_row cord) (cell_col cord)
  rw [← cell_number cord h] at key
  exact key

/-- The result of game_apply_move on a move that passes every check. -/
theorem game_apply_move_placed (g : GAME) (m : GAME_MOVE)
    (hsem : 0 < g.seph)
    (hturn : int_to_char m.turn = g.expectedTurn)
    (hsym1 : int_to_char m.turn = FIRST_PLAYER_ROLE → g.player1Sym = m.sym)
    (hsym2 : int_to_char m.turn ≠ FIRST_PLAYER_ROLE → g.player2Sym = m.sym)
    (hcell : 1 ≤ m.cord ∧ m.cord ≤ 9)
    (hempty : g.gameboard (cell_row m.cord) (cell_col m.cord) = 0) :
    game_apply_move g (some m) =
      some (0, post (check_winner
        { g with
          seph := g.seph - 1
          gameboard :=
            set_cell g.gameboard (cell_row m.cord) (cell_col m.cord) (int_to_char m.turn)
          expectedTurn :=
            if g.expectedTurn = 1 then SECOND_PLAYER_ROLE else FIRST_PLAYER_ROLE })) := by
  simp only [game_apply_move, sem_wait_free g.seph hsem]
  rw [if_neg (by simpa using hturn)]
  rw [if_neg (by intro h; exact h.2 (hsym1 h.1))]
  rw [if_neg (by intro h; exact h.2 (hsym2 h.1))]
  rw [place_loop_inside _ _ _ hcell]
  simp [hempty]

theorem strlen_digit (d : Nat) (h : 1 ≤ d ∧ d ≤ 9) : strlen [digit d] = 1 := by
  obtain ⟨h1, h2⟩ := h
  interval_cases d <;> decide

theorem cord_digit (d : Nat) (h : 1 ≤ d ∧ d ≤ 9) :
    char_to_int (str_at [digit d] 0) - char_to_int '0' = (d : Int) := by
  obtain ⟨h1, h2⟩ := h
  interval_cases d <;> decide

/-- The test on the trailing char of the four-character form holds for every char. -/
theorem trailing_test (c : Char) : c ≠ 'X' ∨ c ≠ 'O' := by
  by_cases h : c = 'X'
  · right
    rw [h]
    decide
  · left
    exact h

/-- Claim C1: on a game that is not over and whose semaphore is free, a move whose
role is the expected turn, whose symbol is the symbol of that role, whose cell c is
in 1..9 and whose cell is empty makes game_apply_move return 0; afterwards the cell
gameboard[(c-1)/3][(c-1)%3] holds the role of the move, every other cell is as
before, and the expected turn is the other role. -/
theorem game_apply_move_legal (g : GAME) (m : GAME_MOVE)
    (hsem : 0 < g.seph) (_hover : g.gameover = 0)
    (hturn : m.turn = g.expectedTurn)
    (hrole : m.turn = FIRST_PLAYER_ROLE ∨ m.turn = SECOND_PLAYER_ROLE)
    (hsym : (m.turn = FIRST_PLAYER_ROLE → m.sym = g.player1Sym) ∧
      (m.turn = SECOND_PLAYER_ROLE → m.sym = g.player2Sym))
    (hcell : 1 ≤ m.cord ∧ m.cord ≤ 9)
    (hempty : g.gameboard (cell_row m.cord) (cell_col m.cord) = 0) :
    ∃ g' : GAME, game_apply_move g (some m) = some (0, g') ∧
      g'.gameboard (cell_row m.cord) (cell_col m.cord) = m.turn ∧
      (∀ i j : Fin 3, ¬ (i = cell_row m.cord ∧ j = cell_col m.cord) →
        g'.gameboard i j = g.gameboard i j) ∧
      (m.turn = FIRST_PLAYER_ROLE → g'.expectedTurn = SECOND_PLAYER_ROLE) ∧
      (m.turn = SECOND_PLAYER_ROLE → g'.expectedTurn = FIRST_PLAYER_ROLE) := by
  have hchar : int_to_char m.turn = m.turn := by
    rcases hrole with h | h <;> rw [h] <;> decide
  have hstep := game_apply_move_placed g m hsem
    (by rw [hchar]; exact hturn)
    (by rw [hchar]; intro h; exact (hsym.1 h).symm)
    (by
      rw [hchar]; intro h
      rcases hrole with h1 | h2
      · exact absurd h1 h
      · exact (hsym.2 h2).symm)
    hcell hempty
  refine ⟨_, hstep, ?_, ?_, ?_, ?_⟩
  · simp [post, (check_winner_frame _).1, set_cell, hchar]
  · intro i j hij
    simp [post, (check_winner_frame _).1, set_cell, hij]
  · intro h
    have : g.expectedTurn = 1 := by rw [← hturn, h]; rfl
    simp [post, (check_winner_frame _).2.1, this]
  · intro h
    have : g.expectedTurn ≠ 1 := by rw [← hturn, h]; decide
    simp [post, (check_winner_frame _).2.1, this]

/-- Witness of C1: FIRST, holding X, moves to the centre of the empty board. -/
theorem game_apply_move_legal_witness :
    ∃ g' : GAME, game_apply_move opened (some centre) = some (0, g') ∧
      g'.gameboard 1 1 = FIRST_PLAYER_ROLE ∧
      (∀ i j : Fin 3, ¬ (i = 1 ∧ j = 1) → g'.gameboard i j = 0) ∧
      g'.expectedTurn = SECOND_PLAYER_ROLE := by
  obtain ⟨g', h, hc, ho, h1, _⟩ :=
    game_apply_move_legal opened centre (by decide) rfl rfl (Or.inl rfl)
      ⟨fun _ => rfl, fun h => absurd h (by decide)⟩ (by decide) rfl
  exact ⟨g', h, hc, ho, h1 rfl⟩

/-- Claim C2: on a game whose semaphore is free, a move whose role differs from the
expected turn, or whose symbol differs from the symbol of its role, or whose cell
is outside 1..9, or whose cell is occupied makes game_apply_move return -1 and
leaves the board, the expected turn, the over flag and the winner as they were.
The role of the move is a value of the C char it is copied into. -/
theorem game_apply_move_illegal (g : GAME) (m : GAME_MOVE)
    (hsem : 0 < g.seph) (hchar : -128 ≤ m.turn ∧ m.turn ≤ 127)
    (hbad : m.turn ≠ g.expectedTurn ∨
      (m.turn = FIRST_PLAYER_ROLE ∧ m.sym ≠ g.player1Sym) ∨
      (m.turn = SECOND_PLAYER_ROLE ∧ m.sym ≠ g.player2Sym) ∨
      (m.cord < 1 ∨ 9 < m.cord) ∨
      (1 ≤ m.cord ∧ m.cord ≤ 9 ∧ g.gameboard (cell_row m.cord) (cell_col m.cord) ≠ 0)) :
    ∃ g' : GAME, game_apply_move g (some m) = some (-1, g') ∧
      g'.gameboard = g.gameboard ∧ g'.expectedTurn = g.expectedTurn ∧
      g'.gameover = g.gameover ∧ g'.winner = g.winner := by
  have hc := int_to_char_fits m.turn hchar
  simp only [game_apply_move, sem_wait_free g.seph hsem, hc]
  split_ifs with h1 h2 h3
  · exact ⟨_, rfl, rfl, rfl, rfl, rfl⟩
  · exact ⟨_, rfl, rfl, rfl, rfl, rfl⟩
  · exact ⟨_, rfl, rfl, rfl, rfl, rfl⟩
  · by_cases hout : m.cord < 1 ∨ 9 < m.cord
    · rw [place_loop_outside _ _ _ hout]
      exact ⟨_, rfl, rfl, rfl, rfl, rfl⟩
    · have hin : 1 ≤ m.cord ∧ m.cord ≤ 9 := by omega
      rw [place_loop_inside _ _ _ hin]
      by_cases hocc : g.gameboard (cell_row m.cord) (cell_col m.cord) = 0
      · exfalso
        simp only [ne_eq, not_not] at h1
        rcases hbad with hb | hb | hb | hb | hb
        · exact hb h1
        · exact h2 ⟨hb.1, fun h => hb.2 h.symm⟩
        · refine h3 ⟨?_, fun h => hb.2 h.symm⟩
          rw [hb.1]; decide
        · exact hout hb
        · exact hb.2.2 hocc
      · simp only [ne_eq, hocc, not_false_eq_true, if_true]
        exact ⟨_, rfl, rfl, rfl, rfl, rfl⟩

/-- Witness of C2: after FIRST took the centre, a second move to the centre, by
SECOND holding O, is refused and the centre still holds FIRST. -/
theorem game_apply_move_illegal_witness :
    ∃ g' : GAME,
      game_apply_move
          { opened with
            gameboard := set_cell opened.gameboard 1 1 FIRST_PLAYER_ROLE
            expectedTurn := SECOND_PLAYER_ROLE
            player2Sym := 'O' }
          (some { cord := 5, turn := SECOND_PLAYER_ROLE, sym := 'O' }) = some (-1, g') ∧
        g'.gameboard 1 1 = FIRST_PLAYER_ROLE ∧ g'.expectedTurn = SECOND_PLAYER_ROLE ∧
        g'.gameover = 0 ∧ g'.winner = NULL_ROLE := by
  obtain ⟨g', h, hb, ht, ho, hw⟩ :=
    game_apply_move_illegal
      { opened with
        gameboard := set_cell opened.gameboard 1 1 FIRST_PLAYER_ROLE
        expectedTurn := SECOND_PLAYER_ROLE
        player2Sym := 'O' }
      { cord := 5, turn := SECOND_PLAYER_ROLE, sym := 'O' }
      (by decide) (by decide)
      (Or.inr (Or.inr (Or.inr (Or.inr ⟨by decide, by decide, by decide⟩))))
  exact ⟨g', h, by rw [hb]; decide, ht, ho, hw⟩

/-! ## Games that are over, wins, draws, resignation -/

/-- Claim C3, the code at a game that is over: after the five moves of row_win the
top row belongs to FIRST, the game is over with winner FIRST and its semaphore is
free; yet game_resign by FIRST returns 0 and makes SECOND the winner, and
game_apply_move of SECOND to the empty cell 6 returns 0, writes the cell and flips
the turn. -/
theorem game_over_still_played :
    (play game_create row_win).map
        (fun g => (board_list g, g.expectedTurn, g.gameover, g.winner, g.seph))
        = some ([1, 1, 1, 2, 2, 0, 0, 0, 0], SECOND_PLAYER_ROLE, 1, FIRST_PLAYER_ROLE, 1) ∧
      ((play game_create row_win).bind (fun g => game_resign g FIRST_PLAYER_ROLE)).map
          (fun r => (r.1, r.2.gameover, r.2.winner)) = some (0, 1, SECOND_PLAYER_ROLE) ∧
      ((play game_create row_win).bind
          (fun g =>
            game_apply_move g (some { cord := 6, turn := SECOND_PLAYER_ROLE, sym := 'O' }))).map
          (fun r => (r.1, board_list r.2, r.2.expectedTurn))
        = some (0, [1, 1, 1, 2, 2, 2, 0, 0, 0], FIRST_PLAYER_ROLE) := by
  decide

/-- Claim C4, the code at a win in a column: after the five moves of column_win the
middle column (cells 2, 5, 8) holds FIRST three times and the game is over, but
the winner recorded is the content of gameboard[1][0], which is empty: NULL_ROLE. -/
theorem column_win_winner :
    (play game_create column_win).map (fun g => (board_list g, g.gameover, g.winner))
      = some ([2, 1, 2, 0, 1, 0, 0, 1, 0], 1, NULL_ROLE) := by
  decide

/-- Claim C5, the code at a full board: after the nine moves of drawn every cell is
occupied and no row, column or diagonal holds three equal roles; the over flag is
still 0, so game_is_over returns 0. -/
theorem drawn_board_not_over :
    (play game_create drawn).map
        (fun g => (board_list g, g.gameover, game_is_over g, game_get_winner g))
      = some ([1, 2, 1, 1, 2, 2, 2, 1, 1], 0, 0, NULL_ROLE) := by
  decide

/-- Claim C6, the code at a resignation of SECOND: on a new game game_resign by
SECOND returns 0 and sets the over flag, with SECOND, the resigning role, as the
winner; game_resign by FIRST also records SECOND. -/
theorem game_resign_second :
    (game_resign game_create SECOND_PLAYER_ROLE).map (fun r => (r.1, r.2.gameover, r.2.winner))
        = some (0, 1, SECOND_PLAYER_ROLE) ∧
      (game_resign game_create FIRST_PLAYER_ROLE).map (fun r => (r.1, r.2.gameover, r.2.winner))
        = some (0, 1, SECOND_PLAYER_ROLE) := by
  decide

/-! ## game_parse_move -/

/-- Claim C7: on a game whose semaphore is free, for a role r that is FIRST or
SECOND and a digit d in 1..9, game_parse_move of the one-character string d returns
a move with cell d, role r and the symbol of r after the call; that symbol is the
one r had if it had one, and otherwise O if the other role holds X and X if not;
the symbol of the other role and the board are as before. -/
theorem game_parse_move_digit (g : GAME) (r : GAME_ROLE) (d : Nat)
    (hsem : 0 < g.seph)
    (hr : r = FIRST_PLAYER_ROLE ∨ r = SECOND_PLAYER_ROLE)
    (hd : 1 ≤ d ∧ d ≤ 9) :
    ∃ (m : GAME_MOVE) (g' : GAME),
      game_parse_move g r [digit d] = some (some m, g') ∧
      m.cord = (d : Int) ∧ m.turn = r ∧
      g'.gameboard = g.gameboard ∧
      (r = FIRST_PLAYER_ROLE →
        m.sym = g'.player1Sym ∧ g'.player2Sym = g.player2Sym ∧
        (g.player1Sym ≠ ' ' → g'.player1Sym = g.player1Sym) ∧
        (g.player1Sym = ' ' → g.player2Sym = 'X' → g'.player1Sym = 'O') ∧
        (g.player1Sym = ' ' → g.player2Sym ≠ 'X' → g'.player1Sym = 'X')) ∧
      (r = SECOND_PLAYER_ROLE →
        m.sym = g'.player2Sym ∧ g'.player1Sym = g.player1Sym ∧
        (g.player2Sym ≠ ' ' → g'.player2Sym = g.player2Sym) ∧
        (g.player2Sym = ' ' → g.player1Sym = 'X' → g'.player2Sym = 'O') ∧
        (g.player2Sym = ' ' → g.player1Sym ≠ 'X' → g'.player2Sym = 'X')) := by
  have hnull : r ≠ NULL_ROLE := by
    rcases hr with h | h <;> rw [h] <;> decide
  have h21 : SECOND_PLAYER_ROLE ≠ FIRST_PLAYER_ROLE := by decide
  simp only [game_parse_move, if_neg hnull, sem_wait_free g.seph hsem, strlen_digit d hd,
    cord_digit d hd, if_true]
  rcases hr with h | h
  · subst h
    rw [if_pos rfl]
    refine ⟨_, _, rfl, rfl, rfl, ?_, ?_, ?_⟩
    · by_cases h1 : g.player1Sym = ' ' <;> by_cases h2 : g.player2Sym = 'X' <;>
        simp [h1, h2, post]
    · intro _
      by_cases h1 : g.player1Sym = ' ' <;> by_cases h2 : g.player2Sym = 'X' <;>
        simp [h1, h2, post]
    · intro h; exact absurd h.symm h21
  · subst h
    rw [if_neg h21]
    refine ⟨_, _, rfl, rfl, rfl, ?_, ?_, ?_⟩
    · by_cases h1 : g.player2Sym = ' ' <;> by_cases h2 : g.player1Sym = 'X' <;>
        simp [h1, h2, post]
    · intro h; exact absurd h h21
    · intro _
      by_cases h1 : g.player2Sym = ' ' <;> by_cases h2 : g.player1Sym = 'X' <;>
        simp [h1, h2, post]

/-- Witness of C7: SECOND sends the digit 7 to a game in which FIRST holds X and
SECOND has no symbol yet; the move has cell 7, role SECOND and symbol O. -/
theorem game_parse_move_digit_witness :
    ∃ (m : GAME_MOVE) (g' : GAME),
      game_parse_move opened SECOND_PLAYER_ROLE ['7'] = some (some m, g') ∧
      m.cord = 7 ∧ m.turn = SECOND_PLAYER_ROLE ∧ m.sym = 'O' ∧
      g'.player1Sym = 'X' ∧ g'.player2Sym = 'O' ∧ g'.gameboard = opened.gameboard := by
  obtain ⟨m, g', h, hc, ht, hb, _, h2⟩ :=
    game_parse_move_digit opened SECOND_PLAYER_ROLE 7 (by decide) (Or.inr rfl) (by decide)
  obtain ⟨hs, h1, _, hO, _⟩ := h2 rfl
  exact ⟨m, g', h, hc, ht, by rw [hs]; exact hO rfl rfl, h1, hO rfl rfl, hb⟩

/-- Claim C8, the code at the four-character form: game_parse_move returns NULL for
5<-X sent by FIRST and for 5<-O sent by SECOND to a new game, in which neither role
has a symbol yet. -/
theorem game_parse_move_long_form :
    (game_parse_move game_create FIRST_PLAYER_ROLE ['5', '<', '-', 'X']).map
        (fun r => r.1.isSome) = some false ∧
      (game_parse_move game_create SECOND_PLAYER_ROLE ['5', '<', '-', 'O']).map
        (fun r => r.1.isSome) = some false := by
  decide

/-- Claim C10: on a game whose semaphore is free, game_unparse_state returns 18
chars; for each row i the chars at the offsets 6i, 6i+2 and 6i+4 render the three
cells of the row (a space for an empty cell, the symbol of FIRST for a cell of
FIRST, the symbol of SECOND for a cell of SECOND), the chars at 6i+1 and 6i+3 are
bars and the char at 6i+5 is a newline. -/
theorem game_unparse_state_layout (g : GAME) (hsem : 0 < g.seph) :
    ∃ (s : List Char) (g' : GAME),
      game_unparse_state g = some (s, g') ∧ s.length = 18 ∧
      ∀ i : Fin 3,
        (∀ j : Fin 3,
          (g.gameboard i j = NULL_ROLE → s[6 * i.val + 2 * j.val]? = some ' ') ∧
          (g.gameboard i j = FIRST_PLAYER_ROLE →
            s[6 * i.val + 2 * j.val]? = some g.player1Sym) ∧
          (g.gameboard i j = SECOND_PLAYER_ROLE →
            s[6 * i.val + 2 * j.val]? = some g.player2Sym)) ∧
        s[6 * i.val + 1]? = some '|' ∧ s[6 * i.val + 3]? = some '|' ∧
        s[6 * i.val + 5]? = some '\n' := by
  simp only [game_unparse_state, sem_wait_free g.seph hsem]
  refine ⟨_, _, rfl, ?_, ?_⟩
  · simp [indices, unparse_cell]
  · intro i
    refine ⟨?_, ?_, ?_, ?_⟩
    · intro j
      refine ⟨?_, ?_, ?_⟩ <;> intro h <;> fin_cases i <;> fin_cases j <;>
        simp [indices, unparse_cell, cell_char, NULL_ROLE, FIRST_PLAYER_ROLE,
          SECOND_PLAYER_ROLE] at h ⊢ <;>
        simp [h]
    · fin_cases i <;> simp [indices, unparse_cell]
    · fin_cases i <;> simp [indices, unparse_cell]
    · fin_cases i <;> simp [indices, unparse_cell]

/-- Witness of C10: the rendering of a new game is three rows of two bars between
three spaces, each closed by a newline. -/
theorem game_unparse_state_layout_witness :
    ∃ (s : List Char) (g' : GAME),
      game_unparse_state game_create = some (s, g') ∧ s.length = 18 ∧
      s[0]? = some ' ' ∧ s[1]? = some '|' ∧ s[5]? = some '\n' ∧ s[16]? = some ' ' := by
  obtain ⟨s, g', h, hl, hrows⟩ := game_unparse_state_layout game_create (by decide)
  refine ⟨s, g', h, hl, ?_, ?_, ?_, ?_⟩
  · exact ((hrows 0).1 0).1 rfl
  · exact (hrows 0).2.1
  · exact (hrows 0).2.2.2
  · exact ((hrows 2).1 2).1 rfl

/-! ## Reachable games and the rendering of the board -/

theorem game_ok_create : game_ok game_create [] := by
  refine ⟨Or.inl ⟨rfl, rfl⟩, fun i j => Or.inl rfl, Or.inl rfl, ?_⟩
  intro m hm
  simp at hm

/-- What game_parse_move does to a game that satisfies the invariant. -/
theorem game_ok_parse (g g' : GAME) (ms : List GAME_MOVE) (r : GAME_ROLE) (str : List Char)
    (m : Option GAME_MOVE) (hok : game_ok g ms)
    (hp : game_parse_move g r str = some (m, g')) : game_ok g' (m.toList ++ ms) := by
  obtain ⟨hsym, hboard, hturn, hms⟩ := hok
  unfold game_parse_move at hp
  by_cases hnull : r = NULL_ROLE
  · rw [if_pos hnull] at hp
    cases hp
    exact ⟨hsym, hboard, hturn, by simpa using hms⟩
  · rw [if_neg hnull] at hp
    cases hw : sem_wait g.seph with
    | none => rw [hw] at hp; simp at hp
    | some count =>
      rw [hw] at hp
      simp only at hp
      by_cases h1 : strlen str = 1
      · simp only [h1, if_true] at hp
        by_cases hr : r = FIRST_PLAYER_ROLE
        · rw [if_pos hr] at hp
          unfold board_ok at hboard
          rcases hsym with ⟨a, b⟩ | ⟨a, b⟩ | ⟨a, b⟩ | ⟨a, b⟩ | ⟨a, b⟩ <;>
            simp [a, b] at hp <;> obtain ⟨hm, hg⟩ := hp <;> subst hm <;> subst hg <;>
            simp [game_ok, symbols_ok, board_ok, post, a, b] at hboard ⊢ <;>
            exact ⟨fun i j => by have := hboard i j; tauto, hturn, hms⟩
        · rw [if_neg hr] at hp
          unfold board_ok at hboard
          rcases hsym with ⟨a, b⟩ | ⟨a, b⟩ | ⟨a, b⟩ | ⟨a, b⟩ | ⟨a, b⟩ <;>
            simp [a, b] at hp <;> obtain ⟨hm, hg⟩ := hp <;> subst hm <;> subst hg <;>
            simp [game_ok, symbols_ok, board_ok, post, a, b] at hboard ⊢ <;>
            exact ⟨fun i j => by have := hboard i j; tauto, hturn, hms⟩
      · simp only [h1, if_false] at hp
        have hnone : m = none ∧ g' = post { g with seph := count } := by
          split_ifs at hp with h4 hx
          · cases hp; exact ⟨rfl, rfl⟩
          · exact absurd (trailing_test _) hx
          · cases hp; exact ⟨rfl, rfl⟩
        obtain ⟨hm, hg⟩ := hnone
        subst hm; subst hg
        exact ⟨hsym, hboard, hturn, by simpa using hms⟩

/-- What game_apply_move does to a game that satisfies the invariant, for a move
that game_parse_move returned. -/
theorem game_ok_apply (g g' : GAME) (ms : List GAME_MOVE) (m : GAME_MOVE) (rc : Int)
    (hok : game_ok g ms) (hm : m ∈ ms)
    (ha : game_apply_move g (some m) = some (rc, g')) : game_ok g' ms := by
  obtain ⟨hsym, hboard, hturn, hms⟩ := hok
  have hmsym := hms m hm
  unfold game_apply_move at ha
  simp only at ha
  cases hw : sem_wait g.seph with
  | none => rw [hw] at ha; simp at ha
  | some count =>
    rw [hw] at ha
    simp only at ha
    have same : ∀ k : Nat,
        game_ok (post { g with seph := k }) ms ∧ game_ok { g with seph := k } ms :=
      fun k => ⟨⟨hsym, hboard, hturn, hms⟩, ⟨hsym, hboard, hturn, hms⟩⟩
    split_ifs at ha with h1 h2 h3
    · cases ha; exact (same count).1
    · cases ha; exact (same count).1
    · cases ha; exact (same count).1
    · by_cases hout : m.cord < 1 ∨ 9 < m.cord
      · rw [place_loop_outside _ _ _ hout] at ha
        cases ha; exact (same count).2
      · have hin : 1 ≤ m.cord ∧ m.cord ≤ 9 := by omega
        rw [place_loop_inside _ _ _ hin] at ha
        by_cases hocc : g.gameboard (cell_row m.cord) (cell_col m.cord) = 0
        · simp only [ne_eq, hocc, not_true_eq_false, if_false] at ha
          cases ha
          simp only [ne_eq, not_not] at h1
          have hf := check_winner_frame
            { g with
              seph := count
              gameboard :=
                set_cell g.gameboard (cell_row m.cord) (cell_col m.cord) (int_to_char m.turn)
              expectedTurn :=
                if g.expectedTurn = 1 then SECOND_PLAYER_ROLE else FIRST_PLAYER_ROLE }
          obtain ⟨fb, ft, _, f1, f2, _⟩ := hf
          have hp1 : int_to_char m.turn = 1 → g.player1Sym ≠ ' ' := by
            intro h
            have : g.player1Sym = m.sym := by
              by_contra hne
              exact h2 ⟨h, hne⟩
            rw [this]
            rcases hmsym with e | e <;> rw [e] <;> decide
          have hp2 : int_to_char m.turn = 2 → g.player2Sym ≠ ' ' := by
            intro h
            have : g.player2Sym = m.sym := by
              by_contra hne
              refine h3 ⟨?_, hne⟩
              rw [h]; decide
            rw [this]
            rcases hmsym with e | e <;> rw [e] <;> decide
          refine ⟨?_, ?_, ?_, hms⟩
          · simpa [symbols_ok, post, f1, f2] using hsym
          · intro i j
            simp only [post, fb, f1, f2, set_cell]
            by_cases hij : i = cell_row m.cord ∧ j = cell_col m.cord
            · rw [if_pos hij]
              rcases hturn with t | t
              · right; left
                exact ⟨by rw [h1, t], hp1 (by rw [h1, t])⟩
              · right; right
                exact ⟨by rw [h1, t], hp2 (by rw [h1, t])⟩
            · rw [if_neg hij]
              exact hboard i j
          · simp only [post, ft]
            rcases hturn with t | t
            · right; simp [t, SECOND_PLAYER_ROLE]
            · left; simp [t, FIRST_PLAYER_ROLE]
        · simp only [ne_eq, hocc, not_false_eq_true, if_true] at ha
          cases ha; exact (same count).2

/-- Every reachable game satisfies the invariant. -/
theorem game_reachable_ok (g : GAME) (ms : List GAME_MOVE) (h : game_reachable g ms) :
    game_ok g ms := by
  induction h with
  | create => exact game_ok_create
  | parse g g' ms r str m _ hp ih => exact game_ok_parse g g' ms r str m ih hp
  | apply g g' ms m rc _ hm ha ih => exact game_ok_apply g g' ms m rc ih hm ha

/-- The chars that game_unparse_state writes for the cells. -/
theorem game_unparse_state_cells (g : GAME) (hsem : 0 < g.seph) :
    ∃ (s : List Char) (g' : GAME), game_unparse_state g = some (s, g') ∧
      ∀ i j : Fin 3, s[6 * i.val + 2 * j.val]? = some (cell_char g i j) := by
  simp only [game_unparse_state, sem_wait_free g.seph hsem]
  refine ⟨_, _, rfl, ?_⟩
  intro i j
  fin_cases i <;> fin_cases j <;> simp [indices, unparse_cell, cell_char]

/-- Claim C11: for every game reached from game_create by calls of game_parse_move
and of game_apply_move on moves that game_parse_move returned for the game, and
whose semaphore is free, game_unparse_state returns chars of which each cell char,
read back (space to empty, the symbol of FIRST to FIRST, the symbol of SECOND to
SECOND), is the content of the cell; the symbols of the two roles differ as soon as
one is assigned, and an occupied cell is not rendered as a space. -/
theorem game_unparse_state_reads_back (g : GAME) (ms : List GAME_MOVE)
    (hreach : game_reachable g ms) (hsem : 0 < g.seph) :
    ∃ (s : List Char) (g' : GAME), game_unparse_state g = some (s, g') ∧
      (∀ i j : Fin 3, (s[6 * i.val + 2 * j.val]?).bind (read_cell g) = some (g.gameboard i j)) ∧
      (g.player1Sym ≠ ' ' ∨ g.player2Sym ≠ ' ' → g.player1Sym ≠ g.player2Sym) ∧
      (∀ i j : Fin 3, g.gameboard i j ≠ 0 → s[6 * i.val + 2 * j.val]? ≠ some ' ') := by
  obtain ⟨hsym, hboard, _, _⟩ := game_reachable_ok g ms hreach
  obtain ⟨s, g', hs, hcells⟩ := game_unparse_state_cells g hsem
  have hdiff : g.player1Sym ≠ ' ' ∨ g.player2Sym ≠ ' ' → g.player1Sym ≠ g.player2Sym := by
    intro hassigned
    rcases hsym with ⟨a, b⟩ | ⟨a, b⟩ | ⟨a, b⟩ | ⟨a, b⟩ | ⟨a, b⟩
    · rw [a, b] at hassigned; simp at hassigned
    · rw [a, b]; decide
    · rw [a, b]; decide
    · rw [a, b]; decide
    · rw [a, b]; decide
  refine ⟨s, g', hs, ?_, hdiff, ?_⟩
  · intro i j
    rw [hcells i j]
    simp only [Option.some_bind, cell_char, read_cell]
    rcases hboard i j with h | ⟨h, hp⟩ | ⟨h, hp⟩
    · simp [h, NULL_ROLE]
    · simp [h, hp, FIRST_PLAYER_ROLE]
    · have hne : g.player2Sym ≠ g.player1Sym := fun e => hdiff (Or.inr hp) e.symm
      simp [h, hp, hne, SECOND_PLAYER_ROLE]
  · intro i j hocc
    rw [hcells i j]
    simp only [cell_char, ne_eq, Option.some.injEq]
    rcases hboard i j with h | ⟨h, hp⟩ | ⟨h, hp⟩
    · exact absurd h hocc
    · simp [h, hp]
    · simp [h, hp]

/-- Witness of C11: the game reached by game_parse_move of the digit 5 for FIRST and
game_apply_move of the move returned; the centre cell is at offset 8 of the
rendering, reads back as FIRST and is not a space. -/
theorem game_unparse_state_reads_back_witness :
    ∃ (s : List Char) (g' : GAME), game_unparse_state after_centre = some (s, g') ∧
      (s[8]?).bind (read_cell after_centre) = some FIRST_PLAYER_ROLE ∧ s[8]? ≠ some ' ' ∧
      (s[0]?).bind (read_cell after_centre) = some NULL_ROLE := by
  have hparse : game_reachable opened [centre] :=
    game_reachable.parse game_create opened [] FIRST_PLAYER_ROLE ['5'] (some centre)
      game_reachable.create rfl
  have hreach : game_reachable after_centre [centre] :=
    game_reachable.apply opened after_centre [centre] centre 0 hparse (by simp) rfl
  obtain ⟨s, g', h, hread, _, hocc⟩ :=
    game_unparse_state_reads_back after_centre [centre] hreach (by decide)
  exact ⟨s, g', h, hread 1 1, hocc 1 1 (by decide), hread 0 0⟩

/-! ## The states of an invitation -/

theorem inv_post_wait (inv : INVITATION) (h : 0 < inv.seph) :
    inv_post { inv with seph := inv.seph - 1 } = inv := by
  cases inv
  simp only [inv_post, sem_post, INVITATION.mk.injEq, true_and, and_true] at h ⊢
  omega

theorem inv_post_wait_state (inv : INVITATION) (s : INVITATION_STATE) (h : 0 < inv.seph)
    (hs : inv.state = s) :
    inv_post { inv with state := s, seph := inv.seph - 1 } = inv := by
  subst hs
  exact inv_post_wait inv h

/-- Claim C12: on an invitation whose semaphore is free, inv_accept returns 0
exactly when the state is OPEN; from OPEN it leaves the state ACCEPTED and attaches
the game that game_create makes (empty board, expected turn FIRST, not over), with
the other fields as before; from ACCEPTED or CLOSED it returns -1 and leaves the
invitation, state and game included, as it was. -/
theorem inv_accept_states (inv : INVITATION) (hsem : 0 < inv.seph) :
    (inv.state = INV_OPEN_STATE →
      ∃ inv' : INVITATION, inv_accept inv = some (0, inv') ∧
        inv'.state = INV_ACCEPTED_STATE ∧ inv'.gameRef = some game_create ∧
        (∀ i j : Fin 3, game_create.gameboard i j = 0) ∧
        game_create.expectedTurn = FIRST_PLAYER_ROLE ∧ game_create.gameover = 0 ∧
        inv'.source = inv.source ∧ inv'.target = inv.target ∧
        inv'.sourceR = inv.sourceR ∧ inv'.targetR = inv.targetR) ∧
    (inv.state ≠ INV_OPEN_STATE → inv_accept inv = some (-1, inv)) ∧
    (∀ inv' : INVITATION, inv_accept inv = some (0, inv') → inv.state = INV_OPEN_STATE) := by
  refine ⟨?_, ?_, ?_⟩
  · intro h
    simp only [inv_accept, sem_wait_free inv.seph hsem, h]
    exact ⟨_, rfl, rfl, rfl, fun _ _ => rfl, rfl, rfl, rfl, rfl, rfl, rfl⟩
  · intro h
    have h' : inv.state = INV_CLOSED_STATE ∨ inv.state = INV_ACCEPTED_STATE := by
      cases hs : inv.state <;> simp_all
    simp only [inv_accept, sem_wait_free inv.seph hsem, if_pos h', inv_post_wait inv hsem]
  · intro inv' h
    by_contra hne
    have h' : inv.state = INV_CLOSED_STATE ∨ inv.state = INV_ACCEPTED_STATE := by
      cases hs : inv.state <;> simp_all
    simp [inv_accept, sem_wait_free inv.seph hsem, if_pos h'] at h

/-- Witness of C12: the invitation that inv_create has just made is accepted, and a
second inv_accept on the result returns -1. -/
theorem inv_accept_states_witness :
    (∃ inv' : INVITATION,
      inv_accept (inv_create_object 0 1 FIRST_PLAYER_ROLE SECOND_PLAYER_ROLE) = some (0, inv') ∧
        inv'.state = INV_ACCEPTED_STATE ∧ inv'.gameRef = some game_create) ∧
    ((inv_accept (inv_create_object 0 1 FIRST_PLAYER_ROLE SECOND_PLAYER_ROLE)).bind
        (fun r => (inv_accept r.2).map (fun q => (q.1, q.2.state)))
      = some (-1, INV_ACCEPTED_STATE)) := by
  refine ⟨?_, by decide⟩
  obtain ⟨inv', h, hs, hg, _⟩ :=
    (inv_accept_states (inv_create_object 0 1 FIRST_PLAYER_ROLE SECOND_PLAYER_ROLE)
      (by decide)).1 rfl
  exact ⟨inv', h, hs, hg⟩

/-- What one call of inv_close does, case by case. -/
theorem inv_close_cases (inv inv' : INVITATION) (role : GAME_ROLE) (rc : Int)
    (h : inv_close inv role = some (rc, inv')) :
    (rc = -1 ∧ inv'.state = inv.state ∧ inv'.gameRef = inv.gameRef) ∨
      (rc = 0 ∧ inv.state ≠ INV_CLOSED_STATE ∧ inv'.state = INV_CLOSED_STATE ∧
        (inv.gameRef = none → inv'.gameRef = none)) := by
  unfold inv_close at h
  cases hw : sem_wait inv.seph with
  | none => rw [hw] at h; simp at h
  | some count =>
    rw [hw] at h
    simp only at h
    split_ifs at h with h1 h2 h3
    · cases h; exact Or.inl ⟨rfl, rfl, rfl⟩
    · cases hg : game_resign_ptr inv.gameRef role with
      | none => rw [hg] at h; simp at h
      | some res =>
        obtain ⟨x, game⟩ := res
        rw [hg] at h
        cases h
        refine Or.inr ⟨rfl, h1, rfl, ?_⟩
        intro hnone
        rw [hnone] at hg
        simp [game_resign_ptr] at hg
        exact hg.2.symm
    · cases h; exact Or.inl ⟨rfl, rfl, rfl⟩
    · cases h
      refine Or.inr ⟨rfl, h1, rfl, ?_⟩
      intro hnone
      exact hnone

/-- What one call of inv_accept does, case by case. -/
theorem inv_accept_cases (inv inv' : INVITATION) (rc : Int)
    (h : inv_accept inv = some (rc, inv')) :
    (rc = -1 ∧ inv.state ≠ INV_OPEN_STATE ∧ inv'.state = inv.state ∧
        inv'.gameRef = inv.gameRef) ∨
      (rc = 0 ∧ inv.state = INV_OPEN_STATE ∧ inv'.state = INV_ACCEPTED_STATE ∧
        inv'.gameRef = some game_create) := by
  unfold inv_accept at h
  cases hw : sem_wait inv.seph with
  | none => rw [hw] at h; simp at h
  | some count =>
    rw [hw] at h
    simp only at h
    split_ifs at h with h1
    · cases h
      refine Or.inl ⟨rfl, ?_, rfl, rfl⟩
      rcases h1 with e | e <;> rw [e] <;> decide
    · cases h
      refine Or.inr ⟨rfl, ?_, rfl, rfl⟩
      cases hs : inv.state <;> simp_all

/-- An invitation made by inv_create has a game exactly from inv_accept on: none
while OPEN, one while ACCEPTED. -/
theorem inv_reachable_game (inv : INVITATION) (h : inv_reachable inv) :
    (inv.state = INV_OPEN_STATE → inv.gameRef = none) ∧
      (inv.state = INV_ACCEPTED_STATE → inv.gameRef.isSome = true) := by
  induction h with
  | create source target source_role target_role =>
    exact ⟨fun _ => rfl, fun h => by simp [inv_create_object] at h⟩
  | call inv inv' c rc _ hc ih =>
    cases c with
    | accept =>
      rcases inv_accept_cases inv inv' rc hc with ⟨_, _, hs, hg⟩ | ⟨_, _, hs, hg⟩
      · rw [hs, hg]; exact ih
      · rw [hs, hg]; exact ⟨fun h => by simp at h, fun _ => rfl⟩
    | close role =>
      rcases inv_close_cases inv inv' role rc hc with ⟨_, hs, hg⟩ | ⟨_, _, hs, _⟩
      · rw [hs, hg]; exact ih
      · rw [hs]; exact ⟨fun h => by simp at h, fun h => by simp at h⟩

/-- Claim C13: on an invitation reached from inv_create by inv_accept and inv_close,
with its semaphore free, inv_close with NULL_ROLE returns 0 exactly when the state
is OPEN, and then leaves the state CLOSED; in the other states, ACCEPTED among
them, it returns -1 and leaves the invitation, state and game included, as it
was. -/
theorem inv_close_null_role (inv : INVITATION) (hreach : inv_reachable inv)
    (hsem : 0 < inv.seph) :
    (inv.state = INV_OPEN_STATE →
      ∃ inv' : INVITATION, inv_close inv NULL_ROLE = some (0, inv') ∧
        inv'.state = INV_CLOSED_STATE ∧ inv'.gameRef = none) ∧
    (inv.state ≠ INV_OPEN_STATE → inv_close inv NULL_ROLE = some (-1, inv)) ∧
    (∀ inv' : INVITATION, inv_close inv NULL_ROLE = some (0, inv') →
      inv.state = INV_OPEN_STATE) := by
  obtain ⟨hopen, hacc⟩ := inv_reachable_game inv hreach
  have hnot : ¬ (NULL_ROLE ≠ NULL_ROLE) := fun h => h rfl
  have hclosed : inv.state ≠ INV_OPEN_STATE → inv_close inv NULL_ROLE = some (-1, inv) := by
    intro h
    cases hs : inv.state with
    | INV_OPEN_STATE => exact absurd hs h
    | INV_ACCEPTED_STATE =>
      simp only [inv_close, sem_wait_free inv.seph hsem, hs, if_neg hnot, hacc hs, if_true]
      simp only [reduceCtorEq, if_false]
      rw [inv_post_wait_state inv _ hsem hs]
    | INV_CLOSED_STATE =>
      simp only [inv_close, sem_wait_free inv.seph hsem, hs, if_true]
      rw [inv_post_wait_state inv _ hsem hs]
  refine ⟨?_, hclosed, ?_⟩
  · intro h
    simp only [inv_close, sem_wait_free inv.seph hsem, h, if_neg hnot, hopen h]
    exact ⟨_, rfl, rfl, rfl⟩
  · intro inv' h
    by_contra hne
    rw [hclosed hne] at h
    simp at h

/-- Witness of C13: an invitation that inv_create has just made is closed by
inv_close with NULL_ROLE; once accepted it is not. -/
theorem inv_close_null_role_witness :
    (∃ inv' : INVITATION,
      inv_close (inv_create_object 0 1 FIRST_PLAYER_ROLE SECOND_PLAYER_ROLE) NULL_ROLE
        = some (0, inv') ∧ inv'.state = INV_CLOSED_STATE ∧ inv'.gameRef = none) ∧
    ((inv_accept (inv_create_object 0 1 FIRST_PLAYER_ROLE SECOND_PLAYER_ROLE)).bind
        (fun r => (inv_close r.2 NULL_ROLE).map (fun q => (q.1, q.2.state)))
      = some (-1, INV_ACCEPTED_STATE)) := by
  refine ⟨?_, by decide⟩
  exact (inv_close_null_role (inv_create_object 0 1 FIRST_PLAYER_ROLE SECOND_PLAYER_ROLE)
    (inv_reachable.create 0 1 FIRST_PLAYER_ROLE SECOND_PLAYER_ROLE) (by decide)).1 rfl

/-- Counterexample to C14: on the OPEN invitation that inv_create has just made,
inv_close with the role FIRST returns 0 and leaves the state CLOSED. -/
theorem inv_close_open_with_role :
    (inv_create_object 0 1 FIRST_PLAYER_ROLE SECOND_PLAYER_ROLE).state = INV_OPEN_STATE ∧
    ∃ inv' : INVITATION,
      inv_close (inv_create_object 0 1 FIRST_PLAYER_ROLE SECOND_PLAYER_ROLE)
        FIRST_PLAYER_ROLE = some (0, inv') ∧ inv'.state = INV_CLOSED_STATE := by
  exact ⟨rfl, _, rfl, rfl⟩

/-- Claim C14 as amended: on an OPEN invitation reached from inv_create, with its
semaphore free, inv_close with the role FIRST or SECOND returns 0 and leaves the
state CLOSED; no game is attached and none is resigned. -/
theorem inv_close_open_closes (inv : INVITATION) (r : GAME_ROLE)
    (hreach : inv_reachable inv) (hsem : 0 < inv.seph)
    (hopen : inv.state = INV_OPEN_STATE)
    (hr : r = FIRST_PLAYER_ROLE ∨ r = SECOND_PLAYER_ROLE) :
    ∃ inv' : INVITATION, inv_close inv r = some (0, inv') ∧
      inv'.state = INV_CLOSED_STATE ∧ inv'.gameRef = none ∧
      inv'.source = inv.source ∧ inv'.target = inv.target := by
  have hnull : r ≠ NULL_ROLE := by
    rcases hr with h | h <;> rw [h] <;> decide
  have hgame := (inv_reachable_game inv hreach).1 hopen
  simp only [inv_close, sem_wait_free inv.seph hsem, hopen, if_pos hnull, hgame,
    game_resign_ptr]
  exact ⟨_, rfl, rfl, rfl, rfl, rfl⟩

/-- Witness of C14 as amended: the invitation that inv_create has just made, closed
with the role SECOND. -/
theorem inv_close_open_closes_witness :
    ∃ inv' : INVITATION,
      inv_close (inv_create_object 0 1 FIRST_PLAYER_ROLE SECOND_PLAYER_ROLE)
        SECOND_PLAYER_ROLE = some (0, inv') ∧
      inv'.state = INV_CLOSED_STATE ∧ inv'.gameRef = none := by
  obtain ⟨inv', h, hs, hg, _⟩ :=
    inv_close_open_closes (inv_create_object 0 1 FIRST_PLAYER_ROLE SECOND_PLAYER_ROLE)
      SECOND_PLAYER_ROLE (inv_reachable.create 0 1 FIRST_PLAYER_ROLE SECOND_PLAYER_ROLE)
      (by decide) rfl (Or.inr rfl)
  exact ⟨inv', h, hs, hg⟩

theorem state_move_trans (a b c : INVITATION_STATE) (h1 : state_move a b)
    (h2 : state_move b c) : state_move a c := by
  unfold state_move at *
  cases a <;> cases b <;> cases c <;> simp_all

/-- Claim C15: every call of inv_accept or inv_close that returns moves the state
by one of OPEN to ACCEPTED, OPEN to CLOSED, ACCEPTED to CLOSED, or leaves it; so
does every run of such calls; and on a CLOSED invitation whose semaphore is free
inv_accept and inv_close with any role return -1 and leave the invitation as it
was. -/
theorem inv_state_moves :
    (∀ (inv inv' : INVITATION) (c : INV_CALL) (rc : Int),
      inv_call inv c = some (rc, inv') → state_move inv.state inv'.state) ∧
    (∀ (calls : List INV_CALL) (inv inv' : INVITATION),
      inv_calls inv calls = some inv' → state_move inv.state inv'.state) ∧
    (∀ inv : INVITATION, inv.state = INV_CLOSED_STATE → 0 < inv.seph →
      inv_accept inv = some (-1, inv) ∧
        ∀ role : GAME_ROLE, inv_close inv role = some (-1, inv)) := by
  have step : ∀ (inv inv' : INVITATION) (c : INV_CALL) (rc : Int),
      inv_call inv c = some (rc, inv') → state_move inv.state inv'.state := by
    intro inv inv' c rc h
    cases c with
    | accept =>
      rcases inv_accept_cases inv inv' rc h with ⟨_, _, hs, _⟩ | ⟨_, ho, hs, _⟩
      · exact Or.inl hs
      · exact Or.inr (Or.inl ⟨ho, hs⟩)
    | close role =>
      rcases inv_close_cases inv inv' role rc h with ⟨_, hs, _⟩ | ⟨_, hn, hs, _⟩
      · exact Or.inl hs
      · unfold state_move
        cases ho : inv.state <;> simp_all
  refine ⟨step, ?_, ?_⟩
  · intro calls
    induction calls with
    | nil =>
      intro inv inv' h
      simp only [inv_calls, Option.some.injEq] at h
      rw [h]
      exact Or.inl rfl
    | cons c rest ih =>
      intro inv inv' h
      simp only [inv_calls] at h
      cases hc : inv_call inv c with
      | none => rw [hc] at h; simp at h
      | some res =>
        obtain ⟨rc, mid⟩ := res
        rw [hc] at h
        exact state_move_trans _ _ _ (step inv mid c rc hc) (ih mid inv' h)
  · intro inv hclosed hsem
    constructor
    · simp only [inv_accept, sem_wait_free inv.seph hsem, hclosed, true_or, if_true]
      rw [inv_post_wait_state inv _ hsem hclosed]
    · intro role
      simp only [inv_close, sem_wait_free inv.seph hsem, hclosed, if_true]
      rw [inv_post_wait_state inv _ hsem hclosed]

/-! ## Revoke, decline, resign and the end of a game, on a server with two clients -/

/-- Claim C16, the code at a revocation: alice has invited bob, both hold the OPEN
invitation at their slot 0; client_revoke_invitation by alice returns 0 and leaves
the invitation CLOSED and her table empty, but bob still holds the invitation at
his slot 0, and the REVOKED packet sent to him (file descriptor 11) has the id 1,
his first empty slot. -/
theorem revoke_keeps_target_slot :
    seen invited = some
      { states := [INV_OPEN_STATE]
        tables := [[some 0, none, none, none], [some 0, none, none, none]]
        ratings := [1500, 1500]
        wire :=
          [bare 11 JEUX_INVITED_PKT 0 2,
           bare 10 JEUX_ACK_PKT 0 2] } ∧
    outcome (invited.bind (fun w => client_revoke_invitation w 0 0)) = some
      (0,
        { states := [INV_CLOSED_STATE]
          tables := [[none, none, none, none], [some 0, none, none, none]]
          ratings := [1500, 1500]
          wire :=
            [bare 11 JEUX_INVITED_PKT 0 2,
             bare 10 JEUX_ACK_PKT 0 2,
             bare 11 JEUX_REVOKED_PKT 1 0] }) := by
  decide

/-- Claim C17, the code at a decline: once bob has accepted the invitation,
client_decline_invitation by bob still returns 0 and the invitation stays ACCEPTED;
on the OPEN invitation it returns 0 and the invitation stays OPEN.  In both cases
alice still holds the invitation at her slot 0. -/
theorem decline_keeps_state :
    (seen accepted).map (fun v => (v.states, v.tables)) = some
      ([INV_ACCEPTED_STATE], [[some 0, none, none, none], [some 0, none, none, none]]) ∧
    (outcome (accepted.bind (fun w => client_decline_invitation w 1 0))).map
        (fun r => (r.1, r.2.states, r.2.tables)) = some
      (0, [INV_ACCEPTED_STATE], [[some 0, none, none, none], [none, none, none, none]]) ∧
    (outcome (invited.bind (fun w => client_decline_invitation w 1 0))).map
        (fun r => (r.1, r.2.states, r.2.tables)) = some
      (0, [INV_OPEN_STATE], [[some 0, none, none, none], [none, none, none, none]]) := by
  decide

/-- Claim C18, the code at a resignation without a game: alice has invited bob and
the invitation is OPEN; client_resign_game by alice returns 0, takes 16 points from
her rating and gives 16 to his, and leaves the invitation CLOSED. -/
theorem resign_open_invitation :
    (seen invited).map (fun v => (v.states, v.ratings)) = some
      ([INV_OPEN_STATE], [1500, 1500]) ∧
    (outcome (invited.bind (fun w => client_resign_game w 0 0))).map
        (fun r => (r.1, r.2.states, r.2.ratings)) = some
      (0, [INV_CLOSED_STATE], [1484, 1516]) := by
  decide!

/-- Claim C19, the code at a move of the source that ends the game: after four moves
(the last MOVED packet shows X on the cells 1 and 2, O on 4 and 5) alice, the
source, plays FIRST and completes the top row with the cell 3; client_make_move
returns 0 and her table is empty, but bob still holds the invitation at his slot 0,
and the ENDED packet sent to him (file descriptor 11) has the id 1, his first empty
slot; the one sent to alice has the id 0. -/
theorem move_end_keeps_target_slot :
    (seen before_win).map (fun v => (v.states, v.tables)) = some
      ([INV_ACCEPTED_STATE], [[some 0, none, none, none], [some 0, none, none, none]]) ∧
    (seen before_win).map (fun v => v.wire.drop 9) = some
      [{ fd := 10
         hdr := { type := JEUX_MOVED_PKT, id := 0, role := 0, size := 18 }
         data := some ['X', '|', 'X', '|', ' ', '\n', 'O', '|', 'O', '|', ' ', '\n',
           ' ', '|', ' ', '|', ' ', '\n'] },
       bare 11 JEUX_ACK_PKT 0 0] ∧
    (outcome (before_win.bind (fun w => client_make_move w 0 0 ['3']))).map
        (fun r => (r.1, r.2.tables, r.2.ratings)) = some
      (0, [[none, none, none, none], [some 0, none, none, none]], [1516, 1484]) ∧
    (outcome (before_win.bind (fun w => client_make_move w 0 0 ['3']))).map
        (fun r => r.2.wire.drop 11) = some
      [bare 10 JEUX_ENDED_PKT 0 0,
       bare 11 JEUX_ENDED_PKT 1 0] := by
  decide!

/-- Counterexample to C20: alice sends INVITE with the role byte 1, FIRST, and the
payload bob; in the invitation made the role of the source is SECOND and that of
the target FIRST, and the INVITED packet sent to bob carries the role 1. -/
theorem invite_first_role :
    (match jeux_client_service_invite two_clients 0 invite_bob_first (some ['b', 'o', 'b']) with
      | Except.ok w =>
        some (w.invitations.map (fun i => (i.source, i.target, i.sourceR, i.targetR)), w.wire)
      | Except.error _ => none) = some
      ([(0, 1, SECOND_PLAYER_ROLE, FIRST_PLAYER_ROLE)],
        [bare 11 JEUX_INVITED_PKT 0 1,
         bare 10 JEUX_ACK_PKT 0 1]) := by
  decide

/-! ## Lemmas on the heap -/

theorem wait_free (count : Nat) (h : 0 < count) : wait count = Except.ok (count - 1) := by
  simp [wait, sem_wait_free count h]

theorem sem_post_wait (count : Nat) (h : 0 < count) : sem_post (count - 1) = count := by
  unfold sem_post
  omega

theorem set_same {α : Type} (l : List α) (p : Nat) (a : α) (h : l[p]? = some a) :
    l.set p a = l := by
  induction l generalizing p with
  | nil => rfl
  | cons x rest ih =>
    cases p with
    | zero =>
      simp at h
      simp [h]
    | succ q =>
      simp at h
      simp [ih q h]

theorem the_client_get (w : WORLD) (p : CLIENT_PTR) (c : CLIENT)
    (h : the_client w p = Except.ok c) : w.clients[p]? = some c := by
  unfold the_client at h
  cases hg : w.clients[p]? with
  | none => rw [hg] at h; simp at h
  | some x =>
    rw [hg] at h
    simp only [Except.ok.injEq] at h
    rw [h]

theorem the_client_put_same (w : WORLD) (p : CLIENT_PTR) (c c' : CLIENT)
    (h : the_client w p = Except.ok c) : the_client (put_client w p c') p = Except.ok c' := by
  have hg := the_client_get w p c h
  have hlt : p < w.clients.length := by
    rcases Nat.lt_or_ge p w.clients.length with hl | hl
    · exact hl
    · rw [List.getElem?_eq_none hl] at hg
      simp at hg
  simp [the_client, put_client, List.getElem?_set, hlt]

theorem the_client_put_other (w : WORLD) (p q : CLIENT_PTR) (c' : CLIENT) (h : p ≠ q) :
    the_client (put_client w p c') q = the_client w q := by
  simp [the_client, put_client, List.getElem?_set, h]

theorem put_client_same (w : WORLD) (p : CLIENT_PTR) (c : CLIENT)
    (h : the_client w p = Except.ok c) : put_client w p c = w := by
  unfold put_client
  rw [set_same _ _ _ (the_client_get w p c h)]

theorem put_client_put (w : WORLD) (p : CLIENT_PTR) (c c' : CLIENT) :
    put_client (put_client w p c) p c' = put_client w p c' := by
  simp [put_client]

/-- The effect of client_ref on a client whose semaphore is free. -/
theorem client_ref_free (w : WORLD) (p : CLIENT_PTR) (c : CLIENT)
    (h : the_client w p = Except.ok c) (hsem : 0 < c.seph) :
    client_ref w p = Except.ok (put_client w p { c with ref := c.ref + 1 }) := by
  simp only [client_ref, h, bind, Except.bind, wait_free c.seph hsem, sem_post_wait c.seph hsem,
    pure, Except.pure]

theorem the_invitation_get (w : WORLD) (q : INVITATION_PTR) (i : INVITATION)
    (h : the_invitation w q = Except.ok i) : w.invitations[q]? = some i := by
  unfold the_invitation at h
  cases hg : w.invitations[q]? with
  | none => rw [hg] at h; simp at h
  | some x =>
    rw [hg] at h
    simp only [Except.ok.injEq] at h
    rw [h]

theorem the_invitation_put_same (w : WORLD) (q : INVITATION_PTR) (i i' : INVITATION)
    (h : the_invitation w q = Except.ok i) :
    the_invitation (put_invitation w q i') q = Except.ok i' := by
  have hg := the_invitation_get w q i h
  have hlt : q < w.invitations.length := by
    rcases Nat.lt_or_ge q w.invitations.length with hl | hl
    · exact hl
    · rw [List.getElem?_eq_none hl] at hg
      simp at hg
  simp [the_invitation, put_invitation, List.getElem?_set, hlt]

theorem set_last {α : Type} (l : List α) (a b : α) : (l ++ [a]).set l.length b = l ++ [b] := by
  induction l with
  | nil => rfl
  | cons x rest ih => simp [ih]

/-- The effect of inv_ref on an invitation whose semaphore is free. -/
theorem inv_ref_free (w : WORLD) (q : INVITATION_PTR) (i : INVITATION)
    (h : the_invitation w q = Except.ok i) (hsem : 0 < i.seph) :
    inv_ref w (some q) = Except.ok (put_invitation w q { i with ref := i.ref + 1 }) := by
  simp only [inv_ref, h, bind, Except.bind, wait_free i.seph hsem, sem_post_wait i.seph hsem,
    pure, Except.pure]

/-- The effect of inv_create for two clients that differ and whose semaphores are
free: both counts are raised and the new object is the last of the heap. -/
theorem inv_create_free (w : WORLD) (c t : CLIENT_PTR) (cc tc : CLIENT) (sr tr : GAME_ROLE)
    (hne : c ≠ t) (hc : the_client w c = Except.ok cc) (ht : the_client w t = Except.ok tc)
    (hcsem : 0 < cc.seph) (htsem : 0 < tc.seph) :
    inv_create w c t sr tr = Except.ok (some w.invitations.length,
      { put_client (put_client w c { cc with ref := cc.ref + 1 }) t
          { tc with ref := tc.ref + 1 } with
        invitations := w.invitations ++ [inv_create_object c t sr tr] }) := by
  have ht' : the_client (put_client w c { cc with ref := cc.ref + 1 }) t = Except.ok tc := by
    rw [the_client_put_other _ _ _ _ hne]; exact ht
  simp only [inv_create, if_neg hne, bind, Except.bind, client_ref_free w c cc hc hcsem,
    client_ref_free _ t tc ht' htsem, pure, Except.pure]
  rfl

/-- The effect of client_add_invitation when the semaphores are free and the table
has an empty entry, the first of them at i. -/
theorem client_add_invitation_free (w : WORLD) (p : CLIENT_PTR) (c : CLIENT)
    (q : INVITATION_PTR) (inv : INVITATION) (i : Nat)
    (hc : the_client w p = Except.ok c) (hsem : 0 < c.seph)
    (hslot : find_slot none c.listOfInv 0 = some i)
    (hinv : the_invitation w q = Except.ok inv) (hisem : 0 < inv.seph) :
    client_add_invitation w p (some q) = Except.ok (Int.ofNat i,
      put_invitation (put_client w p { c with listOfInv := c.listOfInv.set i (some q) }) q
        { inv with ref := inv.ref + 1 }) := by
  have h1 : the_invitation
      (put_client w p { c with seph := c.seph - 1, listOfInv := c.listOfInv.set i (some q) }) q
      = Except.ok inv := hinv
  have h2 : the_client (put_invitation
      (put_client w p { c with seph := c.seph - 1, listOfInv := c.listOfInv.set i (some q) }) q
        { inv with ref := inv.ref + 1 }) p =
      Except.ok { c with seph := c.seph - 1, listOfInv := c.listOfInv.set i (some q) } :=
    the_client_put_same w p c _ hc
  simp only [client_add_invitation, hc, bind, Except.bind, wait_free c.seph hsem, hslot,
    inv_ref_free _ q inv h1 hisem, h2, sem_post_wait c.seph hsem, pure, Except.pure]
  simp [put_client, put_invitation]

/-- The effect of client_send_packet of a header without payload to a client whose
semaphore is free and whose connection is up. -/
theorem client_send_packet_free (w : WORLD) (p : CLIENT_PTR) (c : CLIENT)
    (hdr : JEUX_PACKET_HEADER) (hc : the_client w p = Except.ok c) (hsem : 0 < c.seph)
    (hup : c.fd ∉ w.down) (hsize : hdr.size = 0) :
    client_send_packet w p hdr none = Except.ok (0,
      { w with wire := w.wire ++ [{ fd := c.fd, hdr := hdr, data := none }] }) := by
  have hdown : (put_client w p { c with seph := c.seph - 1 }).down = w.down := rfl
  simp only [client_send_packet, hc, bind, Except.bind, wait_free c.seph hsem,
    proto_send_packet, hdown, if_neg hup, hsize, Nat.lt_irrefl, if_false, pure, Except.pure,
    sem_post_wait c.seph hsem]
  simp only [ne_eq, not_true_eq_false, if_false]
  have hself : w.clients.set p c = w.clients := set_same _ _ _ (the_client_get w p c hc)
  simp [put_client, hself]

/-- The effect of client_send_packet of a header without payload on a connection
that is down: nothing is written. -/
theorem client_send_packet_down (w : WORLD) (p : CLIENT_PTR) (c : CLIENT)
    (hdr : JEUX_PACKET_HEADER) (hc : the_client w p = Except.ok c) (hsem : 0 < c.seph)
    (hdown : c.fd ∈ w.down) :
    client_send_packet w p hdr none = Except.ok (-1, w) := by
  have hd : (put_client w p { c with seph := c.seph - 1 }).down = w.down := rfl
  simp only [client_send_packet, hc, bind, Except.bind, wait_free c.seph hsem,
    proto_send_packet, hd, if_pos hdown, pure, Except.pure, sem_post_wait c.seph hsem]
  have hself : w.clients.set p c = w.clients := set_same _ _ _ (the_client_get w p c hc)
  simp [put_client, hself]

/-- The effect of client_make_invitation between two clients that differ, whose
semaphores are free and whose tables have an empty entry, the target being on a
connection that is up: the invitation made is the last of the heap, with the two
roles as passed, and the INVITED packet carries the slot and the role of the
target. -/
theorem client_make_invitation_free (w : WORLD) (c t : CLIENT_PTR) (cc tc : CLIENT)
    (sr tr : GAME_ROLE) (i j : Nat)
    (hne : c ≠ t) (hc : the_client w c = Except.ok cc) (ht : the_client w t = Except.ok tc)
    (hcsem : 0 < cc.seph) (htsem : 0 < tc.seph)
    (hci : find_slot none cc.listOfInv 0 = some i)
    (htj : find_slot none tc.listOfInv 0 = some j)
    (hup : tc.fd ∉ w.down) :
    ∃ w' : WORLD, client_make_invitation w c t sr tr = Except.ok (Int.ofNat i, w') ∧
      w'.invitations = w.invitations ++ [{ inv_create_object c t sr tr with ref := 3 }] ∧
      w'.wire = w.wire ++
        [{ fd := tc.fd
           hdr := { type := JEUX_INVITED_PKT, id := to_uint8 (Int.ofNat j), role := to_uint8 tr,
                    size := 0 }
           data := none }] ∧
      w'.down = w.down ∧
      the_client w' c =
        Except.ok
          { cc with
            ref := cc.ref + 1
            listOfInv := cc.listOfInv.set i (some w.invitations.length) } ∧
      the_client w' t =
        Except.ok
          { tc with
            ref := tc.ref + 1
            listOfInv := tc.listOfInv.set j (some w.invitations.length) } := by
  -- inv_create
  have hcreate := inv_create_free w c t cc tc sr tr hne hc ht hcsem htsem
  generalize hw4 : ({ put_client (put_client w c { cc with ref := cc.ref + 1 }) t
          { tc with ref := tc.ref + 1 } with
        invitations := w.invitations ++ [inv_create_object c t sr tr] } : WORLD) = w4 at hcreate
  have h4c : the_client w4 c = Except.ok { cc with ref := cc.ref + 1 } := by
    rw [← hw4]
    show the_client (put_client (put_client w c { cc with ref := cc.ref + 1 }) t
      { tc with ref := tc.ref + 1 }) c = _
    rw [the_client_put_other _ _ _ _ hne.symm]
    exact the_client_put_same w c cc _ hc
  have h4t : the_client w4 t = Except.ok { tc with ref := tc.ref + 1 } := by
    rw [← hw4]
    show the_client (put_client (put_client w c { cc with ref := cc.ref + 1 }) t
      { tc with ref := tc.ref + 1 }) t = _
    apply the_client_put_same _ t tc
    rw [the_client_put_other _ _ _ _ hne]
    exact ht
  have h4i : the_invitation w4 w.invitations.length = Except.ok (inv_create_object c t sr tr) := by
    rw [← hw4]
    simp [the_invitation]
  have h4inv : w4.invitations = w.invitations ++ [inv_create_object c t sr tr] := by
    rw [← hw4]
  have h4wire : w4.wire = w.wire := by rw [← hw4]; rfl
  have h4down : w4.down = w.down := by rw [← hw4]; rfl
  -- the source adds the invitation
  have hadd1 := client_add_invitation_free w4 c { cc with ref := cc.ref + 1 }
    w.invitations.length (inv_create_object c t sr tr) i h4c hcsem hci h4i Nat.zero_lt_one
  generalize hw5 : put_invitation (put_client w4 c
      { ({ cc with ref := cc.ref + 1 } : CLIENT) with
        listOfInv := cc.listOfInv.set i (some w.invitations.length) })
      w.invitations.length
      { inv_create_object c t sr tr with ref := (inv_create_object c t sr tr).ref + 1 } = w5
    at hadd1
  have h5c : the_client w5 c = Except.ok
      { cc with
        ref := cc.ref + 1
        listOfInv := cc.listOfInv.set i (some w.invitations.length) } := by
    rw [← hw5]
    exact the_client_put_same w4 c _ _ h4c
  have h5t : the_client w5 t = Except.ok { tc with ref := tc.ref + 1 } := by
    rw [← hw5]
    show the_client (put_client w4 c _) t = _
    rw [the_client_put_other _ _ _ _ hne]
    exact h4t
  have h5i : the_invitation w5 w.invitations.length =
      Except.ok { inv_create_object c t sr tr with ref := 2 } := by
    rw [← hw5]
    exact the_invitation_put_same (put_client w4 c _) _ _ _ h4i
  have h5inv : w5.invitations =
      w.invitations ++ [{ inv_create_object c t sr tr with ref := 2 }] := by
    rw [← hw5]
    show (w4.invitations).set _ _ = _
    rw [h4inv, set_last]
    rfl
  have h5wire : w5.wire = w.wire := by rw [← hw5]; exact h4wire
  have h5down : w5.down = w.down := by rw [← hw5]; exact h4down
  -- the target adds the invitation
  have hadd2 := client_add_invitation_free w5 t { tc with ref := tc.ref + 1 }
    w.invitations.length { inv_create_object c t sr tr with ref := 2 } j h5t htsem htj h5i
    Nat.zero_lt_one
  generalize hw6 : put_invitation (put_client w5 t
      { ({ tc with ref := tc.ref + 1 } : CLIENT) with
        listOfInv := tc.listOfInv.set j (some w.invitations.length) })
      w.invitations.length
      { ({ inv_create_object c t sr tr with ref := 2 } : INVITATION) with
        ref := ({ inv_create_object c t sr tr with ref := 2 } : INVITATION).ref + 1 } = w6
    at hadd2
  have h6t : the_client w6 t = Except.ok
      { tc with
        ref := tc.ref + 1
        listOfInv := tc.listOfInv.set j (some w.invitations.length) } := by
    rw [← hw6]
    exact the_client_put_same w5 t _ _ h5t
  have h6c : the_client w6 c = Except.ok
      { cc with
        ref := cc.ref + 1
        listOfInv := cc.listOfInv.set i (some w.invitations.length) } := by
    rw [← hw6]
    show the_client (put_client w5 t _) c = _
    rw [the_client_put_other _ _ _ _ hne.symm]
    exact h5c
  have h6inv : w6.invitations =
      w.invitations ++ [{ inv_create_object c t sr tr with ref := 3 }] := by
    rw [← hw6]
    show (w5.invitations).set _ _ = _
    rw [h5inv, set_last]
    rfl
  have h6wire : w6.wire = w.wire := by rw [← hw6]; exact h5wire
  have h6down : w6.down = w.down := by rw [← hw6]; exact h5down
  -- the INVITED packet
  have hsend := client_send_packet_free w6 t _
    { type := JEUX_INVITED_PKT, id := to_uint8 (Int.ofNat j), role := to_uint8 tr, size := 0 }
    h6t htsem (by rw [h6down]; exact hup) rfl
  refine ⟨{ w6 with
      wire := w6.wire ++
        [{ fd := tc.fd
           hdr := { type := JEUX_INVITED_PKT, id := to_uint8 (Int.ofNat j), role := to_uint8 tr,
                    size := 0 }
           data := none }] }, ?_, h6inv, ?_, h6down, h6c, h6t⟩
  · have hi : (Int.ofNat i) ≠ -1 := by
      intro h
      have : (0 : Int) ≤ Int.ofNat i := Int.ofNat_nonneg i
      omega
    have hj : (Int.ofNat j) ≠ -1 := by
      intro h
      have : (0 : Int) ≤ Int.ofNat j := Int.ofNat_nonneg j
      omega
    simp only [client_make_invitation, hcreate, bind, Except.bind, hadd1, hadd2, if_neg hi,
      if_neg hj, hsend, pure, Except.pure]
    simp
  · show w6.wire ++ _ = _
    rw [h6wire]

/-- The effect of creg_lookup when the mutex is free and the loop finds a client
whose semaphore is free: the count of that client is raised. -/
theorem creg_lookup_found (w : WORLD) (user : List Char) (t : CLIENT_PTR) (tc : CLIENT)
    (hmutex : 0 < w.client_registry.mutex)
    (hfind : creg_lookup_loop w user w.client_registry.clients = Except.ok (some t))
    (ht : the_client w t = Except.ok tc) (htsem : 0 < tc.seph) :
    creg_lookup w user = Except.ok (some t, put_client w t { tc with ref := tc.ref + 1 }) := by
  simp only [creg_lookup, bind, Except.bind, wait_free _ hmutex, hfind,
    client_ref_free w t tc ht htsem, pure, Except.pure]

/-- Claim C20 as amended: a client c sends INVITE with the role byte r, 1 or 2, and a
payload that names another logged-in client t (the loop of creg_lookup finds t);
the semaphores are free, both slot tables have an empty entry and the connection
of t is up.  Then the branch returns, the invitation made has target_role = r and
source_role = the other role, and the INVITED packet sent to t carries the first
empty slot of t and the role r. -/
theorem invite_gives_target_the_role (w : WORLD) (c t : CLIENT_PTR) (cc tc : CLIENT)
    (hdr : JEUX_PACKET_HEADER) (bytes : List Char) (i j : Nat)
    (hrole : hdr.role = 1 ∨ hdr.role = 2)
    (hmutex : 0 < w.client_registry.mutex)
    (hfind : creg_lookup_loop w (bytes.take hdr.size) w.client_registry.clients
      = Except.ok (some t))
    (hne : c ≠ t)
    (hc : the_client w c = Except.ok cc) (ht : the_client w t = Except.ok tc)
    (hcsem : 0 < cc.seph) (htsem : 0 < tc.seph)
    (hci : find_slot none cc.listOfInv 0 = some i)
    (htj : find_slot none tc.listOfInv 0 = some j)
    (hup : tc.fd ∉ w.down) :
    ∃ (w' : WORLD) (inv : INVITATION),
      jeux_client_service_invite w c hdr (some bytes) = Except.ok w' ∧
      w'.invitations = w.invitations ++ [inv] ∧
      inv.source = c ∧ inv.target = t ∧ inv.state = INV_OPEN_STATE ∧
      inv.targetR = Int.ofNat hdr.role ∧
      (hdr.role = 1 → inv.sourceR = SECOND_PLAYER_ROLE) ∧
      (hdr.role = 2 → inv.sourceR = FIRST_PLAYER_ROLE) ∧
      w'.wire = w.wire ++
        { fd := tc.fd
          hdr := { type := JEUX_INVITED_PKT, id := to_uint8 (Int.ofNat j), role := hdr.role,
                   size := 0 }
          data := none } ::
        (if cc.fd ∈ w.down then []
         else [{ fd := cc.fd
                 hdr := { hdr with type := JEUX_ACK_PKT, id := to_uint8 (Int.ofNat i), size := 0 }
                 data := none }]) := by
  have hlook := creg_lookup_found w (bytes.take hdr.size) t tc hmutex hfind ht htsem
  have h1c : the_client (put_client w t { tc with ref := tc.ref + 1 }) c = Except.ok cc := by
    rw [the_client_put_other _ _ _ _ hne.symm]; exact hc
  have h1t : the_client (put_client w t { tc with ref := tc.ref + 1 }) t
      = Except.ok { tc with ref := tc.ref + 1 } := the_client_put_same w t tc _ ht
  obtain ⟨w2, hmake, h2inv, h2wire, h2down, h2c, _⟩ :=
    client_make_invitation_free (put_client w t { tc with ref := tc.ref + 1 }) c t cc
      { tc with ref := tc.ref + 1 } (if hdr.role = 1 then 2 else 1) (Int.ofNat hdr.role) i j
      hne h1c h1t hcsem htsem hci htj hup
  have hi : (Int.ofNat i) ≠ -1 := by
    intro h
    have : (0 : Int) ≤ Int.ofNat i := Int.ofNat_nonneg i
    omega
  have hbyte : to_uint8 (Int.ofNat hdr.role) = hdr.role := by
    rcases hrole with h | h <;> rw [h] <;> decide
  have hinv : w2.invitations = w.invitations ++
      [{ inv_create_object c t (if hdr.role = 1 then 2 else 1) (Int.ofNat hdr.role) with
         ref := 3 }] := h2inv
  have hwire : w2.wire = w.wire ++
      [{ fd := tc.fd
         hdr := { type := JEUX_INVITED_PKT, id := to_uint8 (Int.ofNat j), role := hdr.role,
                  size := 0 }
         data := none }] := by
    rw [h2wire, hbyte]
    rfl
  have hsr1 : hdr.role = 1 →
      (if hdr.role = 1 then (2 : GAME_ROLE) else 1) = SECOND_PLAYER_ROLE := by
    intro h; rw [if_pos h]; rfl
  have hsr2 : hdr.role = 2 →
      (if hdr.role = 1 then (2 : GAME_ROLE) else 1) = FIRST_PLAYER_ROLE := by
    intro h
    have : ¬ hdr.role = 1 := by omega
    rw [if_neg this]; rfl
  by_cases hdown : cc.fd ∈ w.down
  · have hsend := client_send_packet_down w2 c _
      { hdr with type := JEUX_ACK_PKT, id := to_uint8 (Int.ofNat i), size := 0 } h2c hcsem
      (by rw [h2down]; exact hdown)
    refine ⟨w2, _, ?_, hinv, rfl, rfl, rfl, rfl, hsr1, hsr2, ?_⟩
    · simp only [jeux_client_service_invite, hlook, bind, Except.bind, hmake, if_neg hi, hsend,
        pure, Except.pure]
    · rw [hwire, if_pos hdown]
  · have hsend := client_send_packet_free w2 c _
      { hdr with type := JEUX_ACK_PKT, id := to_uint8 (Int.ofNat i), size := 0 } h2c hcsem
      (by rw [h2down]; exact hdown) rfl
    refine ⟨{ w2 with
        wire := w2.wire ++
          [{ fd := cc.fd
             hdr := { hdr with type := JEUX_ACK_PKT, id := to_uint8 (Int.ofNat i), size := 0 }
             data := none }] }, _, ?_, hinv, rfl, rfl, rfl, rfl, hsr1, hsr2, ?_⟩
    · simp only [jeux_client_service_invite, hlook, bind, Except.bind, hmake, if_neg hi, hsend,
        pure, Except.pure]
    · show w2.wire ++ _ = _
      rw [hwire, if_neg hdown]
      simp

/-- Witness of C20 as amended: alice invites bob with the role byte 1; the invitation
gives bob the role FIRST and alice the role SECOND. -/
theorem invite_gives_target_the_role_witness :
    ∃ (w' : WORLD) (inv : INVITATION),
      jeux_client_service_invite two_clients 0 invite_bob_first (some ['b', 'o', 'b'])
        = Except.ok w' ∧
      w'.invitations = [inv] ∧ inv.targetR = FIRST_PLAYER_ROLE ∧
      inv.sourceR = SECOND_PLAYER_ROLE := by
  obtain ⟨w', inv, h, hinv, _, _, _, htr, hsr, _, _⟩ :=
    invite_gives_target_the_role two_clients 0 1
      { client_create 4 10 with playerRef := some 0 }
      { client_create 4 11 with playerRef := some 1 }
      invite_bob_first ['b', 'o', 'b'] 0 0
      (Or.inl rfl) (by decide) rfl (by decide) rfl rfl (by decide) (by decide)
      rfl rfl (by decide)
  exact ⟨w', inv, h, hinv, htr, hsr rfl⟩

/-! ## Calls by the wrong peer, logout, and the count of an invitation -/

/-- Claim C22, the code at a call by the peer that is not entitled to it: alice has
invited bob, the invitation is OPEN and has no game.  client_revoke_invitation by
bob, the target, returns -1 but leaves the invitation CLOSED: inv_close runs before
the source is compared with the caller.  client_accept_invitation by alice, the
source, returns -1 but leaves the invitation ACCEPTED with a game attached:
inv_accept runs before the comparison. -/
theorem wrong_peer_changes_state :
    (seen invited).map (fun v => v.states) = some [INV_OPEN_STATE] ∧
    (returned invited).map (fun w => w.invitations.map (fun i => i.gameRef.isSome)) =
      some [false] ∧
    (returned (invited.bind (fun w => client_revoke_invitation w 1 0))).map
        (fun r => (r.1, r.2.invitations.map (fun i => (i.state, i.gameRef.isSome)))) =
      some (-1, [(INV_CLOSED_STATE, false)]) ∧
    (returned (invited.bind (fun w => client_accept_invitation w 0 0))).map
        (fun r => (r.1, r.2.2.invitations.map (fun i => (i.state, i.gameRef.isSome)))) =
      some (-1, [(INV_ACCEPTED_STATE, true)]) := by
  decide

/-- Claim C23, the code at a logout with an occupied slot: alice has invited bob and
both hold the OPEN invitation at their slot 0.  client_logout by bob, the target,
returns 0 and unbinds his player, but his slot 0 and that of alice still hold the
invitation (client_revoke_invitation closes it and then fails, bob not being the
source).  client_logout by alice, the source, has no result: it holds her semaphore
when client_remove_invitation waits for it.  The same happens to either client once
the invitation is accepted. -/
theorem logout_keeps_slots :
    (returned (invited.bind (fun w => client_logout w 1))).map (fun r => (r.1, logins r.2)) =
      some (0, [some 0, none]) ∧
    (outcome (invited.bind (fun w => client_logout w 1))).map (fun r => (r.2.tables, r.2.states)) =
      some ([[some 0, none, none, none], [some 0, none, none, none]], [INV_CLOSED_STATE]) ∧
    fault (invited.bind (fun w => client_logout w 0)) = some FAULT.blocked ∧
    fault (accepted.bind (fun w => client_logout w 0)) = some FAULT.blocked ∧
    fault (accepted.bind (fun w => client_logout w 1)) = some FAULT.blocked := by
  decide

/-- Claim C25, the code at an addition followed by a removal: inv_create makes an
invitation from alice to bob with the count 1; client_add_invitation puts it at
slot 0 of alice and raises the count to 2; client_remove_invitation then clears the
slot and returns 0, but the count is 3: the removal calls inv_ref. -/
theorem remove_raises_count :
    (returned created).map (fun r => (r.1, counts r.2, (view r.2).tables)) =
      some (some 0, [1], [[none, none, none, none], [none, none, none, none]]) ∧
    (returned (created.bind (fun r => client_add_invitation r.2 0 r.1))).map
        (fun r => (r.1, counts r.2, (view r.2).tables)) =
      some (0, [2], [[some 0, none, none, none], [none, none, none, none]]) ∧
    (returned ((created.bind (fun r => client_add_invitation r.2 0 r.1)).bind
        (fun r => client_remove_invitation r.2 0 (some 0)))).map
        (fun r => (r.1, counts r.2, (view r.2).tables)) =
      some (0, [3], [[none, none, none, none], [none, none, none, none]]) := by
  decide

/-- Claim C28, the code at a resignation when the table of the opponent is full:
alice has invited bob four times and bob has accepted the first invitation; both
tables are full and the ratings are 1500.  client_resign_game by bob posts the result
(alice 1516, bob 1484) and clears his slot 0, but returns -1 and sends no RESIGNED
packet: the second client_remove_invitation looks for NULL in the table of alice and
finds none.  The same happens when alice resigns. -/
theorem resign_full_table :
    (seen four_invitations).map (fun v => (v.states, v.ratings)) =
      some ([INV_ACCEPTED_STATE, INV_OPEN_STATE, INV_OPEN_STATE, INV_OPEN_STATE],
        [1500, 1500]) ∧
    (seen four_invitations).map (fun v => (v.tables, v.wire.length)) =
      some ([[some 0, some 1, some 2, some 3], [some 0, some 1, some 2, some 3]], 5) ∧
    (outcome (four_invitations.bind (fun w => client_resign_game w 1 0))).map
        (fun r => (r.1, r.2.tables, r.2.ratings)) =
      some (-1, [[some 0, some 1, some 2, some 3], [none, some 1, some 2, some 3]],
        [1516, 1484]) ∧
    (outcome (four_invitations.bind (fun w => client_resign_game w 1 0))).map
        (fun r => r.2.wire.drop 5) = some [] ∧
    (outcome (four_invitations.bind (fun w => client_resign_game w 0 0))).map
        (fun r => (r.1, r.2.tables, r.2.ratings)) =
      some (-1, [[none, some 1, some 2, some 3], [some 0, some 1, some 2, some 3]],
        [1484, 1516]) ∧
    (outcome (four_invitations.bind (fun w => client_resign_game w 0 0))).map
        (fun r => r.2.wire.drop 5) = some [] := by
  refine ⟨by decide!, by decide!, by decide!, by decide!, by decide!, by decide!⟩

/-- Claim C29, the code at a negative result: with alice and bob at 1500,
player_post_result with the result -1, and with -7, changes the ratings as the
result 2 does, a win of the second player; the test is result <= 2.  A result
above 2 changes nothing. -/
theorem post_result_negative :
    (seen (player_post_result two_clients (some 0) (some 1) (-1))).map (fun v => v.ratings) =
      some [1484, 1516] ∧
    (seen (player_post_result two_clients (some 0) (some 1) (-7))).map (fun v => v.ratings) =
      some [1484, 1516] ∧
    (seen (player_post_result two_clients (some 0) (some 1) 2)).map (fun v => v.ratings) =
      some [1484, 1516] ∧
    (seen (player_post_result two_clients (some 0) (some 1) 3)).map (fun v => v.ratings) =
      some [1500, 1500] := by
  decide!

/-! ## The slot table: client_add_invitation and client_accept_invitation -/

theorem find_slot_first (want : Option INVITATION_PTR) (l : List (Option INVITATION_PTR))
    (k i : Nat) (hi : l[i]? = some want) (hfirst : ∀ j : Nat, j < i → l[j]? ≠ some want) :
    find_slot want l k = some (k + i) := by
  induction l generalizing k i with
  | nil => simp at hi
  | cons s rest ih =>
    cases i with
    | zero =>
      simp at hi
      simp [find_slot, hi]
    | succ n =>
      have h0 : s ≠ want := by
        intro h
        exact hfirst 0 (Nat.succ_pos n) (by simp [h])
      have hrest : ∀ j : Nat, j < n → rest[j]? ≠ some want := by
        intro j hj
        have := hfirst (j + 1) (by omega)
        simpa using this
      have hn : rest[n]? = some want := by simpa using hi
      simp only [find_slot, if_neg h0, ih (k + 1) n hn hrest]
      congr 1
      omega

theorem find_slot_absent (want : Option INVITATION_PTR) (l : List (Option INVITATION_PTR))
    (k : Nat) (h : ∀ j : Nat, l[j]? ≠ some want) : find_slot want l k = none := by
  induction l generalizing k with
  | nil => rfl
  | cons s rest ih =>
    have h0 : s ≠ want := by
      intro e
      exact h 0 (by simp [e])
    have hrest : ∀ j : Nat, rest[j]? ≠ some want := by
      intro j
      have := h (j + 1)
      simpa using this
    simp only [find_slot, if_neg h0, ih (k + 1) hrest]

/-- The read client->listOfInv[id] at an index inside the table. -/
theorem slot_of_get (w : WORLD) (p : CLIENT_PTR) (c : CLIENT) (id : Nat)
    (s : Option INVITATION_PTR) (hc : the_client w p = Except.ok c)
    (hs : c.listOfInv[id]? = some s) : slot_of w p (Int.ofNat id) = Except.ok s := by
  have hneg : ¬ (Int.ofNat id < 0) := by
    have : (0 : Int) ≤ Int.ofNat id := Int.ofNat_nonneg id
    omega
  have hnat : (Int.ofNat id).toNat = id := rfl
  simp only [slot_of, hc, bind, Except.bind, slot, if_neg hneg, hnat, hs]

/-- Claim C24: for a client and an invitation whose semaphores are free,
client_add_invitation puts the invitation into the empty slot of lowest index i and
returns i; the table is the old one with that entry set, so every other slot is as
before, and the count of the invitation is one more.  When no slot is empty it
returns -1 and the world, table and count included, is as before. -/
theorem client_add_invitation_lowest (w : WORLD) (p : CLIENT_PTR) (c : CLIENT)
    (q : INVITATION_PTR) (inv : INVITATION)
    (hc : the_client w p = Except.ok c) (hsem : 0 < c.seph)
    (hinv : the_invitation w q = Except.ok inv) (hisem : 0 < inv.seph) :
    (∀ i : Nat, c.listOfInv[i]? = some none → (∀ j : Nat, j < i → c.listOfInv[j]? ≠ some none) →
      ∃ (w' : WORLD) (c' : CLIENT) (inv' : INVITATION),
        client_add_invitation w p (some q) = Except.ok (Int.ofNat i, w') ∧
        the_client w' p = Except.ok c' ∧
        c'.listOfInv = c.listOfInv.set i (some q) ∧
        c'.listOfInv[i]? = some (some q) ∧
        (∀ j : Nat, j ≠ i → c'.listOfInv[j]? = c.listOfInv[j]?) ∧
        the_invitation w' q = Except.ok inv' ∧
        inv'.ref = inv.ref + 1) ∧
    ((∀ j : Nat, c.listOfInv[j]? ≠ some none) →
      client_add_invitation w p (some q) = Except.ok (-1, w)) := by
  constructor
  · intro i hi hfirst
    have hslot : find_slot none c.listOfInv 0 = some i := by
      rw [find_slot_first none c.listOfInv 0 i hi hfirst, Nat.zero_add]
    have hlt : i < c.listOfInv.length := by
      rcases Nat.lt_or_ge i c.listOfInv.length with hl | hl
      · exact hl
      · rw [List.getElem?_eq_none hl] at hi
        simp at hi
    refine ⟨_, { c with listOfInv := c.listOfInv.set i (some q) }, { inv with ref := inv.ref + 1 },
      client_add_invitation_free w p c q inv i hc hsem hslot hinv hisem, ?_, rfl, ?_, ?_, ?_, rfl⟩
    · exact the_client_put_same w p c _ hc
    · simp [List.getElem?_set, hlt]
    · intro j hj
      simp [List.getElem?_set, Ne.symm hj]
    · exact the_invitation_put_same _ q inv _ hinv
  · intro hfull
    have hslot : find_slot none c.listOfInv 0 = none := find_slot_absent none c.listOfInv 0 hfull
    simp only [client_add_invitation, hc, bind, Except.bind, wait_free c.seph hsem, hslot,
      sem_post_wait c.seph hsem, pure, Except.pure]
    rw [put_client_same w p c hc]

/-- Witness of C24: alice, who holds an invitation at her slot 0, is given it again;
it goes to her slot 1, the empty slot of lowest index, and its count goes from 3
to 4. -/
theorem client_add_invitation_lowest_witness :
    ∃ (w' : WORLD) (c' : CLIENT) (inv' : INVITATION),
      client_add_invitation one_invitation 0 (some 0) = Except.ok (1, w') ∧
      the_client w' 0 = Except.ok c' ∧
      c'.listOfInv = [some 0, some 0, none, none] ∧
      the_invitation w' 0 = Except.ok inv' ∧ inv'.ref = 4 := by
  obtain ⟨w', c', inv', h, hc, hl, _, _, hi, hr⟩ :=
    (client_add_invitation_lowest one_invitation 0
      { client_create 4 10 with
        playerRef := some 0, ref := 2, listOfInv := [some 0, none, none, none] }
      0 { inv_create_object 0 1 FIRST_PLAYER_ROLE SECOND_PLAYER_ROLE with ref := 3 }
      rfl (by decide) rfl (by decide)).1 1 rfl
      (by
        intro j hj
        have : j = 0 := by omega
        subst this
        decide)
  exact ⟨w', c', inv', h, hc, hl, hi, hr⟩

/-- The effect of inv_accept through a pointer on an OPEN invitation whose semaphore
is free. -/
theorem on_invitation_accept (w : WORLD) (q : INVITATION_PTR) (inv : INVITATION)
    (hinv : the_invitation w q = Except.ok inv) (hopen : inv.state = INV_OPEN_STATE)
    (hsem : 0 < inv.seph) :
    on_invitation w q inv_accept = Except.ok (0,
      put_invitation w q { inv with state := INV_ACCEPTED_STATE, gameRef := some game_create }) := by
  have hacc : inv_accept inv =
      some (0, { inv with state := INV_ACCEPTED_STATE, gameRef := some game_create }) := by
    simp only [inv_accept, sem_wait_free inv.seph hsem, hopen]
    simp only [reduceCtorEq, or_self, if_false, inv_post, sem_post_wait inv.seph hsem]
  simp only [on_invitation, hinv, bind, Except.bind, hacc, pure, Except.pure]

/-- The function game_unparse_state on the game that game_create makes. -/
theorem game_unparse_state_create :
    game_unparse_state game_create = some (initial_board, game_create) := rfl

/-- The effect of client_send_packet of a header with a payload to a client whose
semaphore is free and whose connection is up. -/
theorem client_send_packet_data (w : WORLD) (p : CLIENT_PTR) (c : CLIENT)
    (hdr : JEUX_PACKET_HEADER) (bytes : List Char) (hc : the_client w p = Except.ok c)
    (hsem : 0 < c.seph) (hup : c.fd ∉ w.down) (hsize : 0 < hdr.size) :
    client_send_packet w p hdr (some bytes) = Except.ok (0,
      { w with wire := w.wire ++ [{ fd := c.fd, hdr := hdr, data := some (bytes.take hdr.size) }] }) := by
  have hdown : (put_client w p { c with seph := c.seph - 1 }).down = w.down := rfl
  simp only [client_send_packet, hc, bind, Except.bind, wait_free c.seph hsem,
    proto_send_packet, hdown, if_neg hup, if_pos hsize, pure, Except.pure,
    sem_post_wait c.seph hsem]
  simp only [ne_eq, not_true_eq_false, if_false]
  have hself : w.clients.set p c = w.clients := set_same _ _ _ (the_client_get w p c hc)
  simp [put_client, hself]

/-- Claim C21: the target of an OPEN invitation, which it holds at its slot id,
calls client_accept_invitation; the source holds the invitation, first at its slot
gid, the semaphores are free and the connection of the source is up.  The call
returns 0, the invitation is ACCEPTED, and exactly one packet is written: an ACCEPTED
packet to the source with the id gid.  If the role of the source is FIRST the packet
has the size 18 and the initial board as payload and nothing is stored through strp;
otherwise the packet has no payload and the initial board is stored through strp. -/
theorem client_accept_invitation_board (w : WORLD) (client : CLIENT_PTR) (id : Nat)
    (cc sc : CLIENT) (q : INVITATION_PTR) (inv : INVITATION) (gid : Nat)
    (hc : the_client w client = Except.ok cc)
    (hslot : cc.listOfInv[id]? = some (some q))
    (hinv : the_invitation w q = Except.ok inv)
    (hopen : inv.state = INV_OPEN_STATE) (hisem : 0 < inv.seph)
    (htarget : inv.target = client) (hne : inv.source ≠ inv.target)
    (hs : the_client w inv.source = Except.ok sc)
    (hgid : find_slot (some q) sc.listOfInv 0 = some gid) (hbyte : gid < 256)
    (hssem : 0 < sc.seph) (hup : sc.fd ∉ w.down) :
    initial_board.length = 18 ∧
    (inv.sourceR = FIRST_PLAYER_ROLE →
      ∃ (w' : WORLD) (inv' : INVITATION),
        client_accept_invitation w client (Int.ofNat id) = Except.ok (0, none, w') ∧
        the_invitation w' q = Except.ok inv' ∧ inv'.state = INV_ACCEPTED_STATE ∧
        w'.wire = w.wire ++
          [{ fd := sc.fd
             hdr := { type := JEUX_ACCEPTED_PKT, id := gid, role := 0, size := 18 }
             data := some initial_board }]) ∧
    (inv.sourceR ≠ FIRST_PLAYER_ROLE →
      ∃ (w' : WORLD) (inv' : INVITATION),
        client_accept_invitation w client (Int.ofNat id) =
          Except.ok (0, some initial_board, w') ∧
        the_invitation w' q = Except.ok inv' ∧ inv'.state = INV_ACCEPTED_STATE ∧
        w'.wire = w.wire ++ [bare sc.fd JEUX_ACCEPTED_PKT gid 0]) := by
  have hneg : ¬ (Int.ofNat id < 0) := by
    have : (0 : Int) ≤ Int.ofNat id := Int.ofNat_nonneg id
    omega
  have hother : inv.source ≠ client := by rw [← htarget]; exact hne
  have h1 := slot_of_get w client cc id (some q) hc hslot
  have h2 := on_invitation_accept w q inv hinv hopen hisem
  have hinv1 := the_invitation_put_same w q inv
    { inv with state := INV_ACCEPTED_STATE, gameRef := some game_create } hinv
  generalize hw1 : put_invitation w q
    { inv with state := INV_ACCEPTED_STATE, gameRef := some game_create } = w1 at h2 hinv1
  have hc1 : the_client w1 client = Except.ok cc := by rw [← hw1]; exact hc
  have hs1 : the_client w1 inv.source = Except.ok sc := by rw [← hw1]; exact hs
  have hwire1 : w1.wire = w.wire := by rw [← hw1]; rfl
  have hdown1 : w1.down = w.down := by rw [← hw1]; rfl
  have h3 : inv_get_source w1 q = Except.ok inv.source := by
    simp only [inv_get_source, hinv1, bind, Except.bind, pure, Except.pure]
  have h4 := slot_of_get w1 client cc id (some q) hc1 hslot
  have h5 : inv_get_game w1 q = Except.ok (some game_create) := by
    simp only [inv_get_game, hinv1, bind, Except.bind, wait_free inv.seph hisem, pure,
      Except.pure]
  have h6 : on_game w1 q game_unparse_state = Except.ok (initial_board, w1) := by
    simp only [on_game, hinv1, bind, Except.bind, game_unparse_state_create, pure, Except.pure]
    have hself : put_invitation w1 q
        { inv with state := INV_ACCEPTED_STATE, gameRef := some game_create } = w1 := by
      unfold put_invitation
      rw [set_same _ _ _ (the_invitation_get w1 q _ hinv1)]
    exact congrArg (fun x => Except.ok (initial_board, x)) hself
  have h7 : inv_get_source_role w1 q = Except.ok inv.sourceR := by
    simp only [inv_get_source_role, hinv1, bind, Except.bind, wait_free inv.seph hisem, pure,
      Except.pure]
  have hid : to_uint8 (Int.ofNat gid) = gid := by
    unfold to_uint8
    have : (Int.ofNat gid) % 256 = Int.ofNat gid := Int.emod_eq_of_lt (Int.ofNat_nonneg gid)
      (by have : (gid : Int) < 256 := by exact_mod_cast hbyte
          exact this)
    rw [this]
    rfl
  have hlen : to_uint16 (strlen initial_board) = 18 := by decide
  refine ⟨by decide, ?_, ?_⟩
  · intro hfirst
    have hsend := client_send_packet_data w1 inv.source sc
      { type := JEUX_ACCEPTED_PKT, id := gid, role := 0, size := 18 } initial_board hs1 hssem
      (by rw [hdown1]; exact hup) (by show 0 < 18; omega)
    refine ⟨{ w1 with
        wire := w1.wire ++
          [{ fd := sc.fd
             hdr := { type := JEUX_ACCEPTED_PKT, id := gid, role := 0, size := 18 }
             data := some initial_board }] },
      { inv with state := INV_ACCEPTED_STATE, gameRef := some game_create }, ?_, ?_, ?_, ?_⟩
    · simp only [client_accept_invitation, if_neg hneg, h1, bind, Except.bind, h2, ne_eq,
        not_true_eq_false, if_false, h3, if_neg hother, hs1, h4, hgid, h5, h6, h7, hfirst,
        if_true, hid, hlen, hsend, pure, Except.pure]
      rfl
    · exact hinv1
    · rfl
    · show w1.wire ++ _ = _
      rw [hwire1]
  · intro hsecond
    have hsend := client_send_packet_free w1 inv.source sc
      { type := JEUX_ACCEPTED_PKT, id := gid, role := 0, size := 0 } hs1 hssem
      (by rw [hdown1]; exact hup) rfl
    refine ⟨{ w1 with wire := w1.wire ++ [bare sc.fd JEUX_ACCEPTED_PKT gid 0] },
      { inv with state := INV_ACCEPTED_STATE, gameRef := some game_create }, ?_, ?_, ?_, ?_⟩
    · simp only [client_accept_invitation, if_neg hneg, h1, bind, Except.bind, h2, ne_eq,
        not_true_eq_false, if_false, h3, if_neg hother, hs1, h4, hgid, h5, h6, h7,
        if_neg hsecond, hid, hsend, pure, Except.pure]
      rfl
    · exact hinv1
    · rfl
    · show w1.wire ++ _ = _
      rw [hwire1]

/-- Witness of C21: bob accepts the invitation of alice, who plays FIRST; the
ACCEPTED packet goes to her connection 10 with the id 0 and the initial board. -/
theorem client_accept_invitation_board_witness :
    ∃ (w' : WORLD) (inv' : INVITATION),
      client_accept_invitation one_invitation 1 0 = Except.ok (0, none, w') ∧
      the_invitation w' 0 = Except.ok inv' ∧ inv'.state = INV_ACCEPTED_STATE ∧
      w'.wire =
        [{ fd := 10
           hdr := { type := JEUX_ACCEPTED_PKT, id := 0, role := 0, size := 18 }
           data := some initial_board }] :=
  (client_accept_invitation_board one_invitation 1 0
    { client_create 4 11 with
      playerRef := some 1, ref := 2, listOfInv := [some 0, none, none, none] }
    { client_create 4 10 with
      playerRef := some 0, ref := 2, listOfInv := [some 0, none, none, none] }
    0 { inv_create_object 0 1 FIRST_PLAYER_ROLE SECOND_PLAYER_ROLE with ref := 3 } 0
    rfl rfl rfl rfl (by decide) rfl (by decide) rfl rfl (by decide) (by decide)
    (by decide)).2.1 rfl

/-! ## Ratings (player.c) -/

theorem the_player_get (w : WORLD) (p : PLAYER_PTR) (x : PLAYER)
    (h : the_player w p = Except.ok x) : w.players[p]? = some x := by
  unfold the_player at h
  cases hg : w.players[p]? with
  | none => rw [hg] at h; simp at h
  | some y =>
    rw [hg] at h
    simp only [Except.ok.injEq] at h
    rw [h]

theorem the_player_put_same (w : WORLD) (p : PLAYER_PTR) (x x' : PLAYER)
    (h : the_player w p = Except.ok x) : the_player (put_player w p x') p = Except.ok x' := by
  have hg := the_player_get w p x h
  have hlt : p < w.players.length := by
    rcases Nat.lt_or_ge p w.players.length with hl | hl
    · exact hl
    · rw [List.getElem?_eq_none hl] at hg
      simp at hg
  simp [the_player, put_player, List.getElem?_set, hlt]

theorem the_player_put_other (w : WORLD) (p q : PLAYER_PTR) (x' : PLAYER) (h : p ≠ q) :
    the_player (put_player w p x') q = the_player w q := by
  simp [the_player, put_player, List.getElem?_set, h]

/-- The effect of player_post_result on two players that differ and whose semaphores
are free, for a result that passes the test result <= 2. -/
theorem player_post_result_free (w : WORLD) (p1 p2 : PLAYER_PTR) (x1 x2 : PLAYER)
    (result : Int) (hne : p1 ≠ p2)
    (h1 : the_player w p1 = Except.ok x1) (h2 : the_player w p2 = Except.ok x2)
    (hs1 : 0 < x1.seph) (hs2 : 0 < x2.seph) (hres : result ≤ 2) :
    player_post_result w (some p1) (some p2) result = Except.ok
      (put_player
        (put_player w p1
          { x1 with rating := x1.rating + rating_change x1.rating x2.rating (scores result).1 })
        p2 { x2 with rating := x2.rating + rating_change x2.rating x1.rating (scores result).2 }) := by
  have h2' : ∀ y : PLAYER, the_player (put_player w p1 y) p2 = Except.ok x2 := by
    intro y
    rw [the_player_put_other _ _ _ _ hne]; exact h2
  simp only [player_post_result, if_pos hres, h1, h2, bind, Except.bind, wait_free x1.seph hs1,
    wait_free x2.seph hs2, sem_post_wait x1.seph hs1, sem_post_wait x2.seph hs2, h2', pure,
    Except.pure]
  rfl

theorem rating_change_near (r r' : Int) (s : ℚ) (h : Int.tdiv (r' - r) 400 = 0) :
    rating_change r r' s = to_int (32 * (s - 1 / 2)) := by
  unfold rating_change
  rw [h]
  norm_num

theorem to_int_sixteen : to_int (32 * (1 - 1 / 2)) = 16 ∧ to_int (32 * (0 - 1 / 2)) = -16 := by
  constructor <;> norm_num [to_int]

/-- Claim C27: two players that differ have the same rating R (with R - 16 and R + 16
values of an int) and free semaphores.  player_post_result with the result 1, a win
of player1, returns and leaves the ratings R + 16 and R - 16; player_post_result with
the result 2, a win of player2, then returns and leaves both ratings within 1 of R:
they are R again, the difference of 32 giving the quotient 0 in the exponent. -/
theorem post_result_round_trip (w : WORLD) (p1 p2 : PLAYER_PTR) (x1 x2 : PLAYER) (R : Int)
    (hne : p1 ≠ p2)
    (h1 : the_player w p1 = Except.ok x1) (h2 : the_player w p2 = Except.ok x2)
    (hr1 : x1.rating = R) (hr2 : x2.rating = R)
    (hs1 : 0 < x1.seph) (hs2 : 0 < x2.seph)
    (_hlow : -2147483648 ≤ R - 16) (_hhigh : R + 16 ≤ 2147483647) :
    ∃ (w1 w2 : WORLD) (y1 y2 z1 z2 : PLAYER),
      player_post_result w (some p1) (some p2) 1 = Except.ok w1 ∧
      the_player w1 p1 = Except.ok y1 ∧ the_player w1 p2 = Except.ok y2 ∧
      y1.rating = R + 16 ∧ y2.rating = R - 16 ∧
      player_post_result w1 (some p1) (some p2) 2 = Except.ok w2 ∧
      the_player w2 p1 = Except.ok z1 ∧ the_player w2 p2 = Except.ok z2 ∧
      |z1.rating - R| ≤ 1 ∧ |z2.rating - R| ≤ 1 ∧ z1.rating = R ∧ z2.rating = R := by
  have hfirst := player_post_result_free w p1 p2 x1 x2 1 hne h1 h2 hs1 hs2 (by decide)
  have hc1 : rating_change x1.rating x2.rating (scores 1).1 = 16 := by
    rw [rating_change_near _ _ _ (by rw [hr1, hr2]; simp)]
    exact to_int_sixteen.1
  have hc2 : rating_change x2.rating x1.rating (scores 1).2 = -16 := by
    rw [rating_change_near _ _ _ (by rw [hr1, hr2]; simp)]
    exact to_int_sixteen.2
  rw [hc1, hc2, hr1, hr2] at hfirst
  have hy1 : the_player
      (put_player (put_player w p1 { x1 with rating := R + 16 }) p2
        { x2 with rating := R + -16 }) p1 = Except.ok { x1 with rating := R + 16 } := by
    rw [the_player_put_other _ _ _ _ hne.symm]
    exact the_player_put_same w p1 x1 _ h1
  have hy2 : the_player
      (put_player (put_player w p1 { x1 with rating := R + 16 }) p2
        { x2 with rating := R + -16 }) p2 = Except.ok { x2 with rating := R + -16 } := by
    apply the_player_put_same _ p2 x2
    rw [the_player_put_other _ _ _ _ hne]
    exact h2
  have hsecond := player_post_result_free _ p1 p2 _ _ 2 hne hy1 hy2 hs1 hs2 (by decide)
  have hd1 : rating_change (R + 16) (R + -16) (scores 2).1 = -16 := by
    rw [rating_change_near _ _ _ (by
      have : R + -16 - (R + 16) = -32 := by ring
      rw [this]; decide)]
    exact to_int_sixteen.2
  have hd2 : rating_change (R + -16) (R + 16) (scores 2).2 = 16 := by
    rw [rating_change_near _ _ _ (by
      have : R + 16 - (R + -16) = 32 := by ring
      rw [this]; decide)]
    exact to_int_sixteen.1
  simp only [hd1, hd2] at hsecond
  refine ⟨_, _, _, _, { x1 with rating := R + 16 + -16 }, { x2 with rating := R + -16 + 16 },
    hfirst, hy1, hy2, rfl, by show R + -16 = R - 16; ring, hsecond, ?_, ?_, ?_, ?_, ?_, ?_⟩
  · rw [the_player_put_other _ _ _ _ hne.symm]
    exact the_player_put_same _ p1 _ _ hy1
  · apply the_player_put_same _ p2 { x2 with rating := R + -16 }
    rw [the_player_put_other _ _ _ _ hne]
    exact hy2
  · show |R + 16 + -16 - R| ≤ 1
    have : R + 16 + -16 - R = 0 := by ring
    rw [this]; decide
  · show |R + -16 + 16 - R| ≤ 1
    have : R + -16 + 16 - R = 0 := by ring
    rw [this]; decide
  · show R + 16 + -16 = R
    ring
  · show R + -16 + 16 = R
    ring

/-- Witness of C27: alice and bob, both at 1500, after a win of alice and then a win
of bob are both at 1500 again. -/
theorem post_result_round_trip_witness :
    ∃ (w1 w2 : WORLD) (y1 y2 z1 z2 : PLAYER),
      player_post_result two_clients (some 0) (some 1) 1 = Except.ok w1 ∧
      the_player w1 0 = Except.ok y1 ∧ the_player w1 1 = Except.ok y2 ∧
      y1.rating = 1500 + 16 ∧ y2.rating = 1500 - 16 ∧
      player_post_result w1 (some 0) (some 1) 2 = Except.ok w2 ∧
      the_player w2 0 = Except.ok z1 ∧ the_player w2 1 = Except.ok z2 ∧
      |z1.rating - 1500| ≤ 1 ∧ |z2.rating - 1500| ≤ 1 ∧ z1.rating = 1500 ∧ z2.rating = 1500 :=
  post_result_round_trip two_clients 0 1
    { username := ['a', 'l', 'i', 'c', 'e'], rating := 1500, reference := 3, seph := 1 }
    { username := ['b', 'o', 'b'], rating := 1500, reference := 3, seph := 1 } 1500
    (by decide) rfl rfl rfl rfl (by decide) (by decide) (by decide) (by decide)

theorem sqrt_ten_bounds : (3.16 : ℝ) < Real.sqrt 10 ∧ Real.sqrt 10 < 3.17 := by
  constructor
  · rw [Real.lt_sqrt (by norm_num)]
    norm_num
  · rw [Real.sqrt_lt' (by norm_num)]
    norm_num

theorem round_of_bounds (x : ℝ) (z : Int) (h1 : (z : ℝ) - 1 / 2 ≤ x) (h2 : x < (z : ℝ) + 1 / 2) :
    round x = z := by
  rw [round_eq, Int.floor_eq_iff]
  constructor <;> linarith

theorem spec_rating_half_up : spec_rating 1500 1700 1 1524 := by
  unfold spec_rating
  have hexp : (((1700 - 1500 : Int) : ℝ) / 400) = 1 / 2 := by norm_num
  rw [hexp, ← Real.sqrt_eq_rpow]
  obtain ⟨hlo, hhi⟩ := sqrt_ten_bounds
  have hpos : (0 : ℝ) < 1 + Real.sqrt 10 := by linarith
  have hr : round (32 * (1 - 1 / (1 + Real.sqrt 10))) = 24 := by
    apply round_of_bounds
    · have : 1 / (1 + Real.sqrt 10) ≤ 1 / 4 := by
        rw [div_le_iff₀ hpos]
        linarith
      push_cast
      linarith
    · have : 15 / 64 < 1 / (1 + Real.sqrt 10) := by
        rw [lt_div_iff₀ hpos]
        linarith
      push_cast
      linarith
  rw [hr]
  norm_num


theorem spec_rating_half_down : spec_rating 1700 1500 0 1676 := by
  unfold spec_rating
  have hexp : (((1500 - 1700 : Int) : ℝ) / 400) = -(1 / 2) := by norm_num
  rw [hexp, Real.rpow_neg (by norm_num), ← Real.sqrt_eq_rpow]
  obtain ⟨hlo, hhi⟩ := sqrt_ten_bounds
  have hspos : (0 : ℝ) < Real.sqrt 10 := by linarith
  have hinv1 : (Real.sqrt 10)⁻¹ < 1 / 3 := by
    rw [inv_eq_one_div, div_lt_iff₀ hspos]
    linarith
  have hinv2 : 31 / 100 < (Real.sqrt 10)⁻¹ := by
    rw [inv_eq_one_div, lt_div_iff₀ hspos]
    linarith
  have hpos : (0 : ℝ) < 1 + (Real.sqrt 10)⁻¹ := by linarith
  have hr : round (32 * (0 - 1 / (1 + (Real.sqrt 10)⁻¹))) = -24 := by
    apply round_of_bounds
    · have : 1 / (1 + (Real.sqrt 10)⁻¹) ≤ 49 / 64 := by
        rw [div_le_iff₀ hpos]
        linarith
      push_cast
      linarith
    · have : 47 / 64 < 1 / (1 + (Real.sqrt 10)⁻¹) := by
        rw [lt_div_iff₀ hpos]
        linarith
      push_cast
      linarith
  rw [hr]
  norm_num

theorem spec_rating_whole : spec_rating 1500 1900 0 1497 ∧ spec_rating 1900 1500 1 1903 := by
  constructor
  · unfold spec_rating
    have hexp : (((1900 - 1500 : Int) : ℝ) / 400) = 1 := by norm_num
    rw [hexp, Real.rpow_one]
    have hr : round (32 * ((0 : ℝ) - 1 / (1 + 10))) = -3 := by
      apply round_of_bounds <;> norm_num
    rw [hr]
    norm_num
  · unfold spec_rating
    have hexp : (((1500 - 1900 : Int) : ℝ) / 400) = -1 := by norm_num
    rw [hexp, Real.rpow_neg (by norm_num), Real.rpow_one]
    have hr : round (32 * ((1 : ℝ) - 1 / (1 + 10⁻¹))) = 3 := by
      apply round_of_bounds <;> norm_num
    rw [hr]
    norm_num

/-- Claim C26, the code against the formula of the spec.  With alice at 1500 and bob
at 1700, a win of alice: the code leaves 1516 and 1684, the quotient 200/400 of ints
being 0 and E therefore 1/2; the formula of the spec gives 1524 and 1676.  With alice
at 1500 and bob at 1900, a win of bob, where the exponent is the same in both: the
code leaves 1498 and 1902, the conversion to int dropping the fraction of 2.909; the
formula of the spec, which rounds to the nearest integer, gives 1497 and 1903. -/
theorem post_result_not_nearest :
    (seen (player_post_result (rated 1500 1700) (some 0) (some 1) 1)).map
      (fun v => v.ratings) = some [1516, 1684] ∧
    spec_rating 1500 1700 1 1524 ∧ spec_rating 1700 1500 0 1676 ∧
    (seen (player_post_result (rated 1500 1900) (some 0) (some 1) 2)).map
      (fun v => v.ratings) = some [1498, 1902] ∧
    spec_rating 1500 1900 0 1497 ∧ spec_rating 1900 1500 1 1903 :=
  ⟨by decide!, spec_rating_half_up, spec_rating_half_down, by decide!, spec_rating_whole.1,
    spec_rating_whole.2⟩

/-! ## The player registry (player_registry.c) -/

theorem the_player_of_get (w : WORLD) (p : PLAYER_PTR) (x : PLAYER)
    (h : w.players[p]? = some x) : the_player w p = Except.ok x := by
  simp only [the_player, h]

/-- The effect of player_ref on a player whose semaphore is free. -/
theorem player_ref_free (w : WORLD) (p : PLAYER_PTR) (x : PLAYER)
    (h : the_player w p = Except.ok x) (hsem : 0 < x.seph) :
    player_ref w (some p) =
      Except.ok (put_player w p { x with reference := x.reference + 1 }) := by
  simp only [player_ref, h, bind, Except.bind, wait_free x.seph hsem, sem_post_wait x.seph hsem,
    pure, Except.pure]

/-- The loop of preg_register at an entry that is NULL: a player is created, its
count raised to 2, and stored in the entry. -/
theorem preg_register_loop_empty (w : WORLD) (name : List Char)
    (rest : List (Option PLAYER_PTR)) :
    preg_register_loop w name (none :: rest) = Except.ok
      (some w.players.length, some w.players.length :: rest,
        { w with
          players := w.players ++
            [{ username := c_string name, rating := PLAYER_INITIAL_RATING, reference := 2,
               seph := 1 }] }) := by
  have hnew : the_player (player_create w name).2 w.players.length = Except.ok
      { username := c_string name, rating := PLAYER_INITIAL_RATING, reference := 1,
        seph := 1 } := by
    simp [the_player, player_create]
  have href := player_ref_free (player_create w name).2 w.players.length _ hnew Nat.zero_lt_one
  have hptr : (player_create w name).1 = w.players.length := rfl
  simp only [preg_register_loop, bind, Except.bind, pure, Except.pure, hptr, href]
  simp only [put_player, player_create, set_last]
  rfl

/-- The loop of preg_register over stored players followed by further entries: it
stops at the first stored player that has the name, or goes on with the further
entries when none has it. -/
theorem preg_register_loop_stored (w : WORLD) (name : List Char) (ps : List PLAYER_PTR)
    (rest : List (Option PLAYER_PTR))
    (hvalid : ∀ p, p ∈ ps → ∃ x, the_player w p = Except.ok x ∧ 0 < x.seph) :
    (∃ (p : PLAYER_PTR) (x : PLAYER), p ∈ ps ∧ the_player w p = Except.ok x ∧
        c_string x.username = c_string name ∧
        preg_register_loop w name (ps.map some ++ rest) = Except.ok
          (some p, ps.map some ++ rest,
            put_player w p { x with reference := x.reference + 1 })) ∨
    ((∀ (p : PLAYER_PTR) (x : PLAYER), p ∈ ps → the_player w p = Except.ok x →
        c_string x.username ≠ c_string name) ∧
      preg_register_loop w name (ps.map some ++ rest) =
        match preg_register_loop w name rest with
        | Except.error e => Except.error e
        | Except.ok r => Except.ok (r.1, ps.map some ++ r.2.1, r.2.2)) := by
  induction ps with
  | nil =>
    right
    refine ⟨fun p x hp => by simp at hp, ?_⟩
    simp only [List.map_nil, List.nil_append]
    cases preg_register_loop w name rest <;> rfl
  | cons q ps ih =>
    obtain ⟨x, hx, hsem⟩ := hvalid q (List.mem_cons_self q ps)
    by_cases hname : c_string x.username = c_string name
    · left
      refine ⟨q, x, List.mem_cons_self q ps, hx, hname, ?_⟩
      simp only [List.map_cons, List.cons_append, preg_register_loop, player_get_name, hx, bind,
        Except.bind, pure, Except.pure, if_pos hname, player_ref_free w q x hx hsem]
      rfl
    · have hstep : preg_register_loop w name ((q :: ps).map some ++ rest) =
          match preg_register_loop w name (ps.map some ++ rest) with
          | Except.error e => Except.error e
          | Except.ok r => Except.ok (r.1, some q :: r.2.1, r.2.2) := by
        simp only [List.map_cons, List.cons_append, preg_register_loop, player_get_name, hx,
          bind, Except.bind, pure, Except.pure, if_neg hname]
        cases preg_register_loop w name (ps.map some ++ rest) <;> rfl
      rcases ih (fun p hp => hvalid p (List.mem_cons_of_mem q hp)) with
        ⟨p, y, hp, hy, hyname, hloop⟩ | ⟨hnone, hloop⟩
      · left
        refine ⟨p, y, List.mem_cons_of_mem q hp, hy, hyname, ?_⟩
        rw [hstep, hloop]
        rfl
      · right
        constructor
        · intro p y hp hy
          rcases List.mem_cons.mp hp with e | hp'
          · subst e
            rw [hx] at hy
            cases hy
            exact hname
          · exact hnone p y hp' hy
        · rw [hstep, hloop]
          cases preg_register_loop w name rest <;> rfl

theorem c_string_c_string (str : List Char) : c_string (c_string str) = c_string str := by
  unfold c_string
  induction str with
  | nil => rfl
  | cons c rest ih =>
    by_cases h : (c != NUL) = true
    · simp [List.takeWhile_cons, h, ih]
    · simp [List.takeWhile_cons, h]

theorem stored_entries (ps : List PLAYER_PTR) (k : Nat) :
    (ps.map some ++ List.replicate k none).filterMap id = ps := by
  induction ps with
  | nil =>
    induction k with
    | zero => rfl
    | succ n ih =>
      simp only [List.map_nil, List.nil_append] at ih ⊢
      rw [List.replicate_succ, List.filterMap_cons]
      exact ih
  | cons p ps ih =>
    simp only [List.map_cons, List.cons_append, List.filterMap_cons, id_eq]
    rw [ih]

theorem the_player_lt (w : WORLD) (p : PLAYER_PTR) (x : PLAYER)
    (h : the_player w p = Except.ok x) : p < w.players.length := by
  have hg := the_player_get w p x h
  rcases Nat.lt_or_ge p w.players.length with hl | hl
  · exact hl
  · rw [List.getElem?_eq_none hl] at hg
    simp at hg

theorem name_at_player (w : WORLD) (p : PLAYER_PTR) (x : PLAYER)
    (h : the_player w p = Except.ok x) : name_at w p = some (c_string x.username) := by
  simp only [name_at, the_player_get w p x h, Option.map_some']

/-- A store that changes the count of a player changes no name. -/
theorem name_at_put_player (w : WORLD) (p q : PLAYER_PTR) (x : PLAYER) (r : Int)
    (h : the_player w p = Except.ok x) :
    name_at (put_player w p { x with reference := r }) q = name_at w q := by
  by_cases hpq : p = q
  · subst hpq
    rw [name_at_player _ p _ (the_player_put_same w p x _ h), name_at_player w p x h]
  · have := the_player_put_other w p q { x with reference := r } hpq
    simp only [the_player] at this
    simp only [name_at]
    cases h1 : (put_player w p { x with reference := r }).players[q]? <;>
      cases h2 : w.players[q]? <;> simp_all

/-- An allocation changes no object that the heap already has. -/
theorem the_player_append (w : WORLD) (p : PLAYER_PTR) (x y : PLAYER)
    (h : the_player w p = Except.ok x) :
    the_player { w with players := w.players ++ [y] } p = Except.ok x := by
  have hlt := the_player_lt w p x h
  have hg := the_player_get w p x h
  simp only [the_player, List.getElem?_append_left hlt, hg]

theorem the_player_new (w : WORLD) (y : PLAYER) :
    the_player { w with players := w.players ++ [y] } w.players.length = Except.ok y := by
  simp [the_player]

/-- One call of preg_register on a registry of which preg_ok holds: the call returns
and preg_ok holds again; the cases are those of the claim C30 as amended. -/
theorem preg_register_step (preg : PLAYER_REGISTRY) (w : WORLD) (hok : preg_ok preg w)
    (name : List Char) :
    ∃ (r : Option PLAYER_PTR) (preg' : PLAYER_REGISTRY) (w' : WORLD),
      preg_register w preg name = Except.ok (r, preg', w') ∧ preg_ok preg' w' ∧
      (∀ p, p ∈ stored preg → name_at w p = some (c_string name) →
        r = some p ∧ preg' = preg ∧
        ∃ x, w.players[p]? = some x ∧
          w'.players = w.players.set p { x with reference := x.reference + 1 }) ∧
      ((∀ p, p ∈ stored preg → name_at w p ≠ some (c_string name)) →
        (stored preg).length < 1000 →
        r = some w.players.length ∧ stored preg' = stored preg ++ [w.players.length] ∧
        w'.players = w.players ++
          [{ username := c_string name, rating := PLAYER_INITIAL_RATING, reference := 2,
             seph := 1 }]) ∧
      ((∀ p, p ∈ stored preg → name_at w p ≠ some (c_string name)) →
        (stored preg).length = 1000 → r = none ∧ preg' = preg ∧ w' = w) ∧
      stored preg <+: stored preg' ∧
      (∀ p, p ∈ stored preg → name_at w' p = name_at w p) := by
  obtain ⟨ps, hplayers, hlen, hsem, hvalid, hnodup⟩ := hok
  have hstored : stored preg = ps := by
    unfold stored
    rw [hplayers, stored_entries]
  rcases preg_register_loop_stored w name ps (List.replicate (1000 - ps.length) none) hvalid with
    ⟨p, x, hp, hx, hname, hloop⟩ | ⟨hnone, hloop⟩
  · -- a stored player has the name
    have hpname : name_at w p = some (c_string name) := by
      rw [name_at_player w p x hx, hname]
    have hnames : ∀ q, name_at (put_player w p { x with reference := x.reference + 1 }) q =
        name_at w q := fun q => name_at_put_player w p q x _ hx
    refine ⟨some p, preg, put_player w p { x with reference := x.reference + 1 }, ?_, ?_, ?_, ?_,
      ?_, ?_, ?_⟩
    · rw [← hplayers] at hloop
      simp only [preg_register, bind, Except.bind, wait_free preg.seph hsem, hloop,
        sem_post_wait preg.seph hsem, pure, Except.pure]
    · refine ⟨ps, hplayers, hlen, hsem, ?_, ?_⟩
      · intro q hq
        by_cases hpq : p = q
        · subst hpq
          exact ⟨_, the_player_put_same w p x _ hx, (hvalid p hp).elim (fun y hy => by
            rw [hx] at hy
            cases hy.1
            exact hy.2)⟩
        · obtain ⟨y, hy, hysem⟩ := hvalid q hq
          exact ⟨y, by rw [the_player_put_other _ _ _ _ hpq]; exact hy, hysem⟩
      · have : ps.map (name_at (put_player w p { x with reference := x.reference + 1 })) =
            ps.map (name_at w) := List.map_congr_left (fun q _ => hnames q)
        rw [this]
        exact hnodup
    · intro q hq hqname
      rw [hstored] at hq
      have hqp : q = p := List.inj_on_of_nodup_map hnodup hq hp (by rw [hqname, hpname])
      subst hqp
      exact ⟨rfl, rfl, x, the_player_get w q x hx, rfl⟩
    · intro hno
      exact absurd hpname (hno p (by rw [hstored]; exact hp))
    · intro hno
      exact absurd hpname (hno p (by rw [hstored]; exact hp))
    · exact List.prefix_refl _
    · intro q _
      exact hnames q
  · -- no stored player has the name
    have hnoname : ∀ q, q ∈ ps → name_at w q ≠ some (c_string name) := by
      intro q hq
      obtain ⟨y, hy, _⟩ := hvalid q hq
      rw [name_at_player w q y hy]
      intro h
      exact hnone q y hq hy (Option.some.inj h)
    rcases Nat.lt_or_ge ps.length 1000 with hlt | hge
    · -- an entry is free
      obtain ⟨k, hk⟩ : ∃ k, 1000 - ps.length = k + 1 := ⟨1000 - ps.length - 1, by omega⟩
      rw [hk, List.replicate_succ, preg_register_loop_empty] at hloop
      have hplayers' : ps.map some ++ some w.players.length :: List.replicate k none =
          (ps ++ [w.players.length]).map some ++
            List.replicate (1000 - (ps ++ [w.players.length]).length) none := by
        have : 1000 - (ps ++ [w.players.length]).length = k := by
          rw [List.length_append, List.length_singleton]
          omega
        rw [this]
        simp
      refine ⟨some w.players.length,
        { players := ps.map some ++ some w.players.length :: List.replicate k none,
          seph := preg.seph },
        { w with
          players := w.players ++
            [{ username := c_string name, rating := PLAYER_INITIAL_RATING, reference := 2,
               seph := 1 }] }, ?_, ?_, ?_, ?_, ?_, ?_, ?_⟩
      · simp only [preg_register, bind, Except.bind, wait_free preg.seph hsem, hplayers, hk,
          List.replicate_succ, hloop, sem_post_wait preg.seph hsem, pure, Except.pure]
      · refine ⟨ps ++ [w.players.length], hplayers', ?_, hsem, ?_, ?_⟩
        · rw [List.length_append, List.length_singleton]
          omega
        · intro q hq
          rcases List.mem_append.mp hq with hq' | hq'
          · obtain ⟨y, hy, hysem⟩ := hvalid q hq'
            exact ⟨y, the_player_append w q y _ hy, hysem⟩
          · rw [List.mem_singleton.mp hq']
            exact ⟨_, the_player_new w _, Nat.zero_lt_one⟩
        · have hold : ps.map (name_at { w with
              players := w.players ++
                [{ username := c_string name, rating := PLAYER_INITIAL_RATING, reference := 2,
                   seph := 1 }] }) = ps.map (name_at w) := by
            apply List.map_congr_left
            intro q hq
            obtain ⟨y, hy, _⟩ := hvalid q hq
            rw [name_at_player _ q y (the_player_append w q y _ hy), name_at_player w q y hy]
          rw [List.map_append, hold, List.map_singleton,
            name_at_player _ _ _ (the_player_new w _), List.nodup_append]
          refine ⟨hnodup, List.nodup_singleton _, ?_⟩
          intro a ha hb
          rw [List.mem_singleton] at hb
          obtain ⟨q, hq, hqa⟩ := List.mem_map.mp ha
          have : name_at w q = some (c_string name) := by
            rw [hqa, hb]
            show some (c_string (c_string name)) = _
            rw [c_string_c_string]
          exact hnoname q hq this
      · intro q hq hqname
        rw [hstored] at hq
        exact absurd hqname (hnoname q hq)
      · intro _ _
        refine ⟨rfl, ?_, rfl⟩
        rw [hstored]
        unfold stored
        show (ps.map some ++ some w.players.length :: List.replicate k none).filterMap id = _
        rw [hplayers', stored_entries]
      · intro _ hfull
        rw [hstored] at hfull
        omega
      · rw [hstored]
        unfold stored
        show ps <+: (ps.map some ++ some w.players.length :: List.replicate k none).filterMap id
        rw [hplayers', stored_entries]
        exact List.prefix_append ps _
      · intro q hq
        rw [hstored] at hq
        obtain ⟨y, hy, _⟩ := hvalid q hq
        rw [name_at_player _ q y (the_player_append w q y _ hy), name_at_player w q y hy]
    · -- the registry is full
      have hzero : 1000 - ps.length = 0 := by omega
      rw [hzero] at hloop hplayers
      simp only [List.replicate_zero, preg_register_loop, pure, Except.pure,
        List.append_nil] at hloop hplayers
      refine ⟨none, preg, w, ?_, ⟨ps, ?_, hlen, hsem, hvalid, hnodup⟩, ?_, ?_, ?_, ?_, ?_⟩
      · simp only [preg_register, bind, Except.bind, wait_free preg.seph hsem, hplayers, hloop,
          sem_post_wait preg.seph hsem, pure, Except.pure]
        rw [← hplayers]
      · rw [hzero]
        simpa using hplayers
      · intro q hq hqname
        rw [hstored] at hq
        exact absurd hqname (hnoname q hq)
      · intro _ hfree
        rw [hstored] at hfree
        omega
      · intro _ _
        exact ⟨rfl, rfl, rfl⟩
      · exact List.prefix_refl _
      · intro q _
        rfl

theorem preg_init_ok (w : WORLD) : preg_ok preg_init w :=
  ⟨[], rfl, Nat.zero_le _, Nat.zero_lt_one, fun p hp => by simp at hp, List.nodup_nil⟩

theorem preg_reachable_ok (preg : PLAYER_REGISTRY) (w : WORLD) (h : preg_reachable preg w) :
    preg_ok preg w := by
  induction h with
  | init w => exact preg_init_ok w
  | register preg preg' w w' name p _ hcall ih =>
    obtain ⟨r, preg2, w2, hcall2, hok2, _⟩ := preg_register_step preg w ih name
    rw [hcall] at hcall2
    cases hcall2
    exact hok2

/-- Claim C30 as amended: in a registry reached from preg_init by calls of
preg_register the stored players have names that differ, each stored pointer points
to a player, and there are at most 1000 of them.  A further preg_register(name)
returns.  If a stored player has the name, it returns that player, the registry is
as before and the count of that player is one more.  If none has the name and fewer
than 1000 players are stored, it returns a new player, the last of the heap, with
the name, the initial rating and the count 2, and stores it after the others.  If
none has the name and 1000 players are stored, it returns NULL and changes nothing.
In every case the players stored before are still stored, in the same order and
under the same names. -/
theorem preg_register_names_differ (preg : PLAYER_REGISTRY) (w : WORLD)
    (h : preg_reachable preg w) (name : List Char) :
    ((stored preg).map (name_at w)).Nodup ∧
    (∀ p, p ∈ stored preg → name_at w p ≠ none) ∧
    (stored preg).length ≤ 1000 ∧
    ∃ (r : Option PLAYER_PTR) (preg' : PLAYER_REGISTRY) (w' : WORLD),
      preg_register w preg name = Except.ok (r, preg', w') ∧
      (∀ p, p ∈ stored preg → name_at w p = some (c_string name) →
        r = some p ∧ preg' = preg ∧
        ∃ x, w.players[p]? = some x ∧
          w'.players = w.players.set p { x with reference := x.reference + 1 }) ∧
      ((∀ p, p ∈ stored preg → name_at w p ≠ some (c_string name)) →
        (stored preg).length < 1000 →
        r = some w.players.length ∧ stored preg' = stored preg ++ [w.players.length] ∧
        w'.players = w.players ++
          [{ username := c_string name, rating := PLAYER_INITIAL_RATING, reference := 2,
             seph := 1 }]) ∧
      ((∀ p, p ∈ stored preg → name_at w p ≠ some (c_string name)) →
        (stored preg).length = 1000 → r = none ∧ preg' = preg ∧ w' = w) ∧
      stored preg <+: stored preg' ∧
      (∀ p, p ∈ stored preg → name_at w' p = name_at w p) := by
  have hok := preg_reachable_ok preg w h
  obtain ⟨r, preg', w', hcall, _, hcases⟩ := preg_register_step preg w hok name
  obtain ⟨ps, hplayers, hlen, _, hvalid, hnodup⟩ := hok
  have hstored : stored preg = ps := by
    unfold stored
    rw [hplayers, stored_entries]
  refine ⟨by rw [hstored]; exact hnodup, ?_, by rw [hstored]; exact hlen, r, preg', w', hcall,
    hcases⟩
  intro p hp
  rw [hstored] at hp
  obtain ⟨x, hx, _⟩ := hvalid p hp
  rw [name_at_player w p x hx]
  exact Option.some_ne_none _

theorem stored_preg_init : stored preg_init = [] := by
  have h := stored_entries [] 1000
  exact h

/-- Witness of C30 as amended: on a server without players the registry that
preg_init makes registers bob as the player 0, with the rating 1500 and the
count 2. -/
theorem preg_register_names_differ_witness :
    ∃ (preg' : PLAYER_REGISTRY) (w' : WORLD),
      preg_register empty_server preg_init ['b', 'o', 'b'] = Except.ok (some 0, preg', w') ∧
      stored preg' = [0] ∧
      w'.players = [{ username := ['b', 'o', 'b'], rating := 1500, reference := 2, seph := 1 }] := by
  obtain ⟨_, _, _, r, preg', w', hcall, _, hnew, _, _, _⟩ :=
    preg_register_names_differ preg_init empty_server (preg_reachable.init empty_server)
      ['b', 'o', 'b']
  obtain ⟨hr, hstored, hplayers⟩ := hnew
    (by rw [stored_preg_init]; intro p hp; simp at hp)
    (by rw [stored_preg_init]; decide)
  rw [hr] at hcall
  rw [stored_preg_init] at hstored
  exact ⟨preg', w', hcall, hstored, hplayers⟩

theorem c_string_replicate (k : Nat) :
    c_string (List.replicate k 'a') = List.replicate k 'a' := by
  unfold c_string
  induction k with
  | zero => rfl
  | succ n ih =>
    have ha : ('a' != NUL) = true := by decide
    rw [List.replicate_succ, List.takeWhile_cons, ha]
    simp only [if_true]
    rw [ih]

theorem c_string_name_of (n : Nat) : c_string (name_of n) = name_of n :=
  c_string_replicate (n + 1)

theorem the_player_named (n p : Nat) (h : p < n) :
    the_player (players_named n) p = Except.ok
      { username := name_of p, rating := PLAYER_INITIAL_RATING, reference := 2, seph := 1 } := by
  simp [the_player, players_named, List.getElem?_range, h]

/-- No player of players_named has a name that is not a run of the letter a of its
own length. -/
theorem players_named_skip (n : Nat) (name : List Char)
    (hname : ∀ p, p < n → name_of p ≠ c_string name) (rest : List (Option PLAYER_PTR)) :
    preg_register_loop (players_named n) name ((List.range n).map some ++ rest) =
      match preg_register_loop (players_named n) name rest with
      | Except.error e => Except.error e
      | Except.ok r => Except.ok (r.1, (List.range n).map some ++ r.2.1, r.2.2) := by
  have hvalid : ∀ p, p ∈ List.range n →
      ∃ x, the_player (players_named n) p = Except.ok x ∧ 0 < x.seph := by
    intro p hp
    exact ⟨_, the_player_named n p (List.mem_range.mp hp), Nat.zero_lt_one⟩
  rcases preg_register_loop_stored (players_named n) name (List.range n) rest hvalid with
    ⟨p, x, hp, hx, hxname, _⟩ | ⟨_, hloop⟩
  · exfalso
    have hlt := List.mem_range.mp hp
    rw [the_player_named n p hlt] at hx
    cases hx
    rw [c_string_name_of] at hxname
    exact hname p hlt hxname
  · exact hloop

theorem register_next (n : Nat) (hn : n < 1000) :
    preg_register (players_named n) (registry_of n) (name_of n) =
      Except.ok (some n, registry_of (n + 1), players_named (n + 1)) := by
  obtain ⟨k, hk⟩ : ∃ k, 1000 - n = k + 1 := ⟨1000 - n - 1, by omega⟩
  have hk' : 1000 - (n + 1) = k := by omega
  have hname : ∀ p, p < n → name_of p ≠ c_string (name_of n) := by
    intro p hp h
    rw [c_string_name_of] at h
    have := congrArg List.length h
    simp [name_of] at this
    omega
  have hlen : (players_named n).players.length = n := by simp [players_named]
  have hloop := players_named_skip n (name_of n) hname (none :: List.replicate k none)
  rw [preg_register_loop_empty, hlen, c_string_name_of] at hloop
  have hseph : sem_post (1 - 1) = 1 := rfl
  simp only [preg_register, registry_of, hk, List.replicate_succ, bind, Except.bind,
    wait_free 1 Nat.zero_lt_one, hloop, pure, Except.pure, hk', hseph]
  simp only [players_named, List.range_succ, List.map_append, List.map_singleton,
    List.append_assoc, List.singleton_append]

/-- The call of preg_register on the registry whose n entries are all taken, for a
name that no stored player has: the loop runs out. -/
theorem register_absent (n : Nat) (name : List Char)
    (hname : ∀ p, p < n → name_of p ≠ c_string name) :
    preg_register (players_named n) { players := (List.range n).map some, seph := 1 } name =
      Except.ok (none, { players := (List.range n).map some, seph := 1 }, players_named n) := by
  have hloop := players_named_skip n name hname []
  rw [List.append_nil] at hloop
  have hseph : sem_post (1 - 1) = 1 := rfl
  simp only [preg_register, bind, Except.bind, wait_free 1 Nat.zero_lt_one, hloop,
    preg_register_loop, pure, Except.pure, hseph, List.append_nil]

theorem registry_of_reachable (n : Nat) (hn : n ≤ 1000) :
    preg_reachable (registry_of n) (players_named n) := by
  induction n with
  | zero => exact preg_reachable.init empty_server
  | succ m ih =>
    exact preg_reachable.register _ _ _ _ _ _ (ih (by omega)) (register_next m (by omega))

/-- Counterexample to C30: the registry that stores the 1000 players a, aa, ... is
reached from preg_init by calls of preg_register; no stored player has the name b,
yet preg_register with the name b returns NULL and leaves the registry and the heap
as they were: no player is appended. -/
theorem preg_register_full :
    preg_reachable (registry_of 1000) (players_named 1000) ∧
    (stored (registry_of 1000)).length = 1000 ∧
    (∀ p, p ∈ stored (registry_of 1000) →
      name_at (players_named 1000) p ≠ some (c_string ['b'])) ∧
    preg_register (players_named 1000) (registry_of 1000) ['b'] =
      Except.ok (none, registry_of 1000, players_named 1000) := by
  have hstored : stored (registry_of 1000) = List.range 1000 := stored_entries _ _
  have hname : ∀ p, p < 1000 → name_of p ≠ c_string ['b'] := by
    intro p _ h
    have h0 := congrArg List.head? h
    simp [name_of, List.replicate_succ] at h0
    revert h0
    decide
  refine ⟨registry_of_reachable 1000 (Nat.le_refl _), ?_, ?_, ?_⟩
  · rw [hstored, List.length_range]
  · intro p hp
    rw [hstored] at hp
    have hlt := List.mem_range.mp hp
    rw [name_at_player _ p _ (the_player_named 1000 p hlt), c_string_name_of]
    intro h
    exact hname p hlt (Option.some.inj h)
  · have hentries : registry_of 1000 = { players := (List.range 1000).map some, seph := 1 } := by
      unfold registry_of
      rw [Nat.sub_self, List.replicate_zero, List.append_nil]
    rw [hentries]
    exact register_absent 1000 ['b'] hname

/-! ## The client registry and client_login, from creg_init on -/

/-- Claim C40, the code at a registration beyond MAX_CLIENTS: on the registry that
creg_init makes, with four entries, five calls of creg_register return the clients 0
to 4; the four entries hold the clients 0 to 3 and the count is 5, so the client 4,
which creg_register returned, is in no entry, and the count is not the number of
entries taken.  creg_unregister of the client 4 then returns -1. -/
theorem register_beyond_capacity :
    (returned (registrations started [10, 11, 12, 13, 14])).map (fun r => r.1) =
      some [some 0, some 1, some 2, some 3, some 4] ∧
    (returned (registrations started [10, 11, 12, 13, 14])).map (fun r => registered r.2) =
      some { clients := [some 0, some 1, some 2, some 3], clientsAmount := 5
             refs := [1, 1, 1, 1, 1], logins := [none, none, none, none, none] } ∧
    (returned ((registrations started [10, 11, 12, 13, 14]).bind
        (fun r => creg_unregister r.2 (some 4)))).map (fun r => (r.1, registered r.2)) =
      some (-1,
        { clients := [some 0, some 1, some 2, some 3], clientsAmount := 5
          refs := [1, 1, 1, 1, 1], logins := [none, none, none, none, none] }) := by
  refine ⟨by decide, by decide, by decide⟩

/-- Claim C31, the code at two logins under one name.  Six connections are
registered with a registry of four entries, so the clients 4 and 5 are in no entry.
client_login of the client 4 and then of the client 5, both for the player x, return
0 and 0: both are logged in as x, and creg_lookup of x finds no client.  When the
clients 0 and 1, which the registry holds, do the same, the second call returns -1,
but the reference count of the client 0, which creg_lookup found, has gone from 1
to 2: client_login returns without client_unref. -/
theorem two_logins_one_name :
    (returned (two_logins six_connections 4 5)).map (fun r => (r.1, registered r.2)) =
      some ((0, 0),
        { clients := [some 0, some 1, some 2, some 3], clientsAmount := 6
          refs := [1, 1, 1, 1, 1, 1]
          logins := [none, none, none, none, some 0, some 0] }) ∧
    (returned ((two_logins six_connections 4 5).bind
        (fun r => creg_lookup r.2 ['x']))).map (fun r => r.1) = some none ∧
    (returned (two_logins six_connections 0 1)).map (fun r => (r.1, registered r.2)) =
      some ((0, -1),
        { clients := [some 0, some 1, some 2, some 3], clientsAmount := 6
          refs := [2, 1, 1, 1, 1, 1]
          logins := [some 0, none, none, none, none, none] }) := by
  refine ⟨by decide, by decide, by decide⟩

/-! ## The session loop and the slot table, on a server with two clients -/

/-- Claim C32, the code at a MOVE that ends the game: alice is one move from the top
row; the MOVE branch of jeux_client_service handles her packet with the payload 3.
Two ENDED packets go out, to alice (file descriptor 10) and to bob (11), and no ACK
and no NACK: client_make_move returns 0 without client_send_ack and the branch sends
nothing on success.  A MOVE that does not end the game, her first move to the cell
1, is answered: a MOVED packet to bob and an ACK to alice. -/
theorem move_end_unanswered :
    (seen (before_win.bind
        (fun w => jeux_client_service_move w 0 move_packet (some ['3'])))).map
        (fun v => v.wire.drop 11) =
      some [bare 10 JEUX_ENDED_PKT 0 0, bare 11 JEUX_ENDED_PKT 1 0] ∧
    (seen (accepted.bind
        (fun w => jeux_client_service_move w 0 move_packet (some ['1'])))).map
        (fun v => sent_to 10 (v.wire.drop 3)) =
      some [bare 10 JEUX_ACK_PKT 0 0] := by
  refine ⟨by decide!, by decide⟩

/-- Claim C33, the code at a logout with an occupied slot: alice has invited bob.
client_logout by alice has no result, it blocks.  In the world in which alice holds
her semaphore, as she does inside client_logout, client_revoke_invitation for her
slot 0 blocks and so does client_remove_invitation, whose sem_wait is on that same
semaphore; in the world in which it is free, client_revoke_invitation returns 0.
Once bob has accepted, client_logout by bob blocks in the same way and
client_resign_game blocks when he holds his semaphore. -/
theorem logout_waits_for_itself :
    fault (invited.bind (fun w => client_logout w 0)) = some FAULT.blocked ∧
    fault ((invited.bind (fun w => holding w 0)).bind
      (fun w => client_revoke_invitation w 0 0)) = some FAULT.blocked ∧
    fault ((invited.bind (fun w => holding w 0)).bind
      (fun w => client_remove_invitation w 0 (some 0))) = some FAULT.blocked ∧
    (returned (invited.bind (fun w => client_revoke_invitation w 0 0))).map
      (fun r => r.1) = some 0 ∧
    fault (accepted.bind (fun w => client_logout w 1)) = some FAULT.blocked ∧
    fault ((accepted.bind (fun w => holding w 1)).bind
      (fun w => client_resign_game w 1 0)) = some FAULT.blocked := by
  refine ⟨by decide, by decide, by decide, by decide, by decide!, by decide!⟩

/-- Claim C35, the code at an id that is no slot index: the slot tables have four
entries and alice has invited bob.  With the id 4, and with the id 255, each of
client_revoke_invitation, client_decline_invitation, client_accept_invitation,
client_resign_game and client_make_move has no result: its first read,
client->listOfInv[id], is outside the table. -/
theorem slot_id_outside :
    fault (invited.bind (fun w => client_revoke_invitation w 0 4)) = some FAULT.outside ∧
    fault (invited.bind (fun w => client_decline_invitation w 1 4)) = some FAULT.outside ∧
    fault (invited.bind (fun w => client_accept_invitation w 1 4)) = some FAULT.outside ∧
    fault (invited.bind (fun w => client_resign_game w 0 4)) = some FAULT.outside ∧
    fault (invited.bind (fun w => client_make_move w 0 4 ['1'])) = some FAULT.outside ∧
    fault (invited.bind (fun w => client_revoke_invitation w 0 255)) = some FAULT.outside ∧
    fault (invited.bind (fun w => client_decline_invitation w 1 255)) = some FAULT.outside ∧
    fault (invited.bind (fun w => client_accept_invitation w 1 255)) = some FAULT.outside ∧
    fault (invited.bind (fun w => client_resign_game w 0 255)) = some FAULT.outside ∧
    fault (invited.bind (fun w => client_make_move w 0 255 ['1'])) = some FAULT.outside := by
  refine ⟨by decide, by decide, by decide, by decide, by decide, by decide, by decide,
    by decide, by decide, by decide⟩

/-- Claim C36, the code at a move out of turn: bob has accepted, alice plays FIRST
and no symbol is assigned yet.  client_make_move by bob, to the cell 1, returns -1,
but game_parse_move has given bob, for SECOND, the symbol X.  The move of alice to
the cell 1 that follows is made with O: the MOVED packet sent to bob shows O in the
first cell.  Without the attempt of bob her move is made with X. -/
theorem move_out_of_turn_assigns :
    (returned accepted).map symbols = some [some (' ', ' ')] ∧
    (returned (accepted.bind (fun w => client_make_move w 1 0 ['1']))).map
      (fun r => (r.1, symbols r.2)) = some (-1, [some (' ', 'X')]) ∧
    (seen (moved (moved accepted 1 ['1']) 0 ['1'])).map (fun v => sent_to 11 (v.wire.drop 3)) =
      some [{ fd := 11
              hdr := { type := JEUX_MOVED_PKT, id := 0, role := 0, size := 18 }
              data := some ['O', '|', ' ', '|', ' ', '\n', ' ', '|', ' ', '|', ' ', '\n',
                ' ', '|', ' ', '|', ' ', '\n'] }] ∧
    (seen (moved accepted 0 ['1'])).map (fun v => sent_to 11 (v.wire.drop 3)) =
      some [{ fd := 11
              hdr := { type := JEUX_MOVED_PKT, id := 0, role := 0, size := 18 }
              data := some ['X', '|', ' ', '|', ' ', '\n', ' ', '|', ' ', '|', ' ', '\n',
                ' ', '|', ' ', '|', ' ', '\n'] }] := by
  refine ⟨by decide, by decide, by decide, by decide⟩

/-! ## The semaphore of a game and the writes of a packet -/

/-- Claim C39, the code at the two returns inside and after the cell loop: FIRST
holds the centre and SECOND is on the move.  A MOVE of SECOND to the centre, which
is occupied, and one to the cell 0, which does not exist, return -1 and leave the
count of the semaphore at 0; a further call on the game then blocks.  A MOVE of
FIRST, out of turn, and a MOVE of SECOND to the cell 1 leave the count at 1. -/
theorem apply_move_keeps_semaphore :
    after_centre.seph = 1 ∧
    (parse_then_apply after_centre SECOND_PLAYER_ROLE ['5']).map (fun r => (r.1, r.2.seph)) =
      some (-1, 0) ∧
    (parse_then_apply after_centre SECOND_PLAYER_ROLE ['0']).map (fun r => (r.1, r.2.seph)) =
      some (-1, 0) ∧
    ((parse_then_apply after_centre SECOND_PLAYER_ROLE ['5']).bind
      (fun r => parse_then_apply r.2 SECOND_PLAYER_ROLE ['1'])).isNone = true ∧
    ((parse_then_apply after_centre SECOND_PLAYER_ROLE ['5']).bind
      (fun r => game_unparse_state r.2)).isNone = true ∧
    (parse_then_apply after_centre FIRST_PLAYER_ROLE ['1']).map (fun r => (r.1, r.2.seph)) =
      some (-1, 1) ∧
    (parse_then_apply after_centre SECOND_PLAYER_ROLE ['1']).map (fun r => (r.1, r.2.seph)) =
      some (0, 1) := by
  refine ⟨by decide, by decide, by decide, by decide, by decide, by decide, by decide⟩

/-- Claim C34, the code at a short write.  When the stream takes every write whole,
the header goes out in one write of its 16 bytes and a payload of 18 bytes in one
write.  When the stream takes 8 bytes of the first write, the second write asks for
16 bytes from the place 128, which is 8 headers after hdr and outside the header;
24 bytes are taken for the header, 16 of them from outside it.  When the stream
takes 10 bytes of the first write of a payload of 18 bytes, the second write asks
for 18 bytes from the place 10, so for the places up to 27, and 28 bytes are taken
for the payload. -/
theorem short_write_leaves_buffer :
    proto_send_packet_writes 18 [] =
      ([{ offset := 0, count := 16, taken := 16 }], [{ offset := 0, count := 18, taken := 18 }]) ∧
    proto_send_packet_writes 18 [8] =
      ([{ offset := 0, count := 16, taken := 8 }, { offset := 128, count := 16, taken := 16 }],
        [{ offset := 0, count := 18, taken := 18 }]) ∧
    ¬ inside HEADER_SIZE (proto_send_packet_writes 18 [8]).1 ∧
    taken_bytes (proto_send_packet_writes 18 [8]).1 ≠ List.range HEADER_SIZE ∧
    (taken_bytes (proto_send_packet_writes 18 [8]).1).length = 24 ∧
    proto_send_packet_writes 18 [16, 10] =
      ([{ offset := 0, count := 16, taken := 16 }],
        [{ offset := 0, count := 18, taken := 10 }, { offset := 10, count := 18, taken := 18 }]) ∧
    ¬ inside 18 (proto_send_packet_writes 18 [16, 10]).2 ∧
    (taken_bytes (proto_send_packet_writes 18 [16, 10]).2).length = 28 := by
  refine ⟨by decide, by decide, by decide, by decide, by decide, by decide, by decide,
    by decide⟩

/-! ## The sum of two ratings -/

theorem mem_indices (i : Fin 3) : i ∈ indices := by
  fin_cases i <;> simp [indices]

theorem check_rows_some (g : GAME) (l : List (Fin 3)) (e : GAME)
    (h : check_rows g l = some e) :
    e.gameover = 1 ∧ ∃ i : Fin 3, same_role g.gameboard (i, 0) (i, 1) (i, 2) := by
  induction l with
  | nil => simp [check_rows] at h
  | cons i rest ih =>
    simp only [check_rows] at h
    split_ifs at h with h1 h2
    · cases h
      exact ⟨rfl, i, h1.1, h1.2, h2⟩
    · exact ih h
    · exact ih h

theorem check_rows_none (g : GAME) (l : List (Fin 3)) (h : check_rows g l = none) :
    ∀ i : Fin 3, i ∈ l → ¬ same_role g.gameboard (i, 0) (i, 1) (i, 2) := by
  induction l with
  | nil => intro i hi; simp at hi
  | cons j rest ih =>
    simp only [check_rows] at h
    intro i hi
    split_ifs at h with h1 h2
    · rcases List.mem_cons.mp hi with e | hi'
      · subst e
        intro hs
        exact h2 hs.2.2
      · exact ih h i hi'
    · rcases List.mem_cons.mp hi with e | hi'
      · subst e
        intro hs
        exact h1 ⟨hs.1, hs.2.1⟩
      · exact ih h i hi'

theorem check_cols_some (g : GAME) (l : List (Fin 3)) (e : GAME)
    (h : check_cols g l = some e) :
    e.gameover = 1 ∧ ∃ j : Fin 3, same_role g.gameboard (0, j) (1, j) (2, j) := by
  induction l with
  | nil => simp [check_cols] at h
  | cons i rest ih =>
    simp only [check_cols] at h
    split_ifs at h with h1 h2
    · cases h
      exact ⟨rfl, i, h1.1, h1.2, h2⟩
    · exact ih h
    · exact ih h

theorem check_cols_none (g : GAME) (l : List (Fin 3)) (h : check_cols g l = none) :
    ∀ j : Fin 3, j ∈ l → ¬ same_role g.gameboard (0, j) (1, j) (2, j) := by
  induction l with
  | nil => intro i hi; simp at hi
  | cons j rest ih =>
    simp only [check_cols] at h
    intro i hi
    split_ifs at h with h1 h2
    · rcases List.mem_cons.mp hi with e | hi'
      · subst e
        intro hs
        exact h2 hs.2.2
      · exact ih h i hi'
    · rcases List.mem_cons.mp hi with e | hi'
      · subst e
        intro hs
        exact h1 ⟨hs.1, hs.2.1⟩
      · exact ih h i hi'

/-- The checker for a winner on a game whose over flag is 0: the flag is set exactly
when the board has three in a line. -/
theorem check_winner_over (g : GAME) (h0 : g.gameover = 0) :
    (check_winner g).gameover ≠ 0 ↔ has_line g.gameboard := by
  unfold check_winner
  split
  · next e h =>
    obtain ⟨he, i, hi⟩ := check_rows_some g _ e h
    constructor
    · intro _
      exact Or.inl ⟨i, hi⟩
    · intro _
      rw [he]
      decide
  · next hrows =>
    have hr := check_rows_none g _ hrows
    split
    · next e h =>
      obtain ⟨he, j, hj⟩ := check_cols_some g _ e h
      constructor
      · intro _
        exact Or.inr (Or.inl ⟨j, hj⟩)
      · intro _
        rw [he]
        decide
    · next hcols =>
      have hc := check_cols_none g _ hcols
      split
      · next e h =>
        simp only [check_left] at h
        split_ifs at h with h1 h2
        cases h
        constructor
        · intro _
          exact Or.inr (Or.inr (Or.inl ⟨h1.1, h1.2, h2⟩))
        · intro _
          exact one_ne_zero
      · next hleft =>
        have hl : ¬ same_role g.gameboard (0, 0) (1, 1) (2, 2) := by
          intro hs
          simp only [check_left] at hleft
          rw [if_pos ⟨hs.1, hs.2.1⟩, if_pos hs.2.2] at hleft
          cases hleft
        split
        · next e h =>
          simp only [check_right] at h
          split_ifs at h with h1 h2
          cases h
          constructor
          · intro _
            exact Or.inr (Or.inr (Or.inr ⟨h1.1, h1.2, h2⟩))
          · intro _
            exact one_ne_zero
        · next hright =>
          have hrt : ¬ same_role g.gameboard (2, 0) (1, 1) (0, 2) := by
            intro hs
            simp only [check_right] at hright
            rw [if_pos ⟨hs.1, hs.2.1⟩, if_pos hs.2.2] at hright
            cases hright
          constructor
          · intro h
            exact absurd h0 h
          · intro h
            rcases h with ⟨i, hi⟩ | ⟨j, hj⟩ | h | h
            · exact absurd hi (hr i (mem_indices i))
            · exact absurd hj (hc j (mem_indices j))
            · exact absurd h hl
            · exact absurd h hrt

theorem place_loop_over (g : GAME) (cord turn : Int) (l : List (Fin 3 × Fin 3)) (c : Int)
    (g1 : GAME) (h : place_loop g cord turn l c = PLACED.found g1) :
    g1.gameover = g.gameover := by
  induction l generalizing c with
  | nil => simp [place_loop] at h
  | cons p rest ih =>
    obtain ⟨i, j⟩ := p
    by_cases h1 : cord = c
    · by_cases h2 : g.gameboard i j ≠ 0
      · simp [place_loop, h1, h2] at h
      · simp only [place_loop, if_pos h1, if_neg h2] at h
        cases h
        rfl
    · simp only [place_loop, if_neg h1] at h
      exact ih _ h

/-- Claim C37: for a game that is not over (game_is_over gives 0) and a call of
game_apply_move on it that returns 0, game_is_over gives 1 for the game after the
call exactly when its board has a row, a column or a diagonal whose three cells hold
the same role, not NULL_ROLE. -/
theorem game_apply_move_over (g g' : GAME) (m : GAME_MOVE)
    (hover : game_is_over g = 0)
    (h : game_apply_move g (some m) = some (0, g')) :
    game_is_over g' = 1 ↔ has_line g'.gameboard := by
  have h0 : g.gameover = 0 := by
    unfold game_is_over at hover
    by_contra hne
    rw [if_pos hne] at hover
    cases hover
  have hstep : ∃ g1 : GAME, g1.gameover = 0 ∧ g' = post (check_winner g1) := by
    simp only [game_apply_move] at h
    cases hw : sem_wait g.seph with
    | none => rw [hw] at h; simp at h
    | some count =>
      rw [hw] at h
      simp only at h
      split_ifs at h with h1 h2 h3
      · simp at h
      · simp at h
      · simp at h
      · cases hp : place_loop { g with seph := count } m.cord (int_to_char m.turn) cells 1 with
        | occupied => rw [hp] at h; simp at h
        | not_found => rw [hp] at h; simp at h
        | found g1 =>
          rw [hp] at h
          simp only [Option.some.injEq, Prod.mk.injEq, true_and] at h
          exact ⟨g1, by rw [place_loop_over _ _ _ _ _ g1 hp]; exact h0, h.symm⟩
  obtain ⟨g1, hg1, hg'⟩ := hstep
  have hboard : g'.gameboard = g1.gameboard := by
    rw [hg']
    exact (check_winner_frame g1).1
  have hflag : g'.gameover = (check_winner g1).gameover := by
    rw [hg']
    rfl
  rw [hboard, ← check_winner_over g1 hg1, ← hflag]
  unfold game_is_over
  constructor
  · intro h1 hz
    rw [if_neg (by simpa using hz)] at h1
    cases h1
  · intro hnz
    rw [if_pos hnz]

/-- Witness of C37: FIRST, who holds the cells 1 and 2, moves to the cell 3 of a game
that is not over; the game is over afterwards and the top row is a line. -/
theorem game_apply_move_over_witness :
    ∃ g' : GAME, game_is_over top_two = 0 ∧
      game_apply_move top_two (some { cord := 3, turn := FIRST_PLAYER_ROLE, sym := 'X' }) =
        some (0, g') ∧
      (game_is_over g' = 1 ↔ has_line g'.gameboard) ∧ game_is_over g' = 1 :=
  ⟨_, rfl, rfl,
    game_apply_move_over top_two _ { cord := 3, turn := FIRST_PLAYER_ROLE, sym := 'X' } rfl rfl,
    rfl⟩

end TicTacToe
